import Mathlib

/-!
# The Lua binding layer of the engine (`modules/luascript`)

A shallow embedding of `lua_variant.cpp` and `lua_instance.cpp`.

* The Lua 5.1 C API the two files are written against is modelled as pure
  functions on a `World`: the value stack, the table heap (table `0` is the
  registry), the full userdata blocks, and the native-side data the binding
  functions read and write (boxed `Variant` cells, the script-instance slot
  of every object, the static members `stacklevel` and `stackrefs`).
* Every binding function is translated statement by statement; the name of
  each definition is the name of the C++ function.
* Lua functions are values `LuaValue.function f`; what running `f` does is
  given by an environment `LuaEnv`, a parameter of everything that calls
  into Lua.
-/

namespace LuaBinding

/-! ## Values of the two sides -/

/-- A `lua_Number` is a C `double`; the model keeps the number it denotes. -/
abbrev lua_Number := Rat

/-- The dynamic side: a Lua value. Tables, functions, full userdata and
threads are references (compared by identity). -/
inductive LuaValue where
  | nil
  | boolean (b : Bool)
  | number (n : lua_Number)
  | string (s : String)
  | table (id : Nat)
  | function (id : Nat)
  | userdata (id : Nat)
  | lightuserdata (p : Nat)
  | thread (id : Nat)
  deriving DecidableEq, Repr

/-- The type tags returned by `lua_type`. -/
inductive LuaType where
  | LUA_TNONE | LUA_TNIL | LUA_TBOOLEAN | LUA_TLIGHTUSERDATA | LUA_TNUMBER
  | LUA_TSTRING | LUA_TTABLE | LUA_TFUNCTION | LUA_TUSERDATA | LUA_TTHREAD
  deriving DecidableEq, Repr

/-- The kind tag of a native value, `Variant::Type`. -/
inductive VariantType where
  | NIL | BOOL | INT | REAL | STRING
  | VECTOR2 | RECT2 | VECTOR3 | MATRIX32 | PLANE | QUAT | _AABB | MATRIX3
  | TRANSFORM | COLOR | IMAGE | NODE_PATH | _RID | OBJECT | INPUT_EVENT
  | DICTIONARY | ARRAY | RAW_ARRAY | INT_ARRAY | REAL_ARRAY | STRING_ARRAY
  | VECTOR2_ARRAY | VECTOR3_ARRAY | COLOR_ARRAY
  deriving DecidableEq, Repr

/-- The native side: a tagged value. An object is a pointer (`0` is `NULL`);
a compound builtin carries its kind and its contents. -/
inductive Variant where
  | nil
  | bool (b : Bool)
  | int (i : Int)
  | real (r : lua_Number)
  | string (s : String)
  | object (obj : Nat)
  | builtin (t : VariantType) (data : List Int)
  deriving DecidableEq, Repr

namespace VariantType

/-- The kinds that `l_push_variant` boxes with `l_push_bulltins_type`. -/
def isCompound : VariantType → Bool
  | NIL | BOOL | INT | REAL | STRING | OBJECT => false
  | _ => true

/-- The primitive kinds. -/
def isPrimitive : VariantType → Bool
  | NIL | BOOL | INT | REAL | STRING => true
  | _ => false

end VariantType

/-- Modelled from the spec: the class `String` is not among the sources. The
spec converts a native string to a dynamic string; its method `utf8` is taken
to be the standard UTF-8 encoding, given here for one character by its code
point. -/
def utf8 (c : Nat) : List Nat :=
  if c < 0x80 then [c]
  else if c < 0x800 then [0xC0 + c / 0x40, 0x80 + c % 0x40]
  else if c < 0x10000 then [0xE0 + c / 0x1000, 0x80 + c / 0x40 % 0x40, 0x80 + c % 0x40]
  else [0xF0 + c / 0x40000, 0x80 + c / 0x1000 % 0x40, 0x80 + c / 0x40 % 0x40, 0x80 + c % 0x40]

/-- The C string `s.utf8().get_data()` as a function that takes a
zero-terminated `const char *` reads it (`lua_pushstring`): the bytes of the
encoding that come before the first zero byte. A Lua string is kept as the
text whose characters are its bytes. -/
def utf8_get_data (s : String) : String :=
  ⟨((s.data.flatMap (fun c => utf8 c.toNat)).takeWhile (fun b => b != 0)).map Char.ofNat⟩

namespace Variant

/-- `Variant::get_type`. -/
def get_type : Variant → VariantType
  | nil => .NIL
  | bool _ => .BOOL
  | int _ => .INT
  | real _ => .REAL
  | string _ => .STRING
  | object _ => .OBJECT
  | builtin t _ => t

/-- `operator bool` on a BOOL value. -/
def toBool : Variant → Bool
  | bool b => b
  | _ => false

/-- `operator int` on an INT value. -/
def toInt : Variant → Int
  | int i => i
  | _ => 0

/-- `operator double` on a REAL value. -/
def toDouble : Variant → lua_Number
  | real r => r
  | _ => 0

/-- `operator String` on a STRING value, then `utf8().get_data()`. -/
def toCString : Variant → String
  | string s => utf8_get_data s
  | _ => ""

/-- Modelled from the spec: the class `Variant` is not among the sources, so
what `var = lua_tostring(L, idx)` stores is taken from the conversion table
of the spec (a dynamic string becomes a native string): the characters of the
new string are the bytes of the `const char *`, which ends at its first zero
byte, one character for each byte. -/
def ofCString (s : String) : Variant := string ⟨s.data.takeWhile (fun c => c != Char.ofNat 0)⟩

/-- `operator Object*`: the pointer of an OBJECT value, `NULL` otherwise. -/
def toObject : Variant → Nat
  | object p => p
  | _ => 0

/-- Modelled from the spec: the `Variant` class is not among the sources, so
what `var = NULL` stores is taken from the conversion table of the spec
(the nil sentinel corresponds to NIL; unsupported kinds degrade to nil). -/
def ofNULL : Variant := nil

/-- The value stored by `var = *((Variant **) p)`: the right-hand side is the
pointer kept in the userdata block, not the `Variant` it points to. A
`Variant*` converts to a `Variant` only through the pointer-to-bool
conversion, so the result is a BOOL telling whether the pointer is non-null. -/
def ofVariantPtr (p : Nat) : Variant := bool (p != 0)

end Variant

/-! ## The world: the Lua state and the native data around it -/

/-- A Lua table: its raw fields and its metatable (a table id). -/
structure LuaTable where
  fields : List (LuaValue × LuaValue)
  metatable : Option Nat
  deriving DecidableEq, Repr

/-- A full userdata block of pointer size: the pointer written into it and
its metatable. -/
structure UserData where
  ptr : Nat
  metatable : Option Nat
  deriving DecidableEq, Repr

/-- A `LuaScript *`. A script is its `ref` (the registry slot of the script
table) and its `_base` pointer, so a pointer to a script is the finite chain
it starts: `[]` is `NULL`, and `r :: b` is the script with `ref = r` and
`_base = b`. -/
abbrev LuaScriptPtr := List Int

/-- The data members of a `LuaInstance`. -/
structure LuaInstance where
  owner : Nat
  base_ref : Bool
  ref : Int
  script : LuaScriptPtr
  deriving DecidableEq, Repr

/-- What `Object::get_script_instance` can return besides `NULL`: a
`LuaInstance`, or an instance of another language (for which
`dynamic_cast<LuaInstance *>` gives `NULL`). -/
inductive ScriptInstance where
  | lua (inst : LuaInstance)
  | other
  deriving DecidableEq, Repr

/-- The outcome of running a Lua function: its results, or the error value. -/
inductive PcallResult where
  | ok (results : List LuaValue)
  | error (e : LuaValue)
  deriving DecidableEq, Repr

/-- One entry of the call log: the function run by `lua_pcall`, the
arguments it got (first one first) and how it ended. -/
structure CallRecord where
  fn : Nat
  args : List LuaValue
  outcome : PcallResult
  deriving DecidableEq, Repr

/-- The whole state the binding functions work on. -/
structure World where
  /-- the value stack of the Lua state, top first -/
  stack : List LuaValue
  /-- the table heap; table `0` is the registry -/
  tables : List LuaTable
  /-- the full userdata blocks -/
  udata : List UserData
  /-- the next key `luaL_ref` hands out -/
  nextref : Int
  /-- the `Variant` cells made by `memnew(Variant)`; cell `a` is at index `a - 1` -/
  variants : List Variant
  /-- the script-instance slot of the objects that have one -/
  objects : List (Nat × ScriptInstance)
  /-- the static member `LuaInstance::stacklevel`; the source declares it
  `const char *` and uses it as a counter (`++`, `--`, `== 0`) -/
  stacklevel : Int
  /-- the static member `LuaInstance::stackrefs` -/
  stackrefs : List Variant
  /-- the calls made through `lua_pcall`, oldest first -/
  calls : List CallRecord
  /-- the messages passed to `reportError`: error text and method name -/
  errors : List (Option String × String)
  deriving DecidableEq, Repr

/-- The meaning of the Lua functions: function id, arguments (first one
first) and the world at the call give the outcome and the world after. -/
abbrev LuaEnv := Nat → List LuaValue → World → PcallResult × World

/-! ## The Lua 5.1 C API -/

/-- The pseudo-index of the registry. -/
def LUA_REGISTRYINDEX : Int := -10000

/-- The reference that `luaL_ref` never returns. -/
def LUA_NOREF : Int := -2

/-- The reference `luaL_ref` returns for nil. -/
def LUA_REFNIL : Int := -1

/-- The registry, as a value. -/
def registry : LuaValue := .table 0

/-- The value at an acceptable index of a stack (top first): positive
indices count from the bottom, negative ones from the top,
`LUA_REGISTRYINDEX` is the registry. -/
def index2adr (stack : List LuaValue) (idx : Int) : Option LuaValue :=
  if 0 < idx then stack.reverse[(idx - 1).toNat]?
  else if idx = LUA_REGISTRYINDEX then some registry
  else if idx < 0 then stack[(-idx - 1).toNat]?
  else none

/-- The type tag of a value (`LUA_TNONE` for a non-valid index). -/
def typeOf : Option LuaValue → LuaType
  | none => .LUA_TNONE
  | some .nil => .LUA_TNIL
  | some (.boolean _) => .LUA_TBOOLEAN
  | some (.number _) => .LUA_TNUMBER
  | some (.string _) => .LUA_TSTRING
  | some (.table _) => .LUA_TTABLE
  | some (.function _) => .LUA_TFUNCTION
  | some (.userdata _) => .LUA_TUSERDATA
  | some (.lightuserdata _) => .LUA_TLIGHTUSERDATA
  | some (.thread _) => .LUA_TTHREAD

/-- The function `lua_type`. -/
def lua_type (L : World) (idx : Int) : LuaType := typeOf (index2adr L.stack idx)

/-- The test `lua_isnil`. -/
def lua_isnil (L : World) (idx : Int) : Bool := lua_type L idx == .LUA_TNIL

/-- The test `lua_istable`. -/
def lua_istable (L : World) (idx : Int) : Bool := lua_type L idx == .LUA_TTABLE

/-- The test `lua_isfunction`. -/
def lua_isfunction (L : World) (idx : Int) : Bool := lua_type L idx == .LUA_TFUNCTION

/-- The function `lua_gettop`. -/
def lua_gettop (L : World) : Int := L.stack.length

/-- The function `lua_settop`: a non-negative index is the new height (new
slots are nil), a negative one is relative to the top. -/
def lua_settop (L : World) (idx : Int) : World :=
  let n : Nat := if 0 ≤ idx then idx.toNat else (L.stack.length + 1 - (-idx).toNat)
  if n ≤ L.stack.length then { L with stack := L.stack.drop (L.stack.length - n) }
  else { L with stack := List.replicate (n - L.stack.length) .nil ++ L.stack }

/-- The function `lua_pop(L, n)` is `lua_settop(L, -(n)-1)`. -/
def lua_pop (L : World) (n : Nat) : World := lua_settop L (-(n : Int) - 1)

/-- Push a value. -/
def push (L : World) (v : LuaValue) : World := { L with stack := v :: L.stack }

/-- The function `lua_pushnil`. -/
def lua_pushnil (L : World) : World := push L .nil

/-- The function `lua_pushboolean`. -/
def lua_pushboolean (L : World) (b : Int) : World := push L (.boolean (b != 0))

/-- The function `lua_pushinteger`: the integer is cast to `lua_Number`. -/
def lua_pushinteger (L : World) (n : Int) : World := push L (.number (n : Rat))

/-- The function `lua_pushnumber`. -/
def lua_pushnumber (L : World) (n : lua_Number) : World := push L (.number n)

/-- The function `lua_pushstring`, given the text of the C string up to its
terminating zero byte. -/
def lua_pushstring (L : World) (s : String) : World := push L (.string s)

/-- The function `lua_pushvalue`. -/
def lua_pushvalue (L : World) (idx : Int) : World :=
  push L ((index2adr L.stack idx).getD .nil)

/-- The function `lua_remove`, for an index relative to the top or from the
bottom: the element goes, those above it shift down. -/
def lua_remove (L : World) (idx : Int) : World :=
  let pos : Nat := if idx < 0 then (-idx - 1).toNat else L.stack.length - idx.toNat
  { L with stack := L.stack.eraseIdx pos }

/-- The raw fields of a table value. Reading a field of a value that is no
table is undefined in the C API; here such a value has no fields, so the
read gives nil. -/
def fieldsOf (tables : List LuaTable) (t : Option LuaValue) : List (LuaValue × LuaValue) :=
  match t with
  | some (.table id) => (tables[id]?.map (·.fields)).getD []
  | _ => []

/-- Raw read of a field (`luaH_get`): nil when the key is absent. -/
def rawfield (tables : List LuaTable) (t : Option LuaValue) (k : LuaValue) : LuaValue :=
  ((fieldsOf tables t).lookup k).getD .nil

/-- Raw write of a field (`luaH_set`): writing nil deletes the key. -/
def setfields (fs : List (LuaValue × LuaValue)) (k v : LuaValue) : List (LuaValue × LuaValue) :=
  if v = .nil then fs.filter (fun e => e.1 != k)
  else (k, v) :: fs.filter (fun e => e.1 != k)

/-- Raw write into a table value of the heap. -/
def rawstore (tables : List LuaTable) (t : Option LuaValue) (k v : LuaValue) : List LuaTable :=
  match t with
  | some (.table id) =>
    match tables[id]? with
    | some tb => tables.set id { tb with fields := setfields tb.fields k v }
    | none => tables
  | _ => tables

/-- The function `lua_rawget`: the key is popped, `t[k]` is pushed, with `t`
the value at the index. -/
def lua_rawget (L : World) (idx : Int) : World :=
  match L.stack with
  | k :: rest => { L with stack := rawfield L.tables (index2adr L.stack idx) k :: rest }
  | [] => L

/-- The function `lua_rawgeti`: `t[n]` is pushed. -/
def lua_rawgeti (L : World) (idx : Int) (n : Int) : World :=
  push L (rawfield L.tables (index2adr L.stack idx) (.number (n : Rat)))

/-- The function `lua_getfield`, on tables that have no `__index`
metamethod: `t[k]` is pushed. -/
def lua_getfield (L : World) (idx : Int) (k : String) : World :=
  push L (rawfield L.tables (index2adr L.stack idx) (.string k))

/-- The function `lua_setfield`, on tables that have no `__newindex`
metamethod: `t[k] = v` with `v` the top, which is popped. -/
def lua_setfield (L : World) (idx : Int) (k : String) : World :=
  match L.stack with
  | v :: rest =>
    { L with stack := rest,
             tables := rawstore L.tables (index2adr L.stack idx) (.string k) v }
  | [] => L

/-- The function `lua_rawset`: `t[k] = v` with `v` the top and `k` below
it; both are popped. -/
def lua_rawset (L : World) (idx : Int) : World :=
  match L.stack with
  | v :: k :: rest =>
    { L with stack := rest, tables := rawstore L.tables (index2adr L.stack idx) k v }
  | _ => L

/-- The function `lua_newtable`. -/
def lua_newtable (L : World) : World :=
  { L with stack := .table L.tables.length :: L.stack,
           tables := L.tables ++ [{ fields := [], metatable := none }] }

/-- The function `lua_newuserdata` for a block of pointer size: the new
block (holding no pointer yet) is pushed. Its address is its id,
`L.udata.length` before the call. -/
def lua_newuserdata (L : World) : World :=
  { L with stack := .userdata L.udata.length :: L.stack,
           udata := L.udata ++ [{ ptr := 0, metatable := none }] }

/-- The store `*((T **) ptr) = p` into a userdata block. -/
def storePtr (L : World) (blk : Nat) (p : Nat) : World :=
  match L.udata[blk]? with
  | some ud => { L with udata := L.udata.set blk { ud with ptr := p } }
  | none => L

/-- The metatable of a value (tables and full userdata have their own). -/
def metatableOf (tables : List LuaTable) (udata : List UserData) (v : Option LuaValue) :
    Option Nat :=
  match v with
  | some (.table id) => (tables[id]?).bind (·.metatable)
  | some (.userdata id) => (udata[id]?).bind (·.metatable)
  | _ => none

/-- The function `lua_getmetatable`: pushes the metatable and returns 1, or
pushes nothing and returns 0. -/
def lua_getmetatable (L : World) (idx : Int) : Bool × World :=
  match metatableOf L.tables L.udata (index2adr L.stack idx) with
  | some mt => (true, push L (.table mt))
  | none => (false, L)

/-- The function `lua_setmetatable`: the top (a table or nil) is popped and
becomes the metatable of the value at the index. -/
def lua_setmetatable (L : World) (idx : Int) : World :=
  match L.stack with
  | m :: rest =>
    let mt : Option Nat := match m with
      | .table id => some id
      | _ => none
    match index2adr L.stack idx with
    | some (.table id) =>
      match L.tables[id]? with
      | some tb => { L with stack := rest, tables := L.tables.set id { tb with metatable := mt } }
      | none => { L with stack := rest }
    | some (.userdata id) =>
      match L.udata[id]? with
      | some ud => { L with stack := rest, udata := L.udata.set id { ud with metatable := mt } }
      | none => { L with stack := rest }
    | _ => { L with stack := rest }
  | [] => L

/-- The function `luaL_getmetatable(L, n)` is `lua_getfield(L, LUA_REGISTRYINDEX, n)`. -/
def luaL_getmetatable (L : World) (tname : String) : World :=
  lua_getfield L LUA_REGISTRYINDEX tname

/-- The function `lua_rawequal`: primitive equality of two stack values. -/
def lua_rawequal (L : World) (i j : Int) : Bool :=
  match index2adr L.stack i, index2adr L.stack j with
  | some a, some b => a == b
  | _, _ => false

/-- The function `lua_touserdata` on a full userdata: the block (here its
id); `NULL` for what is neither full nor light userdata. -/
def lua_touserdata (L : World) (idx : Int) : Option Nat :=
  match index2adr L.stack idx with
  | some (.userdata id) => some id
  | _ => none

/-- The pointer kept in a userdata block. -/
def blockPtr (udata : List UserData) (blk : Nat) : Nat := ((udata[blk]?).map (·.ptr)).getD 0

/-- The function `lua_toboolean`. -/
def lua_toboolean (L : World) (idx : Int) : Int :=
  match index2adr L.stack idx with
  | none | some .nil | some (.boolean false) => 0
  | _ => 1

/-- The function `lua_tonumber` on a number (anything else reads as 0). -/
def lua_tonumber (L : World) (idx : Int) : lua_Number :=
  match index2adr L.stack idx with
  | some (.number n) => n
  | _ => 0

/-- The function `lua_tostring` on a string (`NULL` for what is neither a
string nor a number; the formatting of numbers is left out). -/
def lua_tostring (L : World) (idx : Int) : Option String :=
  match index2adr L.stack idx with
  | some (.string s) => some s
  | _ => none

/-- The function `luaL_ref(L, LUA_REGISTRYINDEX)`: the top is popped; nil
gives `LUA_REFNIL`, anything else is stored under a fresh key. -/
def luaL_ref (L : World) : Int × World :=
  match L.stack with
  | [] => (LUA_REFNIL, L)
  | .nil :: rest => (LUA_REFNIL, { L with stack := rest })
  | v :: rest =>
    (L.nextref, { L with stack := rest,
                         tables := rawstore L.tables (some registry) (.number (L.nextref : Rat)) v,
                         nextref := L.nextref + 1 })

/-- The function `luaL_unref(L, LUA_REGISTRYINDEX, ref)`: frees the slot of
a non-negative reference. -/
def luaL_unref (L : World) (ref : Int) : World :=
  if 0 ≤ ref then
    { L with tables := rawstore L.tables (some registry) (.number (ref : Rat)) .nil }
  else L

/-- Pad or cut a result list to `n` values. -/
def adjustResults (rs : List LuaValue) (n : Nat) : List LuaValue :=
  rs.take n ++ List.replicate (n - rs.length) .nil

/-- The function `lua_pcall(L, nargs, nresults, 0)`: the function lies below
its `nargs` arguments; all are popped; on success the results are pushed
(first result first) and 0 is returned, on failure the error value is pushed
and a non-zero status is returned. The callee cannot touch the stack of the
caller, and the call is entered into the call log. -/
def lua_pcall (env : LuaEnv) (L : World) (nargs nresults : Nat) : Int × World :=
  let args := (L.stack.take nargs).reverse
  match L.stack.drop nargs with
  | .function f :: rest =>
    let out := env f args { L with stack := rest }
    match out.1 with
    | .ok rs =>
      (0, { out.2 with stack := (adjustResults rs nresults).reverse ++ rest,
                       calls := L.calls ++ [⟨f, args, out.1⟩] })
    | .error e =>
      (2, { out.2 with stack := e :: rest, calls := L.calls ++ [⟨f, args, out.1⟩] })
  | _ :: rest => (2, { L with stack := .string "attempt to call a non-function value" :: rest })
  | [] => (2, { L with stack := [.string "attempt to call a non-function value"] })

/-! ## `lua_variant.cpp` -/

/-- The expression `memnew(Variant)` followed by the assignment of `var` to
the new cell: the address of the cell and the world with the cell. -/
def memnew_Variant (L : World) (var : Variant) : Nat × World :=
  (L.variants.length + 1, { L with variants := L.variants ++ [var] })

/-- `Object::get_script_instance`. -/
def get_script_instance (L : World) (obj : Nat) : Option ScriptInstance :=
  L.objects.lookup obj

/-- `LuaInstance::l_push_bulltins_type`. -/
def l_push_bulltins_type (L : World) (var : Variant) : World :=
  let blk := L.udata.length
  let L := lua_newuserdata L
  let cell := memnew_Variant L var
  let L := storePtr cell.2 blk cell.1
  let L := luaL_getmetatable L "Variant"
  lua_setmetatable L (-2)

/-- `LuaInstance::l_get_variant`: the world after (the stack can change) and
the new content of the output `var`. -/
def l_get_variant (L : World) (idx : Int) (var : Variant) : World × Variant :=
  match lua_type L idx with
  | .LUA_TNIL | .LUA_TTHREAD | .LUA_TLIGHTUSERDATA | .LUA_TFUNCTION => (L, Variant.ofNULL)
  | .LUA_TTABLE => (L, var)
  | .LUA_TBOOLEAN => (L, .bool (lua_toboolean L idx != 0))
  | .LUA_TNUMBER => (L, .real (lua_tonumber L idx))
  | .LUA_TSTRING => (L, Variant.ofCString ((lua_tostring L idx).getD ""))
  | .LUA_TUSERDATA =>
    match lua_touserdata L idx with
    | none => (L, var)
    | some p =>
      let m := lua_getmetatable L idx
      if m.1 then
        let L1 := lua_getfield m.2 LUA_REGISTRYINDEX "GdObject"
        if lua_rawequal L1 (-1) (-2) then
          (lua_pop L1 2, .object (blockPtr L.udata p))
        else
          let L2 := lua_pop L1 1
          let L3 := lua_getfield L2 LUA_REGISTRYINDEX "Variant"
          if lua_rawequal L3 (-1) (-2) then
            (lua_pop L3 2, Variant.ofVariantPtr (blockPtr L.udata p))
          else
            let L4 := lua_pop L3 1
            (lua_pop L4 1, var)
      else
        (lua_pop m.2 1, var)
  | .LUA_TNONE => (L, var)

/-- The tail of the OBJECT case of `l_push_variant`: a new userdata block
holding the object pointer, with the `GdObject` metatable. -/
def pushObjectUserdata (L : World) (obj : Nat) : World :=
  let blk := L.udata.length
  let L := lua_newuserdata L
  let L := storePtr L blk obj
  let L := luaL_getmetatable L "GdObject"
  lua_setmetatable L (-2)

/-- `LuaInstance::l_push_variant`. -/
def l_push_variant (L : World) (var : Variant) : World :=
  match var.get_type with
  | .NIL => lua_pushnil L
  | .BOOL => lua_pushboolean L (if var.toBool then 1 else 0)
  | .INT => lua_pushinteger L var.toInt
  | .REAL => lua_pushnumber L var.toDouble
  | .STRING => lua_pushstring L var.toCString
  | .OBJECT =>
    let obj := var.toObject
    if obj = 0 then lua_pushnil L
    else
      match get_script_instance L obj with
      | some (.lua inst) =>
        let L1 := lua_rawgeti L LUA_REGISTRYINDEX inst.ref
        if lua_istable L1 (-1) then
          let L2 := lua_pushstring L1 ".c_instance"
          let L3 := lua_rawget L2 (-2)
          if !lua_isnil L3 (-1) then lua_remove L3 (-2)
          else
            let L4 := lua_pop L3 2
            let L5 := lua_pop L4 1
            pushObjectUserdata L5 obj
        else
          let L2 := lua_pop L1 1
          pushObjectUserdata L2 obj
      | _ => pushObjectUserdata L obj
  | .VECTOR2 | .RECT2 | .VECTOR3 | .MATRIX32 | .PLANE | .QUAT | ._AABB | .MATRIX3
  | .TRANSFORM | .COLOR | .IMAGE | .NODE_PATH | ._RID | .INPUT_EVENT | .DICTIONARY
  | .ARRAY | .RAW_ARRAY | .INT_ARRAY | .REAL_ARRAY | .STRING_ARRAY | .VECTOR2_ARRAY
  | .VECTOR3_ARRAY | .COLOR_ARRAY => l_push_bulltins_type L var

/-! ## `lua_instance.cpp` -/

/-- The enumerators of the engine's `Error` enumeration that the two files
use. They are four different enumerators: `OK` and `FAILED` are the first
two of the enumeration, `ERR_SCRIPT_FAILED` and `ERR_SKIP` come later. -/
inductive Error where
  | OK | FAILED | ERR_SCRIPT_FAILED | ERR_SKIP
  deriving DecidableEq, Repr

/-- The values of `Variant::CallError::Error` that the two files use. -/
inductive CallError where
  | CALL_OK | CALL_ERROR_INVALID_METHOD
  deriving DecidableEq, Repr

/-- The member `sptr->ref` of a non-null script pointer. -/
def LuaScriptPtr.ref (sptr : LuaScriptPtr) : Int := sptr.headD LUA_NOREF

/-- The member `sptr->_base` of a non-null script pointer. -/
def LuaScriptPtr._base (sptr : LuaScriptPtr) : LuaScriptPtr := sptr.tail

/-- `LuaInstance::_start_stacked`. -/
def _start_stacked (L : World) : World := { L with stacklevel := L.stacklevel + 1 }

/-- `LuaInstance::_ref_stacked`. -/
def _ref_stacked (L : World) (var : Variant) : World :=
  { L with stackrefs := L.stackrefs ++ [var] }

/-- `LuaInstance::_cleanup_stacked`. -/
def _cleanup_stacked (L : World) : World :=
  let L := { L with stacklevel := L.stacklevel - 1 }
  if L.stacklevel = 0 then { L with stackrefs := [] } else L

/-- `LuaScript::reportError("Call Error: %s, Function: %s", err, p_method)`. -/
def reportError (L : World) (err : Option String) (p_method : String) : World :=
  { L with errors := L.errors ++ [(err, p_method)] }

/-- `LuaInstance::_call_script`; `p_args` stands for the array `p_args` and
its length `p_argcount`. -/
def _call_script (env : LuaEnv) (L : World) (sptr : LuaScriptPtr) (inst : LuaInstance)
    (p_method : String) (p_args : List Variant) (p_ret : Bool) : Error × World :=
  let L := _start_stacked L
  let L := lua_rawgeti L LUA_REGISTRYINDEX inst.ref
  let L := lua_pushstring L p_method
  let L := lua_rawget L (-2)
  let L :=
    if lua_isnil L (-1) then
      let L := lua_pop L 1
      let L := lua_rawgeti L LUA_REGISTRYINDEX sptr.ref
      let L := lua_pushstring L p_method
      let L := lua_rawget L (-2)
      lua_remove L (-2)
    else L
  if lua_isfunction L (-1) then
    let L := l_push_variant L (.object inst.owner)
    let L := p_args.foldl l_push_variant L
    let r := lua_pcall env L (p_args.length + 1) (if p_ret then 1 else 0)
    if r.1 ≠ 0 then
      let err := lua_tostring r.2 (-1)
      let L := reportError r.2 err p_method
      (.ERR_SCRIPT_FAILED, _cleanup_stacked L)
    else
      (.OK, _cleanup_stacked r.2)
  else
    (.ERR_SKIP, _cleanup_stacked L)

/-- `LuaInstance::_call_script_func`, the overload without a result. -/
def _call_script_func (env : LuaEnv) (L : World) (sptr : LuaScriptPtr) (inst : LuaInstance)
    (p_method : String) (p_args : List Variant) : Error × World :=
  let top := lua_gettop L
  let r := _call_script env L sptr inst p_method p_args false
  (r.1, lua_settop r.2 top)

/-- `LuaInstance::_call_script_func`, the overload with the output `result`
(an overload needs a name of its own here): the status, the new content of
`result`, and the world after. -/
def _call_script_func_result (env : LuaEnv) (L : World) (sptr : LuaScriptPtr)
    (inst : LuaInstance) (p_method : String) (p_args : List Variant) (result : Variant) :
    Error × Variant × World :=
  let top := lua_gettop L
  let r := _call_script env L sptr inst p_method p_args true
  if r.1 = .OK then
    let g := l_get_variant r.2 (-1) result
    (r.1, g.2, lua_settop g.1 top)
  else
    (r.1, result, lua_settop r.2 top)

/-- The loop of `LuaInstance::set` from the script pointer `sptr` on. -/
def set_loop (env : LuaEnv) (inst : LuaInstance) (p_name : String) (p_value : Variant) :
    LuaScriptPtr → World → Bool × World
  | [], L => (false, L)
  | ref :: base, L =>
    let r := _call_script_func_result env L (ref :: base) inst "_set"
      [.string p_name, p_value] .nil
    if r.1 = .OK ∧ r.2.1.get_type = .BOOL ∧ r.2.1.toBool = true then (true, r.2.2)
    else set_loop env inst p_name p_value base r.2.2

/-- `LuaInstance::set`. -/
def set (env : LuaEnv) (L : World) (inst : LuaInstance) (p_name : String) (p_value : Variant) :
    Bool × World :=
  set_loop env inst p_name p_value inst.script L

/-- The loop of `LuaInstance::get` from the script pointer `sptr` on: found,
the new content of `r_ret`, the world after. -/
def get_loop (env : LuaEnv) (inst : LuaInstance) (p_name : String) :
    LuaScriptPtr → World → Variant → Bool × Variant × World
  | [], L, r_ret => (false, r_ret, L)
  | ref :: base, L, r_ret =>
    let L1 := lua_rawgeti L LUA_REGISTRYINDEX (LuaScriptPtr.ref (ref :: base))
    let L2 := lua_pushstring L1 (utf8_get_data p_name)
    let L3 := lua_rawget L2 (-2)
    if !lua_isnil L3 (-1) then
      let g := l_get_variant L3 (-1) r_ret
      (true, g.2, g.1)
    else
      let L4 := lua_pop L3 2
      let r := _call_script_func_result env L4 (ref :: base) inst "_get" [.string p_name] .nil
      if r.1 = .OK ∧ r.2.1.get_type ≠ .NIL then (true, r.2.1, r.2.2)
      else get_loop env inst p_name base r.2.2 r_ret

/-- `LuaInstance::get`: found, the new content of `r_ret`, the world after.
The local `name` is `utf8_get_data p_name`. -/
def get (env : LuaEnv) (L : World) (inst : LuaInstance) (p_name : String) (r_ret : Variant) :
    Bool × Variant × World :=
  let L1 := lua_rawgeti L LUA_REGISTRYINDEX inst.ref
  let L2 := lua_pushstring L1 (utf8_get_data p_name)
  let L3 := lua_rawget L2 (-2)
  if !lua_isnil L3 (-1) then
    let g := l_get_variant L3 (-1) r_ret
    (true, g.2, g.1)
  else
    let L4 := lua_pop L3 2
    get_loop env inst p_name inst.script L4 r_ret

/-- The loop of `LuaInstance::call` from the script pointer `sptr` on, with
`p_method` standing for the C string `((String) p_method).utf8().get_data()`. The
`switch` has the cases `OK`, `FAILED` and `ERR_SKIP`; any other status leaves
the `switch` and goes on with `sptr = sptr->_base`. -/
def call_loop (env : LuaEnv) (inst : LuaInstance) (p_method : String) (p_args : List Variant) :
    LuaScriptPtr → World → Variant → Variant × CallError × World
  | [], L, _ => (.nil, .CALL_ERROR_INVALID_METHOD, L)
  | ref :: base, L, result =>
    let r := _call_script_func_result env L (ref :: base) inst p_method p_args result
    match r.1 with
    | .OK => (r.2.1, .CALL_OK, r.2.2)
    | .FAILED => (.nil, .CALL_ERROR_INVALID_METHOD, r.2.2)
    | .ERR_SKIP => call_loop env inst p_method p_args base r.2.2 r.2.1
    | .ERR_SCRIPT_FAILED => call_loop env inst p_method p_args base r.2.2 r.2.1

/-- `LuaInstance::call`: the returned value, `r_error.error`, the world after. -/
def call (env : LuaEnv) (L : World) (inst : LuaInstance) (p_method : String)
    (p_args : List Variant) : Variant × CallError × World :=
  call_loop env inst (utf8_get_data p_method) p_args inst.script L .nil

/-- The loop of `LuaInstance::call_multilevel` from `sptr` on, with
`p_method` standing for the C string `((String) p_method).utf8().get_data()`. -/
def call_multilevel_loop (env : LuaEnv) (inst : LuaInstance) (p_method : String)
    (p_args : List Variant) : LuaScriptPtr → World → World
  | [], L => L
  | ref :: base, L =>
    let r := _call_script_func env L (ref :: base) inst p_method p_args
    call_multilevel_loop env inst p_method p_args base r.2

/-- `LuaInstance::call_multilevel`. -/
def call_multilevel (env : LuaEnv) (L : World) (inst : LuaInstance) (p_method : String)
    (p_args : List Variant) : World :=
  call_multilevel_loop env inst (utf8_get_data p_method) p_args inst.script L

/-- `LuaInstance::_ml_call_reversed` on a non-null `sptr`, with `p_method`
standing for the C string `((String) p_method).utf8().get_data()`. -/
def _ml_call_reversed (env : LuaEnv) (inst : LuaInstance) (p_method : String)
    (p_args : List Variant) : LuaScriptPtr → World → World
  | [], L => L
  | ref :: base, L =>
    let L1 := if base ≠ [] then _ml_call_reversed env inst p_method p_args base L else L
    (_call_script_func env L1 (ref :: base) inst p_method p_args).2

/-- `LuaInstance::call_multilevel_reversed`. -/
def call_multilevel_reversed (env : LuaEnv) (L : World) (inst : LuaInstance)
    (p_method : String) (p_args : List Variant) : World :=
  if inst.script ≠ [] then
    _ml_call_reversed env inst (utf8_get_data p_method) p_args inst.script L
  else L

/-- The write `this->ref = r` as seen through the script-instance slot of the
owner, when that slot holds this instance. -/
def storeRef (L : World) (inst : LuaInstance) (r : Int) : World :=
  { L with objects := L.objects.map (fun e =>
      if e.1 = inst.owner ∧ e.2 = .lua inst then (e.1, .lua { inst with ref := r }) else e) }

/-- `LuaInstance::init`: the status, the instance with its new `ref`, the
world after. -/
def init (env : LuaEnv) (L : World) (inst : LuaInstance) : Error × LuaInstance × World :=
  let top := lua_gettop L
  let L := lua_newtable L
  let L := l_push_variant L (.object inst.owner)
  let L := lua_setfield L (-2) ".c_instance"
  let r := luaL_ref L
  let L := storeRef r.2 inst r.1
  let inst := { inst with ref := r.1 }
  if inst.script ≠ [] then
    let c := _call_script_func env L inst.script inst "_init" []
    if c.1 = .FAILED then (.FAILED, inst, c.2)
    else (.OK, inst, lua_settop c.2 top)
  else
    (.OK, inst, lua_settop L top)

/-! ## The C functions of `lua_instance.cpp` and `lua_variant.cpp`

A C function called from Lua sees its arguments as the stack: index 1 is
the first argument. Its upvalue is a parameter of the definition here. What
the engine does behind the calls into it is given by a `NativeEnv`. -/

/-- The function `lua_insert`: the top moves to the index, the elements from
the index on shift up. -/
def lua_insert (L : World) (idx : Int) : World :=
  match L.stack with
  | [] => L
  | v :: rest =>
    let pos : Nat := if idx < 0 then (-idx - 1).toNat else L.stack.length - idx.toNat
    { L with stack := rest.take pos ++ v :: rest.drop pos }

/-- The function `lua_gettable`, on tables that have no `__index`
metamethod: the key is popped, `t[k]` is pushed. -/
def lua_gettable (L : World) (idx : Int) : World :=
  match L.stack with
  | k :: rest => { L with stack := rawfield L.tables (index2adr L.stack idx) k :: rest }
  | [] => L

/-- The function `luaL_checkudata`: the block (its id) when the value at the
index is a full userdata whose metatable is the one the registry keeps under
`tname`; `none` when it raises a type error instead. The stack is left as it
was. -/
def luaL_checkudata (L : World) (ud : Int) (tname : String) : Option Nat :=
  match lua_touserdata L ud with
  | none => none
  | some p =>
    let m := lua_getmetatable L ud
    if m.1 then
      let L1 := lua_getfield m.2 LUA_REGISTRYINDEX tname
      if lua_rawequal L1 (-1) (-2) then some p else none
    else none

/-- The static function `luaL_checkobject`: the object pointer kept in the
block that `luaL_checkudata` returns. -/
def luaL_checkobject (L : World) (idx : Int) (type : String) : Option Nat :=
  (luaL_checkudata L idx type).map (blockPtr L.udata)

/-- How a C function ends: it returns the number of its results (they are
the topmost values of the stack), it raises a Lua error, or it runs into
undefined behaviour (a null pointer is dereferenced). -/
inductive CReturn where
  | returned (n : Nat)
  | raised
  | undefined
  deriving DecidableEq, Repr

/-- What the engine does behind the calls of the binding layer into it. -/
structure NativeEnv where
  /-- `MethodBind::call(self, args, argcount, err)`: method bind, object,
  arguments, world; the returned value and the world after -/
  call : Nat → Nat → List Variant → World → Variant × World
  /-- `Variant::construct(type, args, argcount, err)`: the value, or `none`
  when `err.error` is not `CALL_OK` -/
  construct : Int → List Variant → Option Variant
  /-- `Object::get(name, &success)`: the value when `success`, and the world
  after -/
  get : Nat → String → World → Option Variant × World
  /-- `ObjectTypeDB::get_integer_constant(self->get_type_name(), name, &success)` -/
  get_integer_constant : Nat → String → Option Int
  /-- `ObjectTypeDB::get_method(self->get_type_name(), name)`: the method
  bind, `none` for `NULL` -/
  get_method : Nat → String → Option Nat
  /-- the function value `lua_pushcclosure(L, l_methodbind_wrapper, 1)` makes
  for a method bind -/
  closure : Nat → Nat
  /-- the text the C library makes of a number (`lua_tostring` on a number) -/
  numfmt : lua_Number → String

/-- The function `luaL_checkstring`: the string at the index; a number there
is turned into a string in place; `none` when it raises a type error. -/
def luaL_checkstring (native : NativeEnv) (L : World) (idx : Int) : Option (String × World) :=
  match index2adr L.stack idx with
  | some (.string s) => some (s, L)
  | some (.number n) =>
    let pos : Nat := if idx < 0 then (-idx - 1).toNat else L.stack.length - idx.toNat
    some (native.numfmt n, { L with stack := L.stack.set pos (.string (native.numfmt n)) })
  | _ => none

/-- `Object::set_script_instance` on an object that has no script instance. -/
def set_script_instance (L : World) (obj : Nat) (si : ScriptInstance) : World :=
  { L with objects := (obj, si) :: L.objects }

/-- The constructor `LuaInstance::LuaInstance`. -/
def LuaInstance.new : LuaInstance :=
  { owner := 0, base_ref := false, ref := LUA_NOREF, script := [] }

/-- What running the destructor leaves: the world, the instance, whether
the owner was erased from `script->instances`, and the references handed to
`luaL_unref`, in the order of the calls. -/
structure Teardown where
  world : World
  inst : LuaInstance
  erased : Bool
  released : List Int
  deriving DecidableEq, Repr

/-- The block `if(lua_istable(L, -1)) { ... } lua_pop(L, 1);` of the
destructor, after `lua_rawgeti(L, LUA_REGISTRYINDEX, ref)`. -/
def clear_c_instance (L : World) (ref : Int) : World :=
  let L := lua_rawgeti L LUA_REGISTRYINDEX ref
  let L :=
    if lua_istable L (-1) then
      let L := lua_getfield L (-1) ".c_instance"
      let L := lua_pushnil L
      let L := lua_setmetatable L (-2)
      let L := lua_pop L 1
      let L := lua_pushnil L
      lua_setfield L (-2) ".c_instance"
    else L
  lua_pop L 1

/-- The destructor `LuaInstance::~LuaInstance`. -/
def LuaInstance.delete (L : World) (inst : LuaInstance) : Teardown :=
  let erased := decide (inst.script ≠ [] ∧ inst.owner ≠ 0)
  if inst.ref ≠ LUA_NOREF then
    let L := clear_c_instance L inst.ref
    let L := luaL_unref L inst.ref
    { world := L, inst := { inst with ref := LUA_NOREF }, erased := erased,
      released := [inst.ref] }
  else
    { world := L, inst := inst, erased := erased, released := [] }

/-- The loop `for(idx = first; idx <= top; idx++)` of the two wrappers, over
the offsets `idx - first`: each round takes the next element of `vars`
(a new, NIL `Variant`), stores its address into `args[idx - first]` and
fills it with `l_get_variant(L, idx, var)`. The result is the world, the
array `vars`, and the indices of `args` that were written, in order. -/
def marshal_args (first : Int) : List Nat → World → List Variant → List Nat →
    World × List Variant × List Nat
  | [], L, vars, written => (L, vars, written)
  | k :: ks, L, vars, written =>
    let g := l_get_variant L (first + k) .nil
    marshal_args first ks g.1 (vars ++ [g.2]) (written ++ [k])

/-- What a run of one of the two wrappers leaves: how it ended, the world,
the indices of the local array `args` (of 128 elements) that it wrote, and
the arguments it called the native entry point with (`none` when it did not
call it). -/
structure WrapperRun where
  ret : CReturn
  world : World
  args_written : List Nat
  native_args : Option (List Variant)

/-- `LuaInstance::l_methodbind_wrapper`; `mb` is the upvalue, `fresh` the
local `instance`. -/
def l_methodbind_wrapper (native : NativeEnv) (env : LuaEnv) (L : World) (mb : Nat) :
    WrapperRun :=
  match luaL_checkobject L 1 "GdObject" with
  | none => { ret := .raised, world := L, args_written := [], native_args := none }
  | some self =>
    let top := lua_gettop L
    let m : World × List Variant × List Nat :=
      if 2 ≤ top then marshal_args 2 (List.range (top - 1).toNat) L [] []
      else (L, [], [])
    let r := native.call mb self m.2.1 m.1
    let ret := r.1
    let L := r.2
    let obj := ret.toObject
    if obj ≠ 0 ∧ get_script_instance L obj = none then
      let fresh : LuaInstance := { LuaInstance.new with base_ref := false, script := [],
                                                         owner := obj }
      let L := set_script_instance L obj (.lua fresh)
      let i := init env L fresh
      if i.1 ≠ .OK then
        let d := LuaInstance.delete i.2.2 { i.2.1 with script := [] }
        { ret := .returned 0, world := lua_settop d.world top, args_written := m.2.2,
          native_args := some m.2.1 }
      else
        let L := _ref_stacked i.2.2 ret
        { ret := .returned 1, world := l_push_variant L ret, args_written := m.2.2,
          native_args := some m.2.1 }
    else
      { ret := .returned 1, world := l_push_variant L ret, args_written := m.2.2,
        native_args := some m.2.1 }

/-- `LuaInstance::l_bultins_wrapper`; `type` is the upvalue. -/
def l_bultins_wrapper (native : NativeEnv) (L : World) (type : Int) : WrapperRun :=
  let top := lua_gettop L
  if top = 0 then
    match native.construct type [] with
    | some ret =>
      { ret := .returned 1, world := l_push_variant L ret, args_written := [],
        native_args := some [] }
    | none => { ret := .returned 0, world := L, args_written := [], native_args := some [] }
  else
    let m := marshal_args 1 (List.range top.toNat) L [] []
    match native.construct type m.2.1 with
    | some ret =>
      { ret := .returned 1, world := l_push_variant m.1 ret, args_written := m.2.2,
        native_args := some m.2.1 }
    | none =>
      { ret := .returned 0, world := m.1, args_written := m.2.2, native_args := some m.2.1 }

/-- The loop `while(sptr != NULL)` of `meta__index`: the world and whether
the function returned 1 from inside the loop. -/
def meta__index_loop : LuaScriptPtr → World → Bool × World
  | [], L => (false, L)
  | ref :: base, L =>
    let L1 := lua_rawgeti L LUA_REGISTRYINDEX (LuaScriptPtr.ref (ref :: base))
    let L2 := lua_pushvalue L1 2
    let L3 := lua_rawget L2 (-2)
    if !lua_isnil L3 (-1) then
      let L4 := lua_insert L3 (-3)
      (true, lua_pop L4 2)
    else
      meta__index_loop base (lua_pop L3 2)

/-- The part of `meta__index` after the script instance: the method binds
of the metatable, then the property, the class constant and the method of
the object, then the last `return 1`. -/
def meta__index_native (native : NativeEnv) (L : World) (self : Nat) : CReturn × World :=
  let m := lua_getmetatable L 1
  let L := m.2
  let L := lua_getfield L (-1) ".methods"
  let L := lua_pushvalue L 2
  let L := lua_gettable L (-2)
  if !lua_isnil L (-1) then
    let L := lua_insert L (-3)
    (.returned 1, lua_pop L 2)
  else
    let L := lua_pop L 3
    match (match index2adr L.stack 2 with
           | some (.string s) => some s
           | some (.number n) => some (native.numfmt n)
           | _ => none) with
    | none => (.returned 0, L)
    | some name =>
      let g := native.get self name L
      match g.1 with
      | some var => (.returned 1, l_push_variant g.2 var)
      | none =>
        match native.get_integer_constant self name with
        | some constant => (.returned 1, lua_pushinteger g.2 constant)
        | none =>
          match native.get_method self name with
          | some mb => (.returned 1, push g.2 (.function (native.closure mb)))
          | none => (.returned 1, g.2)

/-- `LuaInstance::meta__index`. -/
def meta__index (native : NativeEnv) (L : World) : CReturn × World :=
  match luaL_checkobject L 1 "GdObject" with
  | none => (.raised, L)
  | some self =>
    match luaL_checkstring native L 2 with
    | none => (.raised, L)
    | some key =>
      let L := key.2
      match get_script_instance L self with
      | none => meta__index_native native L self
      | some .other => (.undefined, L)
      | some (.lua inst) =>
        let L1 := lua_rawgeti L LUA_REGISTRYINDEX inst.ref
        let L2 := lua_pushvalue L1 2
        let L3 := lua_rawget L2 (-2)
        if !lua_isnil L3 (-1) then
          let L4 := lua_insert L3 (-3)
          (.returned 1, lua_pop L4 2)
        else
          let L4 := lua_pop L3 2
          let c := meta__index_loop inst.script L4
          if c.1 then (.returned 1, c.2) else meta__index_native native c.2 self

/-- `LuaInstance::meta__newindex`. -/
def meta__newindex (L : World) : CReturn × World :=
  match luaL_checkobject L 1 "GdObject" with
  | none => (.raised, L)
  | some self =>
    match get_script_instance L self with
    | some (.lua inst) =>
      let L := lua_rawgeti L LUA_REGISTRYINDEX inst.ref
      let L := lua_pushvalue L 2
      let L := lua_pushvalue L 3
      let L := lua_rawset L (-3)
      (.returned 0, lua_pop L 1)
    | _ => (.returned 0, L)

/-! ## Reading the world -/

/-- The value kept in the registry under an integer reference. -/
def regslot (L : World) (ref : Int) : LuaValue :=
  rawfield L.tables (some registry) (.number (ref : Rat))

/-- The raw field `name` of the table kept in the registry under `ref`. -/
def fieldAt (L : World) (ref : Int) (name : String) : LuaValue :=
  rawfield L.tables (some (regslot L ref)) (.string name)

/-- What a method name resolves to at one level of the chain: the raw field
of the instance table when that is not nil, else the raw field of the script
table of the level. -/
def resolveMethod (L : World) (inst : LuaInstance) (sref : Int) (m : String) : LuaValue :=
  if fieldAt L inst.ref m = .nil then fieldAt L sref m else fieldAt L inst.ref m

/-- The native value `l_get_variant` makes of a Lua value, as a function of
the value, the heap and the previous content of the output. -/
def toNative (tables : List LuaTable) (udata : List UserData) (v : LuaValue) (var : Variant) :
    Variant :=
  match v with
  | .nil | .thread _ | .lightuserdata _ | .function _ => Variant.ofNULL
  | .table _ => var
  | .boolean b => .bool b
  | .number n => .real n
  | .string s => Variant.ofCString s
  | .userdata u =>
    match metatableOf tables udata (some (.userdata u)) with
    | none => var
    | some mt =>
      if rawfield tables (some registry) (.string "GdObject") = .table mt then
        .object (blockPtr udata u)
      else if rawfield tables (some registry) (.string "Variant") = .table mt then
        Variant.ofVariantPtr (blockPtr udata u)
      else var

/-- A table value. -/
def isTableValue (v : LuaValue) : Bool := typeOf (some v) == .LUA_TTABLE

/-- The instance in a script-instance slot has, when its reference names a
table, a non-nil field `.c_instance` in that table. -/
def slotOK (L : World) (si : ScriptInstance) : Bool :=
  match si with
  | .lua inst => !(isTableValue (regslot L inst.ref)) || (fieldAt L inst.ref ".c_instance" != .nil)
  | .other => true

/-- Every bound object of the world satisfies `slotOK`: the state `init`
leaves an instance table in. -/
def Bound (L : World) : Bool := L.objects.all (fun e => slotOK L e.2)

/-- The world `L2` is `L` with one more value `x` on the stack, and maybe
more userdata blocks and `Variant` cells. -/
def Pushed (L L2 : World) (x : LuaValue) : Prop :=
  ∃ ud vs, L2 = { L with stack := x :: L.stack, udata := ud, variants := vs }

/-- The values that converting a list of native values one after the other
leaves on the stack, first conversion first. -/
def pushedValues : World → List Variant → List LuaValue
  | _, [] => []
  | L, v :: vs => (l_push_variant L v).stack.headD .nil :: pushedValues (l_push_variant L v) vs

/-- The string a value is, if it is one (`lua_tostring` on it). -/
def stringOf : LuaValue → Option String
  | .string s => some s
  | _ => none

/-- The world in which `_call_script` starts converting the arguments, when
the method resolved to the function `f`: on the stack the function lies
above the value kept under the reference of the instance. -/
def callWorld (L : World) (inst : LuaInstance) (f : Nat) : World :=
  { _start_stacked L with stack := .function f :: regslot L inst.ref :: L.stack }

/-- The arguments `_call_script` hands to the function: the conversion of
the owner, then the conversions of `p_args` in their order. -/
def calleeArgs (L : World) (inst : LuaInstance) (f : Nat) (args : List Variant) : List LuaValue :=
  pushedValues (callWorld L inst f) (.object inst.owner :: args)

/-- The world in which the function runs. -/
def calleeWorld (L : World) (inst : LuaInstance) (f : Nat) (args : List Variant) : World :=
  { (Variant.object inst.owner :: args).foldl l_push_variant (callWorld L inst f) with
      stack := regslot L inst.ref :: L.stack }

/-- The outcome of the function and the world it leaves. -/
def hookOutcome (env : LuaEnv) (L : World) (inst : LuaInstance) (f : Nat) (args : List Variant) :
    PcallResult × World :=
  env f (calleeArgs L inst f args) (calleeWorld L inst f args)

/-- The entry the call leaves in the call log. -/
def hookRecord (env : LuaEnv) (L : World) (inst : LuaInstance) (f : Nat) (args : List Variant) :
    CallRecord :=
  ⟨f, calleeArgs L inst f args, (hookOutcome env L inst f args).1⟩

/-- The world after a level that did not resolve to a function: only the
nesting counter went up and down again. -/
def skipWorld (L : World) : World := _cleanup_stacked (_start_stacked L)

/-- The world after a level whose function ended without error: what the
function left, the stack of the caller, one more entry in the call log. -/
def afterHook (L out : World) (r : CallRecord) : World :=
  _cleanup_stacked { out with stack := L.stack, calls := L.calls ++ [r] }

/-- The world after a level whose function raised an error. -/
def afterFailedHook (L out : World) (r : CallRecord) (e : LuaValue) (m : String) : World :=
  _cleanup_stacked (reportError { out with stack := L.stack, calls := L.calls ++ [r] }
    (stringOf e) m)

/-- One step of the lookup order of `get`: the raw field of the table of the
instance, the raw field of a script table, or the `_get` hook of a level,
the level being given by the reference of its script table. -/
inductive Probe where
  | instanceField
  | scriptField (ref : Int)
  | getHook (ref : Int)

/-- The steps for a script chain, nearest script first: the raw field of the
script table, then the `_get` hook of that level. -/
def scriptProbes : LuaScriptPtr → List Probe
  | [] => []
  | ref :: base => .scriptField ref :: .getHook ref :: scriptProbes base

/-- The steps of `get` in their order: the table of the instance, then the
chain. -/
def getProbes (inst : LuaInstance) : List Probe := .instanceField :: scriptProbes inst.script

/-- What a raw field yields: nothing when it is nil, else its conversion. -/
def rawYield (L : World) (v : LuaValue) (r_ret : Variant) : Option Variant :=
  if v = .nil then none else some (toNative L.tables L.udata v r_ret)

/-- What a value that a hook returned yields: nothing when its conversion is
NIL, else the conversion. -/
def hookYield (v : Variant) : Option Variant :=
  if v.get_type = .NIL then none else some v

/-- What one step yields, and the world it leaves. A raw field is read under
the C string of the name. The `_get` hook of a level is the function that
`_get` resolves to at that level; when there is none the step yields nothing.
The function is run on the owner and the name: when it ends without error the
step yields its first result (see `hookYield`), when it raises an error the
step yields nothing. -/
def runProbe (env : LuaEnv) (inst : LuaInstance) (name : String) (r_ret : Variant) :
    Probe → World → Option Variant × World
  | .instanceField, L => (rawYield L (fieldAt L inst.ref (utf8_get_data name)) r_ret, L)
  | .scriptField ref, L => (rawYield L (fieldAt L ref (utf8_get_data name)) r_ret, L)
  | .getHook ref, L =>
    match resolveMethod L inst ref "_get" with
    | .function f =>
      match (hookOutcome env L inst f [.string name]).1 with
      | .ok rs =>
        (hookYield (toNative (hookOutcome env L inst f [.string name]).2.tables
            (hookOutcome env L inst f [.string name]).2.udata (rs.headD .nil) .nil),
          afterHook L (hookOutcome env L inst f [.string name]).2
            (hookRecord env L inst f [.string name]))
      | .error e =>
        (none, afterFailedHook L (hookOutcome env L inst f [.string name]).2
          (hookRecord env L inst f [.string name]) e "_get")
    | _ => (none, skipWorld L)

/-- The first yield of a list of steps run one after the other. -/
def firstYield (env : LuaEnv) (inst : LuaInstance) (name : String) (r_ret : Variant) :
    List Probe → World → Option Variant
  | [], _ => none
  | p :: ps, L =>
    match (runProbe env inst name r_ret p L).1 with
    | some v => some v
    | none => firstYield env inst name r_ret ps (runProbe env inst name r_ret p L).2

/-- The answer of `get` that belongs to a first yield. -/
def getAnswer (r_ret : Variant) : Option Variant → Bool × Variant
  | some v => (true, v)
  | none => (false, r_ret)

/-- A world in which `LuaInstance::setup` has run and nothing else: the
registry (table 0) names the metatable `GdObject` (table 1) and the
metatable `Variant` (table 2). The fields `setup` gives the two metatables
(the metamethods and the table `.methods`) are left out. -/
def setupWorld : World :=
  { stack := [],
    tables := [ { fields := [(.string "GdObject", .table 1), (.string "Variant", .table 2)],
                  metatable := none },
                { fields := [], metatable := none },
                { fields := [], metatable := none } ],
    udata := [], nextref := 1, variants := [], objects := [], stacklevel := 0, stackrefs := [],
    calls := [], errors := [] }

/-- The conversion of a native value to the dynamic side and back, the
output variable holding `r` before. -/
def roundTrip (L : World) (v r : Variant) : Variant :=
  (l_get_variant (l_push_variant L v) (-1) r).2

/-- The function a script table defines under a name, if it defines one. -/
def hookOf (L : World) (ref : Int) (m : String) : Option Nat :=
  match fieldAt L ref m with
  | .function f => some f
  | _ => none

/-- What the hooks of a multilevel call have to leave as it is in the world
`L0`: the bound objects keep their `.c_instance`, the table of the instance
has no field `m`, and the script tables of the chain keep their field `m`. -/
def OwnHooks (L0 : World) (inst : LuaInstance) (m : String) (W : World) : Prop :=
  Bound W = true ∧ fieldAt W inst.ref m = .nil ∧ ∀ r ∈ inst.script, fieldAt W r m = fieldAt L0 r m

/-- An instance bound to the object `100`, its table under the reference
`1`, and a chain of two scripts: the leaf under `2`, its parent under `3`. -/
def sampleInst : LuaInstance := { owner := 100, base_ref := false, ref := 1, script := [2, 3] }

/-- The table heap of `chainWorld`, the table of the instance apart. -/
def chainTables (instanceFields : List (LuaValue × LuaValue)) : List LuaTable :=
  [ { fields := [(.number 1, .table 3), (.number 2, .table 4), (.number 3, .table 5),
                 (.string "GdObject", .table 1), (.string "Variant", .table 2)],
      metatable := none },
    { fields := [], metatable := none },
    { fields := [], metatable := none },
    { fields := instanceFields, metatable := none },
    { fields := [(.string "m", .function 1), (.string "_set", .function 11),
                 (.string "_get", .function 21)],
      metatable := none },
    { fields := [(.string "m", .function 2), (.string "_set", .function 12),
                 (.string "_get", .function 22), (.string "x", .number 5),
                 (.string "base_only", .function 3)],
      metatable := none } ]

/-- A world with `sampleInst` alive: table 3 is the table of the instance
(it holds the handle of the object under `.c_instance`), table 4 the leaf
script, table 5 its parent. Both scripts define `m`, `_set` and `_get`; the
parent alone defines `base_only` (function 3) and has a field `x`. -/
def chainWorld : World :=
  { stack := [],
    tables := chainTables [(.string ".c_instance", .userdata 0)],
    udata := [{ ptr := 100, metatable := some 1 }],
    nextref := 4, variants := [], objects := [(100, .lua sampleInst)],
    stacklevel := 0, stackrefs := [], calls := [], errors := [] }

/-- The world `chainWorld` with one more field in the table of the
instance: `m`, a function of its own. -/
def shadowWorld : World :=
  { chainWorld with
    tables := chainTables [(.string ".c_instance", .userdata 0), (.string "m", .function 9)] }

/-- The functions of the sample scripts: the leaf `m` (1) raises an error,
the parent `m` (2) returns 7, the leaf `_set` (11) returns false, the parent
`_set` (12) returns true; all others return nothing. None changes the
world. -/
def sampleEnv : LuaEnv := fun f _ W =>
  match f with
  | 1 => (.error (.string "boom"), W)
  | 2 => (.ok [.number 7], W)
  | 11 => (.ok [.boolean false], W)
  | 12 => (.ok [.boolean true], W)
  | _ => (.ok [], W)

/-- The object `obj` has a live binding instance `inst`: the slot of the
object holds `inst`, the reference of `inst` names a table, that table holds
under `.c_instance` the userdata block `u`, and `u` holds the pointer to the
object and carries the metatable `GdObject`. -/
def Live (L : World) (obj : Nat) (inst : LuaInstance) (u : Nat) : Bool :=
  decide (obj ≠ 0) && decide (get_script_instance L obj = some (.lua inst)) &&
  isTableValue (regslot L inst.ref) &&
  decide (fieldAt L inst.ref ".c_instance" = .userdata u) &&
  decide (blockPtr L.udata u = obj) &&
  (match metatableOf L.tables L.udata (some (.userdata u)) with
   | some mt => decide (rawfield L.tables (some registry) (.string "GdObject") = .table mt)
   | none => false)

/-- An instance that was just constructed for the object `100` and has no
script. -/
def bareInst : LuaInstance := { owner := 100, base_ref := false, ref := LUA_NOREF, script := [] }

/-- The world after `setup` in which the object `100` has got `bareInst` as
its script instance (`set_script_instance`) and `init` has not run yet. -/
def bareWorld : World := { setupWorld with objects := [(100, .lua bareInst)] }

/-- An instance that was just constructed for the object `100`, with one
script, kept under the reference `1`. -/
def newInst : LuaInstance := { owner := 100, base_ref := false, ref := LUA_NOREF, script := [1] }

/-- The world before `init` of `newInst`: table 3 is the table of the
script, which defines `_init` as the function 31. -/
def scriptWorld : World :=
  { stack := [],
    tables := [ { fields := [(.number 1, .table 3), (.string "GdObject", .table 1),
                             (.string "Variant", .table 2)],
                  metatable := none },
                { fields := [], metatable := none },
                { fields := [], metatable := none },
                { fields := [(.string "_init", .function 31)], metatable := none } ],
    udata := [], nextref := 2, variants := [], objects := [(100, .lua newInst)],
    stacklevel := 0, stackrefs := [], calls := [], errors := [] }

/-- An environment in which the function 31 raises an error. -/
def failingInitEnv : LuaEnv := fun f _ W =>
  match f with
  | 31 => (.error (.string "init failed"), W)
  | _ => (.ok [], W)

/-- The world `setupWorld` with one userdata block that has no metatable,
lying on the stack. -/
def alienWorld : World :=
  { setupWorld with stack := [.userdata 0], udata := [{ ptr := 5, metatable := none }] }

/-- The assignment `self[key] = v` made by a Lua function on a `GdObject`
value: it goes through `meta__newindex`. The stack of the caller is left as
it was. -/
def assignField (W : World) (self : LuaValue) (key : String) (v : LuaValue) : World :=
  { (meta__newindex { W with stack := [v, .string key, self] }).2 with stack := W.stack }

/-- An environment in which the function 31 is `function(self) self.x = 1 end`. -/
def initEnv : LuaEnv := fun f args W =>
  match f with
  | 31 => (.ok [], assignField W (args.headD .nil) "x" (.number 1))
  | _ => (.ok [], W)

/-- The tables of the inheritance example: table 3 is the script `Child`
(reference 1), which defines nothing; table 4 is its parent `Base`
(reference 2), which defines `_init` as the function 31. -/
def inheritTables : List LuaTable :=
  [ { fields := [(.number 1, .table 3), (.number 2, .table 4),
                 (.string "GdObject", .table 1), (.string "Variant", .table 2)],
      metatable := none },
    { fields := [], metatable := none },
    { fields := [], metatable := none },
    { fields := [], metatable := none },
    { fields := [(.string "_init", .function 31)], metatable := none } ]

/-- A new instance of `Child` for the object `100`. -/
def childInst : LuaInstance := { owner := 100, base_ref := false, ref := LUA_NOREF, script := [1, 2] }

/-- A new instance of `Base` for the object `100`. -/
def baseInst : LuaInstance := { owner := 100, base_ref := false, ref := LUA_NOREF, script := [2] }

/-- The world before `init` of an instance `inst` of the inheritance
example. -/
def inheritWorld (inst : LuaInstance) : World :=
  { stack := [], tables := inheritTables, udata := [], nextref := 3, variants := [],
    objects := [(100, .lua inst)], stacklevel := 0, stackrefs := [], calls := [], errors := [] }

/-- An environment in which the `_set` hooks of the sample scripts return
truthy values that are not the boolean true: the leaf (11) the number 1,
the parent (12) the string `yes`. -/
def truthyEnv : LuaEnv := fun f _ W =>
  match f with
  | 11 => (.ok [.number 1], W)
  | 12 => (.ok [.string "yes"], W)
  | _ => (.ok [], W)

/-- The steps of `get` for the first `k` levels of a chain. -/
def nearerProbes : LuaScriptPtr → Nat → List Probe
  | ref :: base, k + 1 => .scriptField ref :: .getHook ref :: nearerProbes base k
  | _, _ => []

/-- The world a list of steps leaves when they are run one after the other. -/
def afterProbes (env : LuaEnv) (inst : LuaInstance) (name : String) (r_ret : Variant) :
    List Probe → World → World
  | [], L => L
  | p :: ps, L => afterProbes env inst name r_ret ps (runProbe env inst name r_ret p L).2

/-- The functions of the sample scripts, the `_get` hook of the leaf (21)
returning the number 9. -/
def hookedEnv : LuaEnv := fun f _ W =>
  match f with
  | 21 => (.ok [.number 9], W)
  | _ => (.ok [], W)

/-- A function environment for a nested call, inner part: the function 3
(`base_only` of the parent script) registers the value 2 in the keep-alive
pool and returns nothing. -/
def innerEnv : LuaEnv := fun f _ W =>
  match f with
  | 3 => (.ok [], _ref_stacked W (.int 2))
  | _ => (.ok [], W)

/-- A function environment for a nested call, outer part: the function 1
(`m` of the leaf script) registers the value 1 in the keep-alive pool and
then has the native side call `base_only` on the same instance. -/
def outerEnv : LuaEnv := fun f _ W =>
  match f with
  | 1 => (.ok [], (_call_script innerEnv (_ref_stacked W (.int 1)) [3] sampleInst "base_only" []
      false).2)
  | _ => (.ok [], W)

/-- The world `chainWorld` inside a call: depth 1, the value 1 in the pool. -/
def nestedWorld : World := { chainWorld with stacklevel := 1, stackrefs := [.int 1] }

/-- An engine in which every method returns NIL and leaves the world as it
is, no constructor succeeds, and no object has a property, a constant or a
method. -/
def idleNative : NativeEnv :=
  { call := fun _ _ _ W => (.nil, W),
    construct := fun _ _ => none,
    get := fun _ _ W => (none, W),
    get_integer_constant := fun _ _ => none,
    get_method := fun _ _ => none,
    closure := fun mb => mb,
    numfmt := fun _ => "0" }

/-- The world `setupWorld` at the entry of a wrapper that Lua calls with the
handle of the object `100` and 129 numbers after it: 130 values on the
stack, the handle lowest. -/
def manyArgsWorld : World :=
  { setupWorld with stack := List.replicate 129 (.number 0) ++ [.userdata 0],
                    udata := [{ ptr := 100, metatable := some 1 }] }

/-- The value `getmetatable(self)[".methods"][key]` that `meta__index` reads
for the handle `u`. -/
def methodsField (L : World) (u : Nat) (key : String) : LuaValue :=
  rawfield L.tables
    (some (rawfield L.tables ((metatableOf L.tables L.udata (some (.userdata u))).map .table)
      (.string ".methods")))
    (.string key)

/-- The world `chainWorld` at the entry of `meta__index` for the expression
`self.missing`: the handle of the object `100` and the key on the stack. -/
def indexWorld : World := { chainWorld with stack := [.string "missing", .userdata 0] }

/-- The table a value names, when it is a table (what `lua_setmetatable`
keeps of the value it pops). -/
def metaId : LuaValue → Option Nat
  | .table id => some id
  | _ => none

/-- The value the native method returns in a run of `l_methodbind_wrapper`
on the object `self`, and the world it leaves: the arguments are the
conversions of the stack values from index 2 on. -/
def nativeReturn (native : NativeEnv) (L : World) (mb self : Nat) : Variant × World :=
  let top := lua_gettop L
  let m : World × List Variant × List Nat :=
    if 2 ≤ top then marshal_args 2 (List.range (top - 1).toNat) L [] [] else (L, [], [])
  native.call mb self m.2.1 m.1

/-- The instance the wrapper has made for the object `obj` once `init` has
run in the world `W`: no script, the reference the next free one. -/
def boundInstance (W : World) (obj : Nat) : LuaInstance :=
  { owner := obj, base_ref := false, ref := W.nextref, script := [] }

/-- The world `init` leaves for that instance: one more table (the table of
the instance, with the new handle under `.c_instance`) kept in the registry
under the next free reference, one more userdata block (the handle, with
the metatable `GdObject`), and the instance in the slot of the object. -/
def boundWorld (W : World) (obj : Nat) : World :=
  { W with
    tables := rawstore
      (rawstore (W.tables ++ [{ fields := [], metatable := none }])
        (some (.table W.tables.length)) (.string ".c_instance") (.userdata W.udata.length))
      (some registry) (.number (W.nextref : Rat)) (.table W.tables.length),
    udata := W.udata ++
      [⟨obj, metaId (rawfield W.tables (some registry) (.string "GdObject"))⟩],
    nextref := W.nextref + 1,
    objects := (obj, .lua (boundInstance W obj)) :: W.objects }

/-- An engine whose methods return the object `200` and leave the world as
it is. -/
def spawnNative : NativeEnv := { idleNative with call := fun _ _ _ W => (.object 200, W) }

/-- An engine whose methods return the object they are called on and leave
the world as it is. -/
def echoNative : NativeEnv := { idleNative with call := fun _ self _ W => (.object self, W) }

/-- The world `chainWorld` at the entry of `l_methodbind_wrapper`, called
on the handle of the object `100` without further arguments. -/
def wrapperWorld : World := { chainWorld with stack := [.userdata 0] }

/-- The world `chainWorld` after a script has run `self[".c_instance"] = nil`
on the handle of the object `100`: the table of the instance has lost the
handle. -/
def clearedWorld : World := assignField chainWorld (.userdata 0) ".c_instance" .nil

/-- The functions of the sample scripts, the `_set` hook of the leaf (11)
being `function(self, name, value) return Vector2(1, 2) end`: it returns a
new boxed `Variant`. The `_set` hook of the parent (12) returns false. -/
def boxedEnv : LuaEnv := fun f _ W =>
  match f with
  | 11 => (.ok [(l_push_bulltins_type W (.builtin .VECTOR2 [1, 2])).stack.headD .nil],
           { l_push_bulltins_type W (.builtin .VECTOR2 [1, 2]) with stack := W.stack })
  | 12 => (.ok [.boolean false], W)
  | _ => (.ok [], W)

/-- The functions of the sample scripts, `base_only` of the parent (3)
returning 7. -/
def answerEnv : LuaEnv := fun f _ W =>
  match f with
  | 3 => (.ok [.number 7], W)
  | _ => (.ok [], W)
/-! ## The stack discipline of the API -/

@[simp] theorem index2adr_neg_one (a : LuaValue) (s : List LuaValue) :
    index2adr (a :: s) (-1) = some a := by
  simp [index2adr, LUA_REGISTRYINDEX]

@[simp] theorem index2adr_neg_two (a b : LuaValue) (s : List LuaValue) :
    index2adr (a :: b :: s) (-2) = some b := by
  simp [index2adr, LUA_REGISTRYINDEX]

@[simp] theorem index2adr_registry (s : List LuaValue) :
    index2adr s LUA_REGISTRYINDEX = some registry := by
  simp [index2adr, LUA_REGISTRYINDEX]

theorem lua_pop_eq (L : World) (n : Nat) : lua_pop L n = { L with stack := L.stack.drop n } := by
  unfold lua_pop lua_settop
  have h1 : ¬ (0 : Int) ≤ -(n : Int) - 1 := by omega
  have h2 : (-(-(n : Int) - 1)).toNat = n + 1 := by omega
  simp only [h1, h2, if_false]
  have h3 : L.stack.length + 1 - (n + 1) ≤ L.stack.length := by omega
  simp only [h3, if_true]
  by_cases h : n ≤ L.stack.length
  · have : L.stack.length - (L.stack.length + 1 - (n + 1)) = n := by omega
    rw [this]
  · have h4 : L.stack.length - (L.stack.length + 1 - (n + 1)) = L.stack.length := by omega
    rw [h4]
    have h5 : L.stack.drop L.stack.length = [] := List.drop_length _
    have h6 : L.stack.drop n = [] := List.drop_eq_nil_of_le (by omega)
    rw [h5, h6]

theorem lua_settop_restore (W : World) (pre s : List LuaValue) (h : W.stack = pre ++ s) :
    lua_settop W (s.length : Int) = { W with stack := s } := by
  unfold lua_settop
  have h1 : (0 : Int) ≤ (s.length : Int) := by omega
  simp only [h1, if_true, Int.toNat_ofNat, h, List.length_append]
  have h2 : s.length ≤ pre.length + s.length := by omega
  simp only [h2, if_true]
  have h3 : pre.length + s.length - s.length = pre.length := by omega
  rw [h3, List.drop_left]

theorem typeOf_nil_iff (v : LuaValue) :
    (typeOf (some v) == LuaType.LUA_TNIL) = decide (v = .nil) := by
  cases v <;> simp [typeOf]

theorem typeOf_function_iff (v : LuaValue) :
    (typeOf (some v) == LuaType.LUA_TFUNCTION) = true ↔ ∃ f, v = .function f := by
  cases v <;> simp [typeOf]

/-! ## The two conversions -/

theorem l_get_variant_top (L : World) (v : LuaValue) (s : List LuaValue) (r : Variant)
    (h : L.stack = v :: s) :
    (l_get_variant L (-1) r).2 = toNative L.tables L.udata v r ∧
    ((l_get_variant L (-1) r).1 = L ∨ (l_get_variant L (-1) r).1 = { L with stack := s }) := by
  cases v with
  | userdata u =>
    simp only [l_get_variant, lua_type, h, index2adr_neg_one, typeOf, lua_touserdata,
      lua_getmetatable, toNative]
    cases hm : metatableOf L.tables L.udata (some (.userdata u)) with
    | none => simp [lua_pop_eq, h]
    | some mt =>
      simp only [lua_getfield, push, lua_rawequal, index2adr_neg_one, index2adr_neg_two,
        index2adr_registry, lua_pop_eq, h]
      by_cases h1 : rawfield L.tables (some registry) (.string "GdObject") = .table mt
      · simp [h1, ← h]
      · by_cases h2 : rawfield L.tables (some registry) (.string "Variant") = .table mt
        · simp [h1, h2, ← h]
        · simp [h1, h2, ← h]
  | boolean b => cases b <;> simp [l_get_variant, lua_type, h, typeOf, toNative, lua_toboolean]
  | _ => simp [l_get_variant, lua_type, h, typeOf, toNative, lua_tonumber, lua_tostring]

theorem lookup_mem {α β : Type} [BEq α] [LawfulBEq α] (l : List (α × β)) (a : α) (b : β)
    (h : l.lookup a = some b) : (a, b) ∈ l := by
  induction l with
  | nil => simp at h
  | cons x xs ih =>
    obtain ⟨k, v⟩ := x
    by_cases hk : a = k
    · subst hk
      simp [List.lookup] at h
      simp [h]
    · have : (a == k) = false := by simpa using hk
      simp [List.lookup, this] at h
      simp [ih h]

theorem Bound.slot {L : World} (h : Bound L = true) {obj : Nat} {si : ScriptInstance}
    (hl : get_script_instance L obj = some si) : slotOK L si = true := by
  unfold Bound at h
  rw [List.all_eq_true] at h
  exact h _ (lookup_mem _ _ _ hl)

theorem pushObjectUserdata_eq (L : World) (obj : Nat) :
    ∃ ud, pushObjectUserdata L obj =
      { L with stack := .userdata L.udata.length :: L.stack, udata := ud } := by
  unfold pushObjectUserdata
  simp only [lua_newuserdata, storePtr, luaL_getmetatable, lua_getfield, push, lua_setmetatable,
    index2adr_neg_two, index2adr_registry]
  simp

theorem l_push_bulltins_type_eq (L : World) (var : Variant) :
    ∃ ud, l_push_bulltins_type L var =
      { L with stack := .userdata L.udata.length :: L.stack, udata := ud,
               variants := L.variants ++ [var] } := by
  unfold l_push_bulltins_type
  simp only [lua_newuserdata, memnew_Variant, storePtr, luaL_getmetatable, lua_getfield, push,
    lua_setmetatable, index2adr_neg_two, index2adr_registry]
  simp

theorem l_push_variant_pushed (L : World) (var : Variant) (hb : Bound L = true) :
    ∃ x, Pushed L (l_push_variant L var) x := by
  cases var with
  | nil => exact ⟨_, L.udata, L.variants, rfl⟩
  | bool b => exact ⟨_, L.udata, L.variants, rfl⟩
  | int i => exact ⟨_, L.udata, L.variants, rfl⟩
  | real r => exact ⟨_, L.udata, L.variants, rfl⟩
  | string s => exact ⟨_, L.udata, L.variants, rfl⟩
  | object obj =>
    simp only [l_push_variant, Variant.get_type, Variant.toObject]
    by_cases h0 : obj = 0
    · simp only [h0, if_true]; exact ⟨_, L.udata, L.variants, rfl⟩
    · simp only [h0, if_false]
      cases hsi : get_script_instance L obj with
      | none =>
        obtain ⟨ud, h⟩ := pushObjectUserdata_eq L obj
        exact ⟨.userdata L.udata.length, ud, L.variants, by simp [h]⟩
      | some si =>
        cases si with
        | other =>
          obtain ⟨ud, h⟩ := pushObjectUserdata_eq L obj
          exact ⟨.userdata L.udata.length, ud, L.variants, by simp [h]⟩
        | lua inst =>
          have hs := Bound.slot hb hsi
          simp only [slotOK, isTableValue] at hs
          simp only [lua_rawgeti, lua_pushstring, push, lua_rawget, index2adr_registry,
            index2adr_neg_two, lua_isnil, lua_istable, lua_type, index2adr_neg_one, typeOf_nil_iff,
            lua_pop_eq, lua_remove]
          by_cases ht : (typeOf (some (regslot L inst.ref)) == LuaType.LUA_TTABLE) = true
          · have hc : fieldAt L inst.ref ".c_instance" ≠ .nil := by simpa [ht] using hs
            simp only [regslot, fieldAt] at ht hc
            simp [ht, hc]
            exact ⟨_, L.udata, L.variants, rfl⟩
          · simp only [regslot] at ht
            simp [ht]
            obtain ⟨ud, h⟩ := pushObjectUserdata_eq { L with stack := L.stack } obj
            exact ⟨.userdata L.udata.length, ud, L.variants, by simpa using h⟩
  | builtin t d =>
    obtain ⟨ud, h⟩ := l_push_bulltins_type_eq L (.builtin t d)
    cases t <;> first
      | exact ⟨_, L.udata, L.variants, rfl⟩
      | exact ⟨.userdata L.udata.length, ud, L.variants ++ [.builtin _ d],
          by simpa [l_push_variant, Variant.get_type] using h⟩

/-! ## One level of the chain -/

theorem _call_script_skip (env : LuaEnv) (L : World) (sptr : LuaScriptPtr) (inst : LuaInstance)
    (m : String) (args : List Variant) (p_ret : Bool)
    (h : ∀ f, resolveMethod L inst sptr.ref m ≠ .function f) :
    _call_script env L sptr inst m args p_ret =
      (.ERR_SKIP, _cleanup_stacked { _start_stacked L with
          stack := resolveMethod L inst sptr.ref m :: regslot L inst.ref :: L.stack }) := by
  have hnf : ¬ (typeOf (some (resolveMethod L inst sptr.ref m)) == LuaType.LUA_TFUNCTION) = true := by
    rw [typeOf_function_iff]; rintro ⟨f, hf⟩; exact h f hf
  unfold _call_script
  simp only [_start_stacked, lua_rawgeti, lua_pushstring, push, lua_rawget, index2adr_registry,
    index2adr_neg_two, lua_isnil, lua_type, index2adr_neg_one, typeOf_nil_iff, lua_pop_eq,
    lua_remove, lua_isfunction]
  by_cases hn : fieldAt L inst.ref m = .nil
  · have hr : resolveMethod L inst sptr.ref m = fieldAt L sptr.ref m := by simp [resolveMethod, hn]
    rw [hr] at hnf ⊢
    simp only [fieldAt, regslot] at hn hnf ⊢
    simp [hn, hnf]
  · have hr : resolveMethod L inst sptr.ref m = fieldAt L inst.ref m := by simp [resolveMethod, hn]
    rw [hr] at hnf ⊢
    simp only [fieldAt, regslot] at hn hnf ⊢
    simp [hn, hnf]

theorem pushedValues_length (vs : List Variant) (L : World) :
    (pushedValues L vs).length = vs.length := by
  induction vs generalizing L with
  | nil => rfl
  | cons v vs ih => simp [pushedValues, ih]

theorem foldl_pushed (vs : List Variant) (L : World) (hb : Bound L = true) :
    ∃ ud vr, vs.foldl l_push_variant L =
      { L with stack := (pushedValues L vs).reverse ++ L.stack, udata := ud, variants := vr } := by
  induction vs generalizing L with
  | nil => exact ⟨L.udata, L.variants, rfl⟩
  | cons v vs ih =>
    obtain ⟨x, ud, vr, hx⟩ := l_push_variant_pushed L v hb
    have hb2 : Bound (l_push_variant L v) = true := by rw [hx]; exact hb
    obtain ⟨ud2, vr2, h2⟩ := ih (l_push_variant L v) hb2
    refine ⟨ud2, vr2, ?_⟩
    rw [List.foldl_cons, h2]
    simp [pushedValues, hx]

theorem lua_pcall_function (env : LuaEnv) (W Wc : World) (vals rest : List LuaValue)
    (C : List CallRecord) (f n k : Nat)
    (hs : W.stack = vals.reverse ++ .function f :: rest) (hk : vals.length = k)
    (hw : { W with stack := rest } = Wc) (hc : W.calls = C) :
    lua_pcall env W k n =
      match (env f vals Wc).1 with
      | .ok rs =>
        (0, { (env f vals Wc).2 with
              stack := (adjustResults rs n).reverse ++ rest,
              calls := C ++ [⟨f, vals, (env f vals Wc).1⟩] })
      | .error e =>
        (2, { (env f vals Wc).2 with
              stack := e :: rest,
              calls := C ++ [⟨f, vals, (env f vals Wc).1⟩] }) := by
  have hlen : vals.reverse.length = k := by simp [hk]
  have htake : W.stack.take k = vals.reverse := by rw [hs, ← hlen, List.take_left]
  have hdrop : W.stack.drop k = .function f :: rest := by rw [hs, ← hlen, List.drop_left]
  subst hw hc
  cases hout : (env f vals { W with stack := rest }).1 <;>
    simp [lua_pcall, htake, hdrop, hout]

theorem _call_script_function (env : LuaEnv) (L : World) (sptr : LuaScriptPtr)
    (inst : LuaInstance) (m : String) (args : List Variant) (p_ret : Bool) (f : Nat)
    (hb : Bound L = true) (h : resolveMethod L inst sptr.ref m = .function f) :
    _call_script env L sptr inst m args p_ret =
      match (hookOutcome env L inst f args).1 with
      | .ok rs =>
        (.OK, _cleanup_stacked { (hookOutcome env L inst f args).2 with
            stack := (adjustResults rs (if p_ret then 1 else 0)).reverse ++
              regslot L inst.ref :: L.stack,
            calls := L.calls ++ [hookRecord env L inst f args] })
      | .error e =>
        (.ERR_SCRIPT_FAILED, _cleanup_stacked (reportError { (hookOutcome env L inst f args).2 with
            stack := e :: regslot L inst.ref :: L.stack,
            calls := L.calls ++ [hookRecord env L inst f args] } (stringOf e) m)) := by
  obtain ⟨ud, vr, hfold⟩ := foldl_pushed (Variant.object inst.owner :: args) (callWorld L inst f)
    (by exact hb)
  have hlen := pushedValues_length (Variant.object inst.owner :: args) (callWorld L inst f)
  have key : (let L1 := _start_stacked L
      let L2 := lua_rawgeti L1 LUA_REGISTRYINDEX inst.ref
      let L3 := lua_pushstring L2 m
      let L4 := lua_rawget L3 (-2)
      if lua_isnil L4 (-1) then
        lua_remove (lua_rawget (lua_pushstring (lua_rawgeti (lua_pop L4 1) LUA_REGISTRYINDEX sptr.ref) m) (-2)) (-2)
      else L4) = callWorld L inst f := by
    simp only [_start_stacked, lua_rawgeti, lua_pushstring, push, lua_rawget, index2adr_registry,
      index2adr_neg_two, lua_isnil, lua_type, index2adr_neg_one, typeOf_nil_iff, lua_pop_eq,
      lua_remove, callWorld]
    by_cases hn : fieldAt L inst.ref m = .nil
    · have hr : fieldAt L sptr.ref m = .function f := by simpa [resolveMethod, hn] using h
      simp only [fieldAt, regslot] at hn hr ⊢
      simp [hn, hr]
    · have hr : fieldAt L inst.ref m = .function f := by simpa [resolveMethod, hn] using h
      simp only [fieldAt, regslot] at hn hr ⊢
      simp [hn, hr]
  have hisf : lua_isfunction (callWorld L inst f) (-1) = true := by
    simp [lua_isfunction, lua_type, callWorld, typeOf, _start_stacked]
  have hstack : ((Variant.object inst.owner :: args).foldl l_push_variant (callWorld L inst f)).stack =
      (calleeArgs L inst f args).reverse ++ .function f :: (regslot L inst.ref :: L.stack) := by
    rw [hfold]; rfl
  have hcalls : ((Variant.object inst.owner :: args).foldl l_push_variant (callWorld L inst f)).calls
      = L.calls := by rw [hfold]; rfl
  have hp : lua_pcall env
      ((Variant.object inst.owner :: args).foldl l_push_variant (callWorld L inst f))
      (args.length + 1) (if p_ret then 1 else 0) =
      match (hookOutcome env L inst f args).1 with
      | .ok rs =>
        (0, { (hookOutcome env L inst f args).2 with
              stack := (adjustResults rs (if p_ret then 1 else 0)).reverse ++
                (regslot L inst.ref :: L.stack),
              calls := L.calls ++ [hookRecord env L inst f args] })
      | .error e =>
        (2, { (hookOutcome env L inst f args).2 with
              stack := e :: (regslot L inst.ref :: L.stack),
              calls := L.calls ++ [hookRecord env L inst f args] }) :=
    lua_pcall_function env _ (calleeWorld L inst f args) (calleeArgs L inst f args)
      (regslot L inst.ref :: L.stack) L.calls f (if p_ret then 1 else 0)
      (args.length + 1) hstack (by simpa [calleeArgs] using hlen) rfl hcalls
  have hf2 : List.foldl l_push_variant (l_push_variant (callWorld L inst f) (.object inst.owner)) args
      = (Variant.object inst.owner :: args).foldl l_push_variant (callWorld L inst f) := rfl
  unfold _call_script
  simp only at key
  simp only [key, hisf, if_true, hf2, hp]
  cases (hookOutcome env L inst f args).1 with
  | ok rs => simp
  | error e =>
    simp [lua_tostring, stringOf]
    cases e <;> rfl

theorem _cleanup_stacked_stack (W : World) (s : List LuaValue) :
    { _cleanup_stacked W with stack := s } = _cleanup_stacked { W with stack := s } := by
  unfold _cleanup_stacked
  simp only
  split <;> rfl

theorem _cleanup_stacked_stack_eq (W : World) : (_cleanup_stacked W).stack = W.stack := by
  unfold _cleanup_stacked
  simp only
  split <;> rfl

theorem adjustResults_one (rs : List LuaValue) : adjustResults rs 1 = [rs.headD .nil] := by
  cases rs <;> simp [adjustResults]

theorem adjustResults_zero (rs : List LuaValue) : adjustResults rs 0 = [] := by
  simp [adjustResults]

theorem _call_script_func_result_skip (env : LuaEnv) (L : World) (sptr : LuaScriptPtr)
    (inst : LuaInstance) (m : String) (args : List Variant) (res : Variant)
    (h : ∀ f, resolveMethod L inst sptr.ref m ≠ .function f) :
    _call_script_func_result env L sptr inst m args res = (.ERR_SKIP, res, skipWorld L) := by
  unfold _call_script_func_result
  rw [_call_script_skip env L sptr inst m args true h]
  simp only [lua_gettop]
  have hs : (_cleanup_stacked { _start_stacked L with
      stack := resolveMethod L inst sptr.ref m :: regslot L inst.ref :: L.stack }).stack =
      [resolveMethod L inst sptr.ref m, regslot L inst.ref] ++ L.stack := by
    rw [_cleanup_stacked_stack_eq]; rfl
  rw [lua_settop_restore _ _ _ hs, _cleanup_stacked_stack]
  simp [skipWorld, _start_stacked]

theorem _call_script_func_skip (env : LuaEnv) (L : World) (sptr : LuaScriptPtr)
    (inst : LuaInstance) (m : String) (args : List Variant)
    (h : ∀ f, resolveMethod L inst sptr.ref m ≠ .function f) :
    _call_script_func env L sptr inst m args = (.ERR_SKIP, skipWorld L) := by
  unfold _call_script_func
  rw [_call_script_skip env L sptr inst m args false h]
  simp only [lua_gettop]
  have hs : (_cleanup_stacked { _start_stacked L with
      stack := resolveMethod L inst sptr.ref m :: regslot L inst.ref :: L.stack }).stack =
      [resolveMethod L inst sptr.ref m, regslot L inst.ref] ++ L.stack := by
    rw [_cleanup_stacked_stack_eq]; rfl
  rw [lua_settop_restore _ _ _ hs, _cleanup_stacked_stack]
  simp [skipWorld, _start_stacked]

theorem _call_script_func_function (env : LuaEnv) (L : World) (sptr : LuaScriptPtr)
    (inst : LuaInstance) (m : String) (args : List Variant) (f : Nat)
    (hb : Bound L = true) (h : resolveMethod L inst sptr.ref m = .function f) :
    _call_script_func env L sptr inst m args =
      match (hookOutcome env L inst f args).1 with
      | .ok _ => (.OK, afterHook L (hookOutcome env L inst f args).2 (hookRecord env L inst f args))
      | .error e => (.ERR_SCRIPT_FAILED,
          afterFailedHook L (hookOutcome env L inst f args).2 (hookRecord env L inst f args) e m) := by
  unfold _call_script_func
  rw [_call_script_function env L sptr inst m args false f hb h]
  simp only [lua_gettop]
  cases (hookOutcome env L inst f args).1 with
  | ok rs =>
    simp only [adjustResults_zero, Bool.false_eq_true, if_false, List.reverse_nil, List.nil_append]
    have hs : (_cleanup_stacked { (hookOutcome env L inst f args).2 with
        stack := regslot L inst.ref :: L.stack,
        calls := L.calls ++ [hookRecord env L inst f args] }).stack =
        [regslot L inst.ref] ++ L.stack := by
      rw [_cleanup_stacked_stack_eq]; rfl
    rw [lua_settop_restore _ _ _ hs, _cleanup_stacked_stack]
    rfl
  | error e =>
    simp only
    have hs : (_cleanup_stacked (reportError { (hookOutcome env L inst f args).2 with
        stack := e :: regslot L inst.ref :: L.stack,
        calls := L.calls ++ [hookRecord env L inst f args] } (stringOf e) m)).stack =
        [e, regslot L inst.ref] ++ L.stack := by
      rw [_cleanup_stacked_stack_eq]; rfl
    rw [lua_settop_restore _ _ _ hs, _cleanup_stacked_stack]
    rfl

theorem _call_script_func_result_function (env : LuaEnv) (L : World) (sptr : LuaScriptPtr)
    (inst : LuaInstance) (m : String) (args : List Variant) (res : Variant) (f : Nat)
    (hb : Bound L = true) (h : resolveMethod L inst sptr.ref m = .function f) :
    _call_script_func_result env L sptr inst m args res =
      match (hookOutcome env L inst f args).1 with
      | .ok rs => (.OK,
          toNative (hookOutcome env L inst f args).2.tables (hookOutcome env L inst f args).2.udata
            (rs.headD .nil) res,
          afterHook L (hookOutcome env L inst f args).2 (hookRecord env L inst f args))
      | .error e => (.ERR_SCRIPT_FAILED, res,
          afterFailedHook L (hookOutcome env L inst f args).2 (hookRecord env L inst f args) e m) := by
  unfold _call_script_func_result
  rw [_call_script_function env L sptr inst m args true f hb h]
  simp only [lua_gettop]
  cases (hookOutcome env L inst f args).1 with
  | ok rs =>
    simp only [adjustResults_one, if_true, List.reverse_cons, List.reverse_nil, List.nil_append,
      List.singleton_append]
    have hs : (_cleanup_stacked { (hookOutcome env L inst f args).2 with
        stack := rs.headD .nil :: regslot L inst.ref :: L.stack,
        calls := L.calls ++ [hookRecord env L inst f args] }).stack =
        rs.headD .nil :: (regslot L inst.ref :: L.stack) := by
      rw [_cleanup_stacked_stack_eq]
    obtain ⟨hv, hw⟩ := l_get_variant_top _ _ _ res hs
    have ht : (_cleanup_stacked { (hookOutcome env L inst f args).2 with
        stack := rs.headD .nil :: regslot L inst.ref :: L.stack,
        calls := L.calls ++ [hookRecord env L inst f args] }).tables =
        (hookOutcome env L inst f args).2.tables := by
      unfold _cleanup_stacked; simp only; split <;> rfl
    have hu : (_cleanup_stacked { (hookOutcome env L inst f args).2 with
        stack := rs.headD .nil :: regslot L inst.ref :: L.stack,
        calls := L.calls ++ [hookRecord env L inst f args] }).udata =
        (hookOutcome env L inst f args).2.udata := by
      unfold _cleanup_stacked; simp only; split <;> rfl
    rw [ht, hu] at hv
    simp only [hv]
    rcases hw with hw | hw
    · rw [hw]
      have hs2 : (_cleanup_stacked { (hookOutcome env L inst f args).2 with
        stack := rs.headD .nil :: regslot L inst.ref :: L.stack,
        calls := L.calls ++ [hookRecord env L inst f args] }).stack =
        [rs.headD .nil, regslot L inst.ref] ++ L.stack := by rw [hs]; rfl
      rw [lua_settop_restore _ _ _ hs2, _cleanup_stacked_stack]
      rfl
    · rw [hw]
      rw [lua_settop_restore _ [regslot L inst.ref] L.stack rfl, _cleanup_stacked_stack]
      rfl
  | error e =>
    simp only
    have hs : (_cleanup_stacked (reportError { (hookOutcome env L inst f args).2 with
        stack := e :: regslot L inst.ref :: L.stack,
        calls := L.calls ++ [hookRecord env L inst f args] } (stringOf e) m)).stack =
        [e, regslot L inst.ref] ++ L.stack := by
      rw [_cleanup_stacked_stack_eq]; rfl
    rw [lua_settop_restore _ _ _ hs, _cleanup_stacked_stack]
    rfl

/-! ## The call log only grows -/

theorem _cleanup_stacked_calls (W : World) : (_cleanup_stacked W).calls = W.calls := by
  unfold _cleanup_stacked; simp only; split <;> rfl

theorem pushObjectUserdata_calls (L : World) (obj : Nat) :
    (pushObjectUserdata L obj).calls = L.calls := by
  obtain ⟨ud, h⟩ := pushObjectUserdata_eq L obj
  rw [h]

theorem l_push_bulltins_type_calls (L : World) (var : Variant) :
    (l_push_bulltins_type L var).calls = L.calls := by
  obtain ⟨ud, h⟩ := l_push_bulltins_type_eq L var
  rw [h]

theorem l_push_variant_calls (L : World) (var : Variant) :
    (l_push_variant L var).calls = L.calls := by
  cases var with
  | object obj =>
    simp only [l_push_variant, Variant.get_type, Variant.toObject]
    split
    · rfl
    · split
      · split
        · split
          · rfl
          · rw [pushObjectUserdata_calls]; simp [lua_pop_eq, lua_rawget, lua_pushstring, lua_rawgeti, push]
        · rw [pushObjectUserdata_calls]; simp [lua_pop_eq, lua_rawgeti, push]
      · rw [pushObjectUserdata_calls]
  | builtin t d =>
    cases t <;> first
      | rfl
      | exact l_push_bulltins_type_calls L _
  | _ => rfl

theorem foldl_push_calls (vs : List Variant) (L : World) :
    (vs.foldl l_push_variant L).calls = L.calls := by
  induction vs generalizing L with
  | nil => rfl
  | cons v vs ih => rw [List.foldl_cons, ih, l_push_variant_calls]

theorem lua_pcall_calls (env : LuaEnv) (W : World) (k n : Nat) :
    ∃ ext, (lua_pcall env W k n).2.calls = W.calls ++ ext := by
  unfold lua_pcall
  simp only
  split
  · split
    · exact ⟨_, rfl⟩
    · exact ⟨_, rfl⟩
  · exact ⟨[], by simp⟩
  · exact ⟨[], by simp⟩

theorem lua_settop_calls (W : World) (n : Int) : (lua_settop W n).calls = W.calls := by
  unfold lua_settop; simp only; split <;> split <;> rfl

theorem lua_pop_calls (W : World) (n : Nat) : (lua_pop W n).calls = W.calls := by
  rw [lua_pop_eq]

theorem lua_getmetatable_calls (L : World) (idx : Int) :
    (lua_getmetatable L idx).2.calls = L.calls := by
  unfold lua_getmetatable; split <;> rfl

theorem l_get_variant_calls (L : World) (idx : Int) (r : Variant) :
    (l_get_variant L idx r).1.calls = L.calls := by
  have h1 : ∀ (W : World) (k : String), (lua_getfield W LUA_REGISTRYINDEX k).calls = W.calls :=
    fun _ _ => rfl
  unfold l_get_variant
  split
  any_goals rfl
  split
  · rfl
  · simp only
    split
    · split
      · simp only [lua_pop_calls, h1, lua_getmetatable_calls]
      · split
        · simp only [lua_pop_calls, h1, lua_getmetatable_calls]
        · simp only [lua_pop_calls, h1, lua_getmetatable_calls]
    · simp only [lua_pop_calls, lua_getmetatable_calls]

theorem _call_script_calls (env : LuaEnv) (L : World) (sptr : LuaScriptPtr) (inst : LuaInstance)
    (m : String) (args : List Variant) (p_ret : Bool) :
    ∃ ext, (_call_script env L sptr inst m args p_ret).2.calls = L.calls ++ ext := by
  unfold _call_script
  simp only
  have hpre : ∀ W : World, W.calls = L.calls → 
      ∃ ext, (if lua_isfunction W (-1) = true then
        let L := l_push_variant W (.object inst.owner)
        let L := args.foldl l_push_variant L
        let r := lua_pcall env L (args.length + 1) (if p_ret then 1 else 0)
        if r.1 ≠ 0 then
          (Error.ERR_SCRIPT_FAILED, _cleanup_stacked (reportError r.2 (lua_tostring r.2 (-1)) m))
        else (Error.OK, _cleanup_stacked r.2)
      else (Error.ERR_SKIP, _cleanup_stacked W)).2.calls = L.calls ++ ext := by
    intro W hW
    generalize (if p_ret = true then (1 : Nat) else 0) = n
    split
    · obtain ⟨ext, he⟩ := lua_pcall_calls env
        (args.foldl l_push_variant (l_push_variant W (.object inst.owner))) (args.length + 1) n
      rw [foldl_push_calls, l_push_variant_calls, hW] at he
      simp only
      split
      · exact ⟨ext, by rw [_cleanup_stacked_calls]; simpa [reportError] using he⟩
      · exact ⟨ext, by rw [_cleanup_stacked_calls]; exact he⟩
    · exact ⟨[], by rw [_cleanup_stacked_calls]; simp [hW]⟩
  apply hpre
  split
  · simp [lua_remove, lua_rawget, lua_pushstring, lua_rawgeti, push, lua_pop_eq, _start_stacked]
  · simp [lua_rawget, lua_pushstring, lua_rawgeti, push, _start_stacked]

theorem _call_script_func_result_calls (env : LuaEnv) (L : World) (sptr : LuaScriptPtr)
    (inst : LuaInstance) (m : String) (args : List Variant) (res : Variant) :
    ∃ ext, (_call_script_func_result env L sptr inst m args res).2.2.calls = L.calls ++ ext := by
  obtain ⟨ext, he⟩ := _call_script_calls env L sptr inst m args true
  refine ⟨ext, ?_⟩
  unfold _call_script_func_result
  simp only
  split
  · simp only [lua_settop_calls, l_get_variant_calls]; exact he
  · simp only [lua_settop_calls]; exact he

theorem call_loop_nil (env : LuaEnv) (inst : LuaInstance) (m : String) (args : List Variant)
    (L : World) (res : Variant) :
    call_loop env inst m args [] L res = (.nil, .CALL_ERROR_INVALID_METHOD, L) := by
  rfl

theorem call_loop_cons (env : LuaEnv) (inst : LuaInstance) (m : String) (args : List Variant)
    (ref : Int) (base : LuaScriptPtr) (L : World) (res : Variant) :
    call_loop env inst m args (ref :: base) L res =
      match (_call_script_func_result env L (ref :: base) inst m args res).1 with
      | .OK => ((_call_script_func_result env L (ref :: base) inst m args res).2.1, .CALL_OK,
          (_call_script_func_result env L (ref :: base) inst m args res).2.2)
      | .FAILED => (.nil, .CALL_ERROR_INVALID_METHOD,
          (_call_script_func_result env L (ref :: base) inst m args res).2.2)
      | .ERR_SKIP => call_loop env inst m args base
          (_call_script_func_result env L (ref :: base) inst m args res).2.2
          (_call_script_func_result env L (ref :: base) inst m args res).2.1
      | .ERR_SCRIPT_FAILED => call_loop env inst m args base
          (_call_script_func_result env L (ref :: base) inst m args res).2.2
          (_call_script_func_result env L (ref :: base) inst m args res).2.1 := by
  rfl

theorem set_loop_nil (env : LuaEnv) (inst : LuaInstance) (name : String) (value : Variant)
    (L : World) : set_loop env inst name value [] L = (false, L) := by
  rfl

theorem call_loop_calls (env : LuaEnv) (inst : LuaInstance) (m : String) (args : List Variant)
    (sptr : LuaScriptPtr) (L : World) (res : Variant) :
    ∃ ext, (call_loop env inst m args sptr L res).2.2.calls = L.calls ++ ext := by
  induction sptr generalizing L res with
  | nil => rw [call_loop_nil]; exact ⟨[], by simp⟩
  | cons ref base ih =>
    obtain ⟨ext, he⟩ := _call_script_func_result_calls env L (ref :: base) inst m args res
    rw [call_loop_cons]
    split
    · exact ⟨ext, he⟩
    · exact ⟨ext, he⟩
    · obtain ⟨ext2, he2⟩ := ih (_call_script_func_result env L (ref :: base) inst m args res).2.2
        (_call_script_func_result env L (ref :: base) inst m args res).2.1
      exact ⟨ext ++ ext2, by rw [he2, he, List.append_assoc]⟩
    · obtain ⟨ext2, he2⟩ := ih (_call_script_func_result env L (ref :: base) inst m args res).2.2
        (_call_script_func_result env L (ref :: base) inst m args res).2.1
      exact ⟨ext ++ ext2, by rw [he2, he, List.append_assoc]⟩

/-! ## Levels that are skipped -/

theorem skipWorld_tables (L : World) : (skipWorld L).tables = L.tables := by
  unfold skipWorld _cleanup_stacked _start_stacked; simp only; split <;> rfl

theorem skipWorld_objects (L : World) : (skipWorld L).objects = L.objects := by
  unfold skipWorld _cleanup_stacked _start_stacked; simp only; split <;> rfl

theorem skipWorld_calls (L : World) : (skipWorld L).calls = L.calls := by
  unfold skipWorld _cleanup_stacked _start_stacked; simp only; split <;> rfl

theorem resolveMethod_congr {L L2 : World} (h : L2.tables = L.tables) (inst : LuaInstance)
    (r : Int) (m : String) : resolveMethod L2 inst r m = resolveMethod L inst r m := by
  simp [resolveMethod, fieldAt, regslot, h]

theorem Bound_congr {L L2 : World} (ht : L2.tables = L.tables) (ho : L2.objects = L.objects) :
    Bound L2 = Bound L := by
  simp [Bound, slotOK, fieldAt, regslot, ht, ho]

theorem iterate_skipWorld (n : Nat) (L : World) :
    (skipWorld^[n] L).tables = L.tables ∧ (skipWorld^[n] L).objects = L.objects ∧
    (skipWorld^[n] L).calls = L.calls := by
  induction n generalizing L with
  | zero => exact ⟨rfl, rfl, rfl⟩
  | succ n ih =>
    rw [Function.iterate_succ_apply]
    obtain ⟨a, b, c⟩ := ih (skipWorld L)
    exact ⟨a.trans (skipWorld_tables L), b.trans (skipWorld_objects L), c.trans (skipWorld_calls L)⟩

theorem l_get_variant_value (L : World) (idx : Int) (v : LuaValue) (r : Variant)
    (h : index2adr L.stack idx = some v) :
    (l_get_variant L idx r).2 = toNative L.tables L.udata v r := by
  cases v with
  | userdata u =>
    simp only [l_get_variant, lua_type, h, typeOf, lua_touserdata, lua_getmetatable, toNative]
    cases hm : metatableOf L.tables L.udata (some (.userdata u)) with
    | none => simp
    | some mt =>
      simp only [lua_getfield, push, lua_rawequal, index2adr_neg_one, index2adr_neg_two,
        index2adr_registry, lua_pop_eq]
      by_cases h1 : rawfield L.tables (some registry) (.string "GdObject") = .table mt
      · simp [h1]
      · by_cases h2 : rawfield L.tables (some registry) (.string "Variant") = .table mt
        · simp [h1, h2]
        · simp [h1, h2]
  | boolean b => cases b <;> simp [l_get_variant, lua_type, h, typeOf, toNative, lua_toboolean]
  | _ => simp [l_get_variant, lua_type, h, typeOf, toNative, lua_tonumber, lua_tostring]

theorem _call_script_status (env : LuaEnv) (L : World) (sptr : LuaScriptPtr) (inst : LuaInstance)
    (m : String) (args : List Variant) (p_ret : Bool) :
    (_call_script env L sptr inst m args p_ret).1 ≠ .FAILED := by
  unfold _call_script
  simp only
  split_ifs <;> simp

theorem init_status (env : LuaEnv) (L : World) (inst : LuaInstance) :
    (init env L inst).1 = .OK := by
  unfold init
  simp only
  split
  · split
    · rename_i h
      exact absurd h (_call_script_status env _ _ _ _ _ _)
    · rfl
  · rfl

/-! ## Raw writes and what they leave readable -/

theorem lookup_filter_self (fs : List (LuaValue × LuaValue)) (k : LuaValue) :
    (fs.filter (fun e => e.1 != k)).lookup k = none := by
  induction fs with
  | nil => rfl
  | cons e fs ih =>
    obtain ⟨a, b⟩ := e
    by_cases h : a = k
    · rw [List.filter_cons_of_neg (by simp [h])]; exact ih
    · have hk : (k == a) = false := by simpa using fun hc => h hc.symm
      rw [List.filter_cons_of_pos (by simp [h]), List.lookup_cons, hk]; exact ih

theorem lookup_filter_ne (fs : List (LuaValue × LuaValue)) (k k2 : LuaValue) (h : k2 ≠ k) :
    (fs.filter (fun e => e.1 != k)).lookup k2 = fs.lookup k2 := by
  induction fs with
  | nil => rfl
  | cons e fs ih =>
    obtain ⟨a, b⟩ := e
    by_cases he : a = k
    · have hk : (k2 == a) = false := by simpa [he] using h
      rw [List.filter_cons_of_neg (by simp [he]), List.lookup_cons, hk]; exact ih
    · rw [List.filter_cons_of_pos (by simp [he]), List.lookup_cons, List.lookup_cons, ih]

theorem lookup_setfields_self_nil (fs : List (LuaValue × LuaValue)) (k : LuaValue) :
    (setfields fs k .nil).lookup k = none := by
  simp [setfields, lookup_filter_self]

theorem lookup_setfields_self (fs : List (LuaValue × LuaValue)) (k v : LuaValue) (hv : v ≠ .nil) :
    (setfields fs k v).lookup k = some v := by
  simp [setfields, hv, List.lookup]

theorem lookup_setfields_ne (fs : List (LuaValue × LuaValue)) (k v k2 : LuaValue) (h : k2 ≠ k) :
    (setfields fs k v).lookup k2 = fs.lookup k2 := by
  have hk : (k2 == k) = false := by simpa using h
  unfold setfields
  split
  · exact lookup_filter_ne fs k k2 h
  · simp [List.lookup, hk, lookup_filter_ne fs k k2 h]

theorem rawfield_rawstore_ne (T : List LuaTable) (tv : Option LuaValue) (k v : LuaValue)
    (t2 : Option LuaValue) (k2 : LuaValue) (h : k2 ≠ k) :
    rawfield (rawstore T tv k v) t2 k2 = rawfield T t2 k2 := by
  unfold rawstore
  split
  · rename_i id
    split
    · rename_i tb htb
      unfold rawfield fieldsOf
      split
      · rename_i j
        by_cases hj : id = j
        · subst hj
          have hlt : id < T.length := by
            rcases Nat.lt_or_ge id T.length with hl | hl
            · exact hl
            · rw [List.getElem?_eq_none hl] at htb; cases htb
          rw [List.getElem?_set_eq_of_lt _ hlt, htb]
          simp only [Option.map_some', Option.getD_some]
          rw [lookup_setfields_ne _ _ _ _ h]
        · rw [List.getElem?_set_ne hj]
      · rfl
    · rfl
  · rfl

theorem rawfield_rawstore_self_nil (T : List LuaTable) (tv : Option LuaValue) (k : LuaValue) :
    rawfield (rawstore T tv k .nil) tv k = .nil := by
  unfold rawstore
  split
  · rename_i id
    split
    · rename_i tb htb
      have hlt : id < T.length := by
        rcases Nat.lt_or_ge id T.length with hl | hl
        · exact hl
        · rw [List.getElem?_eq_none hl] at htb; cases htb
      unfold rawfield fieldsOf
      simp only [List.getElem?_set_eq_of_lt _ hlt, Option.map_some', Option.getD_some,
        lookup_setfields_self_nil, Option.getD_none]
    · rename_i htb
      unfold rawfield fieldsOf
      simp [htb]
  · rename_i hnt
    unfold rawfield fieldsOf
    split
    · rename_i id; exact absurd rfl (hnt id)
    · rfl

theorem rawfield_rawstore_self (T : List LuaTable) (id : Nat) (k v : LuaValue)
    (hlt : id < T.length) (hv : v ≠ .nil) :
    rawfield (rawstore T (some (.table id)) k v) (some (.table id)) k = v := by
  unfold rawstore
  simp only [List.getElem?_eq_getElem hlt]
  unfold rawfield fieldsOf
  simp only [List.getElem?_set_eq_of_lt _ hlt, Option.map_some', Option.getD_some,
    lookup_setfields_self _ _ _ hv]

/-- Setting a metatable leaves the fields of every table as they were. -/
theorem rawfield_setmetatable (W : World) (idx : Int) (t : Option LuaValue) (k : LuaValue) :
    rawfield (lua_setmetatable W idx).tables t k = rawfield W.tables t k := by
  unfold lua_setmetatable
  split
  · rename_i m rest hs
    simp only
    split
    · rename_i id hidx
      split
      · rename_i tb htb
        unfold rawfield fieldsOf
        split
        · rename_i j
          by_cases hj : id = j
          · subst hj
            have hlt : id < W.tables.length := by
              rcases Nat.lt_or_ge id W.tables.length with hl | hl
              · exact hl
              · rw [List.getElem?_eq_none hl] at htb; cases htb
            simp only [List.getElem?_set_eq_of_lt _ hlt, htb, Option.map_some']
          · simp only [List.getElem?_set_ne hj]
        · rfl
      · rfl
    · split <;> rfl
    · rfl
  · rfl

/-! ## What the conversions leave of the nesting state -/

theorem _cleanup_stacked_stacklevel (W : World) :
    (_cleanup_stacked W).stacklevel = W.stacklevel - 1 := by
  unfold _cleanup_stacked; simp only; split <;> rfl

theorem _cleanup_stacked_stackrefs (W : World) :
    (_cleanup_stacked W).stackrefs = if W.stacklevel - 1 = 0 then [] else W.stackrefs := by
  unfold _cleanup_stacked; simp only; split <;> rfl

theorem pushObjectUserdata_nesting (L : World) (obj : Nat) :
    (pushObjectUserdata L obj).stacklevel = L.stacklevel ∧
    (pushObjectUserdata L obj).stackrefs = L.stackrefs := by
  obtain ⟨ud, h⟩ := pushObjectUserdata_eq L obj
  rw [h]; exact ⟨rfl, rfl⟩

theorem l_push_bulltins_type_nesting (L : World) (var : Variant) :
    (l_push_bulltins_type L var).stacklevel = L.stacklevel ∧
    (l_push_bulltins_type L var).stackrefs = L.stackrefs := by
  obtain ⟨ud, h⟩ := l_push_bulltins_type_eq L var
  rw [h]; exact ⟨rfl, rfl⟩

theorem l_push_variant_nesting (L : World) (var : Variant) :
    (l_push_variant L var).stacklevel = L.stacklevel ∧
    (l_push_variant L var).stackrefs = L.stackrefs := by
  cases var with
  | object obj =>
    simp only [l_push_variant, Variant.get_type, Variant.toObject]
    split
    · exact ⟨rfl, rfl⟩
    · split
      · split
        · split
          · exact ⟨rfl, rfl⟩
          · rw [(pushObjectUserdata_nesting _ _).1, (pushObjectUserdata_nesting _ _).2]
            simp [lua_pop_eq, lua_rawget, lua_pushstring, lua_rawgeti, push]
        · rw [(pushObjectUserdata_nesting _ _).1, (pushObjectUserdata_nesting _ _).2]
          simp [lua_pop_eq, lua_rawgeti, push]
      · exact pushObjectUserdata_nesting _ _
  | builtin t d =>
    cases t <;> first
      | exact ⟨rfl, rfl⟩
      | exact l_push_bulltins_type_nesting L _
  | _ => exact ⟨rfl, rfl⟩

theorem foldl_push_nesting (vs : List Variant) (L : World) :
    (vs.foldl l_push_variant L).stacklevel = L.stacklevel ∧
    (vs.foldl l_push_variant L).stackrefs = L.stackrefs := by
  induction vs generalizing L with
  | nil => exact ⟨rfl, rfl⟩
  | cons v vs ih =>
    rw [List.foldl_cons, (ih _).1, (ih _).2]
    exact l_push_variant_nesting L v

/-! ## What a call leaves of the tables and the script instances -/

theorem calleeWorld_tables (L : World) (inst : LuaInstance) (f : Nat) (args : List Variant)
    (hb : Bound L = true) :
    (calleeWorld L inst f args).tables = L.tables ∧ (calleeWorld L inst f args).objects = L.objects := by
  obtain ⟨ud, vr, h⟩ := foldl_pushed (Variant.object inst.owner :: args) (callWorld L inst f) hb
  unfold calleeWorld
  rw [h]
  exact ⟨rfl, rfl⟩

theorem _cleanup_stacked_tables (W : World) : (_cleanup_stacked W).tables = W.tables := by
  unfold _cleanup_stacked; simp only; split <;> rfl

theorem _cleanup_stacked_objects (W : World) : (_cleanup_stacked W).objects = W.objects := by
  unfold _cleanup_stacked; simp only; split <;> rfl

/-! ## The loop of `set` -/

theorem bool_true_iff (v : Variant) : (v.get_type = .BOOL ∧ v.toBool = true) ↔ v = .bool true := by
  cases v <;> simp [Variant.get_type, Variant.toBool]

theorem set_loop_cons (env : LuaEnv) (inst : LuaInstance) (name : String) (value : Variant)
    (ref : Int) (base : LuaScriptPtr) (L : World) :
    set_loop env inst name value (ref :: base) L =
      if (_call_script_func_result env L (ref :: base) inst "_set" [.string name, value] .nil).1 = .OK ∧
         (_call_script_func_result env L (ref :: base) inst "_set" [.string name, value] .nil).2.1.get_type = .BOOL ∧
         (_call_script_func_result env L (ref :: base) inst "_set" [.string name, value] .nil).2.1.toBool = true
      then (true, (_call_script_func_result env L (ref :: base) inst "_set" [.string name, value] .nil).2.2)
      else set_loop env inst name value base
        (_call_script_func_result env L (ref :: base) inst "_set" [.string name, value] .nil).2.2 := by
  rfl

/-! ## `get`: the order of the lookup -/

theorem rawget_field (L : World) (ref : Int) (name : String) :
    lua_rawget (lua_pushstring (lua_rawgeti L LUA_REGISTRYINDEX ref) name) (-2) =
      { L with stack := fieldAt L ref name :: regslot L ref :: L.stack } := by
  simp [lua_rawgeti, lua_pushstring, push, lua_rawget, fieldAt, regslot]

theorem raw_probe (L : World) (ref : Int) (name : String) (r_ret : Variant) :
    let L3 := lua_rawget (lua_pushstring (lua_rawgeti L LUA_REGISTRYINDEX ref) name) (-2)
    (lua_isnil L3 (-1) = decide (fieldAt L ref name = .nil)) ∧
    (l_get_variant L3 (-1) r_ret).2 = toNative L.tables L.udata (fieldAt L ref name) r_ret ∧
    lua_pop L3 2 = L := by
  simp only [rawget_field]
  refine ⟨?_, ?_, ?_⟩
  · simp [lua_isnil, lua_type, typeOf_nil_iff]
  · exact (l_get_variant_top _ _ _ r_ret rfl).1
  · simp [lua_pop_eq]

/-- In a world whose bound objects keep their handle, the call of the `_get`
hook that `get` makes at a level is the step `getHook` of that level. -/
theorem hook_probe (env : LuaEnv) (inst : LuaInstance) (name : String) (r_ret : Variant)
    (ref : Int) (base : LuaScriptPtr) (L : World) (hb : Bound L = true) :
    ((if (_call_script_func_result env L (ref :: base) inst "_get" [.string name] .nil).1 = .OK ∧
          (_call_script_func_result env L (ref :: base) inst "_get" [.string name] .nil).2.1.get_type
            ≠ .NIL
        then some (_call_script_func_result env L (ref :: base) inst "_get" [.string name] .nil).2.1
        else none),
      (_call_script_func_result env L (ref :: base) inst "_get" [.string name] .nil).2.2) =
      runProbe env inst name r_ret (.getHook ref) L := by
  simp only [runProbe]
  cases hr : resolveMethod L inst ref "_get" with
  | function f =>
    rw [_call_script_func_result_function env L (ref :: base) inst "_get" [.string name] .nil f hb hr]
    cases ho : (hookOutcome env L inst f [.string name]).1 with
    | ok rs =>
      simp only [ho, hookYield, true_and, ne_eq, ite_not]
    | error e => simp [ho]
  | _ =>
    rw [_call_script_func_result_skip env L (ref :: base) inst "_get" [.string name] .nil
      (by intro f hf; rw [show LuaScriptPtr.ref (ref :: base) = ref from rfl, hr] at hf; cases hf)]
    simp

theorem afterHook_bound (L out : World) (r : CallRecord) :
    Bound (afterHook L out r) = Bound out :=
  Bound_congr (by simp [afterHook, _cleanup_stacked_tables])
    (by simp [afterHook, _cleanup_stacked_objects])

theorem afterFailedHook_bound (L out : World) (r : CallRecord) (e : LuaValue) (m : String) :
    Bound (afterFailedHook L out r e m) = Bound out :=
  Bound_congr (by simp [afterFailedHook, _cleanup_stacked_tables, reportError])
    (by simp [afterFailedHook, _cleanup_stacked_objects, reportError])

/-- A step leaves the bound objects with their handle when the hooks do. -/
theorem runProbe_bound (env : LuaEnv) (inst : LuaInstance) (name : String) (r_ret : Variant)
    (hst : ∀ f a W, Bound W = true → Bound (env f a W).2 = true)
    (p : Probe) (L : World) (hb : Bound L = true) :
    Bound (runProbe env inst name r_ret p L).2 = true := by
  cases p with
  | instanceField => exact hb
  | scriptField ref => exact hb
  | getHook ref =>
    simp only [runProbe]
    cases hr : resolveMethod L inst ref "_get" with
    | function f =>
      have hcw := calleeWorld_tables L inst f [.string name] hb
      have hout : Bound (hookOutcome env L inst f [.string name]).2 = true :=
        hst _ _ _ (by rw [Bound_congr hcw.1 hcw.2]; exact hb)
      cases ho : (hookOutcome env L inst f [.string name]).1 with
      | ok rs =>
        simp only [ho]
        rw [afterHook_bound]
        exact hout
      | error e =>
        simp only [ho]
        rw [afterFailedHook_bound]
        exact hout
    | _ =>
      simp only
      rw [Bound_congr (skipWorld_tables L) (skipWorld_objects L)]
      exact hb

theorem firstYield_cons (env : LuaEnv) (inst : LuaInstance) (name : String) (r_ret : Variant)
    (p : Probe) (ps : List Probe) (L : World) :
    firstYield env inst name r_ret (p :: ps) L =
      match (runProbe env inst name r_ret p L).1 with
      | some v => some v
      | none => firstYield env inst name r_ret ps (runProbe env inst name r_ret p L).2 := rfl

theorem firstYield_field (env : LuaEnv) (inst : LuaInstance) (name : String) (r_ret : Variant)
    (ref : Int) (ps : List Probe) (L : World) :
    firstYield env inst name r_ret (.scriptField ref :: ps) L =
      if fieldAt L ref (utf8_get_data name) = .nil then firstYield env inst name r_ret ps L
      else some (toNative L.tables L.udata (fieldAt L ref (utf8_get_data name)) r_ret) := by
  rw [firstYield_cons]
  have e1 : runProbe env inst name r_ret (.scriptField ref) L =
      (rawYield L (fieldAt L ref (utf8_get_data name)) r_ret, L) := rfl
  rw [e1]
  by_cases hn : fieldAt L ref (utf8_get_data name) = .nil <;> simp [rawYield, hn]

theorem get_loop_cons (env : LuaEnv) (inst : LuaInstance) (name : String) (r_ret : Variant)
    (ref : Int) (base : LuaScriptPtr) (L : World) :
    get_loop env inst name (ref :: base) L r_ret =
      if fieldAt L ref (utf8_get_data name) = .nil then
        if (_call_script_func_result env L (ref :: base) inst "_get" [.string name] .nil).1 = .OK ∧
            (_call_script_func_result env L (ref :: base) inst "_get" [.string name] .nil).2.1.get_type
              ≠ .NIL
        then (true, (_call_script_func_result env L (ref :: base) inst "_get" [.string name] .nil).2.1,
          (_call_script_func_result env L (ref :: base) inst "_get" [.string name] .nil).2.2)
        else get_loop env inst name base
          (_call_script_func_result env L (ref :: base) inst "_get" [.string name] .nil).2.2 r_ret
      else (true, toNative L.tables L.udata (fieldAt L ref (utf8_get_data name)) r_ret,
        (l_get_variant (lua_rawget (lua_pushstring (lua_rawgeti L LUA_REGISTRYINDEX ref)
          (utf8_get_data name)) (-2)) (-1) r_ret).1) := by
  obtain ⟨h1, h2, h3⟩ := raw_probe L ref (utf8_get_data name) r_ret
  have href : LuaScriptPtr.ref (ref :: base) = ref := rfl
  have hdef : get_loop env inst name (ref :: base) L r_ret =
      (let L3 := lua_rawget (lua_pushstring (lua_rawgeti L LUA_REGISTRYINDEX
          (LuaScriptPtr.ref (ref :: base))) (utf8_get_data name)) (-2)
       if !lua_isnil L3 (-1) then (true, (l_get_variant L3 (-1) r_ret).2, (l_get_variant L3 (-1) r_ret).1)
       else
         let r := _call_script_func_result env (lua_pop L3 2) (ref :: base) inst "_get"
           [.string name] .nil
         if r.1 = .OK ∧ r.2.1.get_type ≠ .NIL then (true, r.2.1, r.2.2)
         else get_loop env inst name base r.2.2 r_ret) := rfl
  rw [hdef]
  simp only [href, h1, h2, h3]
  by_cases hn : fieldAt L ref (utf8_get_data name) = .nil
  · rw [if_pos hn, if_neg (by simp [hn])]
  · rw [if_neg hn, if_pos (by simp [hn])]

theorem get_loop_eq (env : LuaEnv) (inst : LuaInstance) (name : String) (r_ret : Variant)
    (hst : ∀ f a W, Bound W = true → Bound (env f a W).2 = true)
    (sptr : LuaScriptPtr) (L : World) (hb : Bound L = true) :
    ((get_loop env inst name sptr L r_ret).1, (get_loop env inst name sptr L r_ret).2.1) =
      getAnswer r_ret (firstYield env inst name r_ret (scriptProbes sptr) L) := by
  induction sptr generalizing L with
  | nil => rfl
  | cons ref base ih =>
    have hp := hook_probe env inst name r_ret ref base L hb
    have hbn := runProbe_bound env inst name r_ret hst (.getHook ref) L hb
    have hp1 := congrArg Prod.fst hp
    have hp2 := congrArg Prod.snd hp
    simp only at hp1 hp2
    rw [get_loop_cons, scriptProbes, firstYield_field, firstYield_cons, ← hp1, ← hp2]
    rw [← hp2] at hbn
    by_cases hn : fieldAt L ref (utf8_get_data name) = .nil
    · rw [if_pos hn, if_pos hn]
      by_cases hk : (_call_script_func_result env L (ref :: base) inst "_get" [.string name] .nil).1 = .OK ∧
          (_call_script_func_result env L (ref :: base) inst "_get" [.string name] .nil).2.1.get_type ≠ .NIL
      · rw [if_pos hk, if_pos hk]; rfl
      · rw [if_neg hk, if_neg hk]
        exact ih _ hbn
    · rw [if_neg hn, if_neg hn]; rfl

/-- In a world whose bound objects keep their handle, and with hooks that
leave it so, `get` answers with the first yield of its steps, taken in their
order, and answers not found when no step yields. -/
theorem get_answer (env : LuaEnv) (L : World) (inst : LuaInstance) (name : String)
    (r_ret : Variant) (hb : Bound L = true)
    (hst : ∀ f a W, Bound W = true → Bound (env f a W).2 = true) :
    ((get env L inst name r_ret).1, (get env L inst name r_ret).2.1) =
      getAnswer r_ret (firstYield env inst name r_ret (getProbes inst) L) := by
  obtain ⟨h1, h2, h3⟩ := raw_probe L inst.ref (utf8_get_data name) r_ret
  have e1 : runProbe env inst name r_ret .instanceField L =
      (rawYield L (fieldAt L inst.ref (utf8_get_data name)) r_ret, L) := rfl
  have hdef : get env L inst name r_ret =
      (let L3 := lua_rawget (lua_pushstring (lua_rawgeti L LUA_REGISTRYINDEX inst.ref)
          (utf8_get_data name)) (-2)
       if !lua_isnil L3 (-1) then (true, (l_get_variant L3 (-1) r_ret).2, (l_get_variant L3 (-1) r_ret).1)
       else get_loop env inst name inst.script (lua_pop L3 2) r_ret) := rfl
  rw [hdef, getProbes, firstYield_cons, e1]
  simp only [h1, h2, h3]
  by_cases hn : fieldAt L inst.ref (utf8_get_data name) = .nil
  · rw [if_neg (by simp [hn])]
    have hy : rawYield L (fieldAt L inst.ref (utf8_get_data name)) r_ret = none := by
      simp [rawYield, hn]
    rw [hy]
    exact get_loop_eq env inst name r_ret hst inst.script L hb
  · rw [if_pos (by simp [hn])]
    have hy : rawYield L (fieldAt L inst.ref (utf8_get_data name)) r_ret =
        some (toNative L.tables L.udata (fieldAt L inst.ref (utf8_get_data name)) r_ret) := by
      simp [rawYield, hn]
    rw [hy]
    rfl

/-! ## `call` when the handles are in place -/

theorem call_loop_skip (env : LuaEnv) (inst : LuaInstance) (m : String) (args : List Variant)
    (pre rest : LuaScriptPtr) (L : World) (res : Variant)
    (hskip : ∀ r ∈ pre, ∀ f, resolveMethod L inst r m ≠ .function f) :
    call_loop env inst m args (pre ++ rest) L res =
      call_loop env inst m args rest (skipWorld^[pre.length] L) res := by
  induction pre generalizing L with
  | nil => rfl
  | cons r pre ih =>
    have h0 : ∀ f, resolveMethod L inst (LuaScriptPtr.ref (r :: (pre ++ rest))) m ≠ .function f :=
      hskip r (List.mem_cons_self _ _)
    rw [List.cons_append, call_loop_cons,
      _call_script_func_result_skip env L (r :: (pre ++ rest)) inst m args res h0]
    simp only [List.length_cons, Function.iterate_succ_apply]
    apply ih
    intro q hq f
    rw [resolveMethod_congr (skipWorld_tables L)]
    exact hskip q (List.mem_cons_of_mem _ hq) f

/-- In a world in which the table of every bound object holds its handle
under `.c_instance`, `LuaInstance::call` walks the chain from the leaf to the
root. If no level resolves the name to a function, it returns NIL with
`CALL_ERROR_INVALID_METHOD` and has called nothing. Otherwise, at the first
level that resolves the name to a function `f` (the field of the table of
the instance when that is not nil, else the field of the script table), the
first call it makes is to `f`, with `len(args) + 1` arguments: the conversion
of the owner, then the conversions of the arguments in their order. If that
call ends without error, `call` returns the conversion of its first result
with `CALL_OK`, and `f` is the only function it has called. -/
theorem call_first_callable (env : LuaEnv) (L : World) (inst : LuaInstance) (m : String)
    (args : List Variant) (hb : Bound L = true) :
    ((∀ r ∈ inst.script, ∀ f, resolveMethod L inst r (utf8_get_data m) ≠ .function f) →
      (call env L inst m args).1 = .nil ∧
      (call env L inst m args).2.1 = .CALL_ERROR_INVALID_METHOD ∧
      (call env L inst m args).2.2.calls = L.calls) ∧
    (∀ pre ref post f, inst.script = pre ++ ref :: post →
      (∀ r ∈ pre, ∀ g, resolveMethod L inst r (utf8_get_data m) ≠ .function g) →
      resolveMethod L inst ref (utf8_get_data m) = .function f →
      (hookRecord env (skipWorld^[pre.length] L) inst f args).fn = f ∧
      (hookRecord env (skipWorld^[pre.length] L) inst f args).args =
        pushedValues (callWorld (skipWorld^[pre.length] L) inst f) (.object inst.owner :: args) ∧
      (hookRecord env (skipWorld^[pre.length] L) inst f args).args.length = args.length + 1 ∧
      (∃ ext, (call env L inst m args).2.2.calls =
        L.calls ++ hookRecord env (skipWorld^[pre.length] L) inst f args :: ext) ∧
      (∀ rs, (hookRecord env (skipWorld^[pre.length] L) inst f args).outcome = .ok rs →
        call env L inst m args =
          (toNative (hookOutcome env (skipWorld^[pre.length] L) inst f args).2.tables
            (hookOutcome env (skipWorld^[pre.length] L) inst f args).2.udata (rs.headD .nil) .nil,
           .CALL_OK,
           afterHook (skipWorld^[pre.length] L)
            (hookOutcome env (skipWorld^[pre.length] L) inst f args).2
            (hookRecord env (skipWorld^[pre.length] L) inst f args)) ∧
        (call env L inst m args).2.2.calls =
          L.calls ++ [hookRecord env (skipWorld^[pre.length] L) inst f args])) := by
  constructor
  · intro h
    have := call_loop_skip env inst (utf8_get_data m) args inst.script [] L .nil h
    rw [List.append_nil] at this
    unfold call
    rw [this, call_loop_nil]
    exact ⟨rfl, rfl, (iterate_skipWorld _ L).2.2⟩
  · intro pre ref post f hs hpre hf
    obtain ⟨ht, ho, hc⟩ := iterate_skipWorld pre.length L
    have hbk : Bound (skipWorld^[pre.length] L) = true := by rw [Bound_congr ht ho]; exact hb
    have hfk : resolveMethod (skipWorld^[pre.length] L) inst (LuaScriptPtr.ref (ref :: post))
        (utf8_get_data m) =
        .function f := by rw [resolveMethod_congr ht]; exact hf
    have hcall : call env L inst m args =
        call_loop env inst (utf8_get_data m) args (ref :: post) (skipWorld^[pre.length] L) .nil := by
      unfold call
      rw [hs]
      exact call_loop_skip env inst (utf8_get_data m) args pre (ref :: post) L .nil hpre
    have hstep := _call_script_func_result_function env (skipWorld^[pre.length] L) (ref :: post)
      inst (utf8_get_data m) args .nil f hbk hfk
    refine ⟨rfl, rfl, ?_, ?_, ?_⟩
    · simp [hookRecord, calleeArgs, pushedValues_length]
    · rw [hcall, call_loop_cons, hstep]
      cases hout : (hookOutcome env (skipWorld^[pre.length] L) inst f args).1 with
      | ok rs =>
        refine ⟨[], ?_⟩
        simp only [afterHook, _cleanup_stacked_calls, hc]
      | error e =>
        simp only
        obtain ⟨ext, he⟩ := call_loop_calls env inst (utf8_get_data m) args post
          (afterFailedHook (skipWorld^[pre.length] L)
            (hookOutcome env (skipWorld^[pre.length] L) inst f args).2
            (hookRecord env (skipWorld^[pre.length] L) inst f args) e (utf8_get_data m)) .nil
        refine ⟨ext, ?_⟩
        rw [he]
        simp only [afterFailedHook, _cleanup_stacked_calls, reportError, hc, List.append_assoc,
          List.singleton_append]
    · intro rs hrs
      have hout : (hookOutcome env (skipWorld^[pre.length] L) inst f args).1 = .ok rs := hrs
      rw [hcall, call_loop_cons, hstep, hout]
      refine ⟨rfl, ?_⟩
      simp only [afterHook, _cleanup_stacked_calls, hc]

/-- The lemma `call_first_callable` at `chainWorld`: `base_only` is not
defined by the leaf script, the parent defines it as the function 3. -/
theorem call_first_callable_witness :
    Bound chainWorld = true ∧
    resolveMethod chainWorld sampleInst 2 "base_only" = .nil ∧
    resolveMethod chainWorld sampleInst 3 "base_only" = .function 3 ∧
    (call sampleEnv chainWorld sampleInst "base_only" [.int 4, .string "a"]).2.2.calls =
      [⟨3, [.userdata 0, .number 4, .string "a"], .ok []⟩] :=
  ⟨by decide, by decide, by decide,
   (((call_first_callable sampleEnv chainWorld sampleInst "base_only" [.int 4, .string "a"]
      (by decide)).2 [2] 3 [] 3 rfl
      (fun r hr g => by
        simp only [List.mem_singleton] at hr
        subst hr
        rw [show resolveMethod chainWorld sampleInst 2 (utf8_get_data "base_only") = .nil by decide]
        exact fun h => LuaValue.noConfusion h)
      (by decide)).2.2.2.2 [] (by decide)).2.trans
      (by decide)⟩

/-! ## `get` on an instance whose table has lost the handle -/

/-- C1: the code at the failing input. In `clearedWorld` the table of the
instance has lost the handle of its owner. The name `x` is in neither the
table of the instance nor the leaf script, the leaf resolves `_get` to the
function 21, which returns 9, and the parent script has the raw field `x`
with the value 5: the steps in their order yield 9 first. `get` answers 5
and has called no function. In `chainWorld`, where the handle is in place,
the same `get` calls the function 21 and answers 9. -/
theorem get_passes_hook_of_cleared_owner :
    fieldAt chainWorld sampleInst.ref ".c_instance" = .userdata 0 ∧
    fieldAt clearedWorld sampleInst.ref ".c_instance" = .nil ∧
    fieldAt clearedWorld sampleInst.ref "x" = .nil ∧
    fieldAt clearedWorld 2 "x" = .nil ∧
    resolveMethod clearedWorld sampleInst 2 "_get" = .function 21 ∧
    fieldAt clearedWorld 3 "x" = .number 5 ∧
    firstYield hookedEnv sampleInst "x" .nil (getProbes sampleInst) clearedWorld =
      some (.real 9) ∧
    (get hookedEnv clearedWorld sampleInst "x" .nil).1 = true ∧
    (get hookedEnv clearedWorld sampleInst "x" .nil).2.1 = .real 5 ∧
    (get hookedEnv clearedWorld sampleInst "x" .nil).2.2.calls = [] ∧
    (get hookedEnv chainWorld sampleInst "x" .nil).2.1 = .real 9 ∧
    (get hookedEnv chainWorld sampleInst "x" .nil).2.2.calls.map (·.fn) = [21] := by
  decide

/-! ## `call`: a level that raises an error -/

/-- C2: the code at the failing input. The leaf script and its parent both
define `m`; the function of the leaf raises an error. `_call_script` answers
`ERR_SCRIPT_FAILED`, for which the `switch` of `call` has no case (it has one
for `FAILED`), so the walk goes on: the function of the parent is run as
well, and `call` returns its result 7 with `CALL_OK`. -/
theorem call_goes_on_after_error :
    (call sampleEnv chainWorld sampleInst "m" []).1 = .real 7 ∧
    (call sampleEnv chainWorld sampleInst "m" []).2.1 = .CALL_OK ∧
    (call sampleEnv chainWorld sampleInst "m" []).2.2.calls =
      [⟨1, [.userdata 0], .error (.string "boom")⟩, ⟨2, [.userdata 0], .ok [.number 7]⟩] ∧
    (call sampleEnv chainWorld sampleInst "m" []).2.2.errors = [(some "boom", "m")] := by
  decide

/-! ## `set`: a hook that returns a boxed value -/

/-- C3: the code at the failing input. The `_set` hook of the leaf returns a
boxed `Variant` (a userdata, not the boolean true) and the hook of the parent
returns false, so no level accepts. `set` returns true after the hook of the
leaf and does not call the hook of the parent. -/
theorem set_accepts_boxed_result :
    (hookOutcome boxedEnv chainWorld sampleInst 11 [.string "x", .int 1]).1 =
      .ok [.userdata 1] ∧
    (hookOutcome boxedEnv chainWorld sampleInst 12 [.string "x", .int 1]).1 =
      .ok [.boolean false] ∧
    (set boxedEnv chainWorld sampleInst "x" (.int 1)).1 = true ∧
    (set boxedEnv chainWorld sampleInst "x" (.int 1)).2.calls.map (·.fn) = [11] := by
  decide

/-! ## `call` on an instance whose table has lost the handle -/

/-- C4: the code at the failing input. In `clearedWorld` the table of the
instance has lost the handle of its owner. The leaf script does not define
`base_only`, the parent defines it as the function 3, which returns 7.
`call` returns NIL with `CALL_ERROR_INVALID_METHOD` and has called no
function. In `chainWorld`, where the handle is in place, the same `call`
calls the function 3 with the owner and returns 7 with `CALL_OK`. -/
theorem call_fails_for_cleared_owner :
    fieldAt clearedWorld sampleInst.ref ".c_instance" = .nil ∧
    resolveMethod clearedWorld sampleInst 2 "base_only" = .nil ∧
    resolveMethod clearedWorld sampleInst 3 "base_only" = .function 3 ∧
    (call answerEnv clearedWorld sampleInst "base_only" []).1 = .nil ∧
    (call answerEnv clearedWorld sampleInst "base_only" []).2.1 = .CALL_ERROR_INVALID_METHOD ∧
    (call answerEnv clearedWorld sampleInst "base_only" []).2.2.calls = [] ∧
    (call answerEnv chainWorld sampleInst "base_only" []).1 = .real 7 ∧
    (call answerEnv chainWorld sampleInst "base_only" []).2.1 = .CALL_OK ∧
    (call answerEnv chainWorld sampleInst "base_only" []).2.2.calls =
      [⟨3, [.userdata 0], .ok [.number 7]⟩] := by
  decide

/-- C5, the claim as stated fails: in `shadowWorld` each of the two levels
defines its own `m` (the functions 1 and 2), and the table of the instance
has a field `m` of its own (the function 9). Both multilevel calls run the
function 9 twice and the functions 1 and 2 never. -/
theorem call_multilevel_shadowed :
    (call_multilevel sampleEnv shadowWorld sampleInst "m" []).calls.map (·.fn) = [9, 9] ∧
    (call_multilevel_reversed sampleEnv shadowWorld sampleInst "m" []).calls.map (·.fn) = [9, 9] ∧
    hookOf shadowWorld 2 "m" = some 1 ∧ hookOf shadowWorld 3 "m" = some 2 := by
  decide

/-! ## The multilevel calls -/

theorem call_multilevel_loop_nil (env : LuaEnv) (inst : LuaInstance) (m : String)
    (args : List Variant) (L : World) : call_multilevel_loop env inst m args [] L = L := rfl

theorem call_multilevel_loop_cons (env : LuaEnv) (inst : LuaInstance) (m : String)
    (args : List Variant) (ref : Int) (base : LuaScriptPtr) (L : World) :
    call_multilevel_loop env inst m args (ref :: base) L =
      call_multilevel_loop env inst m args base
        (_call_script_func env L (ref :: base) inst m args).2 := rfl

theorem _ml_call_reversed_cons (env : LuaEnv) (inst : LuaInstance) (m : String)
    (args : List Variant) (ref : Int) (base : LuaScriptPtr) (L : World) :
    _ml_call_reversed env inst m args (ref :: base) L =
      (_call_script_func env (_ml_call_reversed env inst m args base L) (ref :: base) inst m args).2 := by
  cases base with
  | nil => rfl
  | cons b bs => rfl

theorem OwnHooks_congr {L0 W W2 : World} {inst : LuaInstance} {m : String}
    (ht : W2.tables = W.tables) (ho : W2.objects = W.objects) :
    OwnHooks L0 inst m W2 ↔ OwnHooks L0 inst m W := by
  simp [OwnHooks, Bound_congr ht ho, fieldAt, regslot, ht]

theorem level_step (env : LuaEnv) (L0 : World) (inst : LuaInstance) (m : String)
    (args : List Variant) (W : World) (r : Int) (base : LuaScriptPtr)
    (hst : ∀ f vals X, OwnHooks L0 inst m X → OwnHooks L0 inst m (env f vals X).2)
    (hW : OwnHooks L0 inst m W) (hr : r ∈ inst.script) :
    OwnHooks L0 inst m (_call_script_func env W (r :: base) inst m args).2 ∧
    (_call_script_func env W (r :: base) inst m args).2.calls.map (·.fn) =
      W.calls.map (·.fn) ++ (hookOf L0 r m).toList := by
  obtain ⟨hb, hi, hs⟩ := hW
  have hres : resolveMethod W inst (LuaScriptPtr.ref (r :: base)) m = fieldAt L0 r m := by
    simp only [resolveMethod, hi, if_true]
    exact hs r hr
  cases hv : fieldAt L0 r m with
  | function f =>
    rw [hv] at hres
    rw [_call_script_func_function env W (r :: base) inst m args f hb hres]
    have hcw := calleeWorld_tables W inst f args hb
    have hin : OwnHooks L0 inst m (calleeWorld W inst f args) :=
      (OwnHooks_congr hcw.1 hcw.2).2 ⟨hb, hi, hs⟩
    have hout : OwnHooks L0 inst m (hookOutcome env W inst f args).2 := hst _ _ _ hin
    have hk : hookOf L0 r m = some f := by simp [hookOf, hv]
    cases ho : (hookOutcome env W inst f args).1 with
    | ok rs =>
      simp only
      refine ⟨?_, ?_⟩
      · refine (OwnHooks_congr ?_ ?_).2 hout
        · simp [afterHook, _cleanup_stacked_tables]
        · simp [afterHook, _cleanup_stacked_objects]
      · simp [afterHook, _cleanup_stacked_calls, hk, hookRecord]
    | error e =>
      simp only
      refine ⟨?_, ?_⟩
      · refine (OwnHooks_congr ?_ ?_).2 hout
        · simp [afterFailedHook, _cleanup_stacked_tables, reportError]
        · simp [afterFailedHook, _cleanup_stacked_objects, reportError]
      · simp [afterFailedHook, _cleanup_stacked_calls, hk, hookRecord, reportError]
  | _ =>
    rw [hv] at hres
    have hk : hookOf L0 r m = none := by simp [hookOf, hv]
    rw [_call_script_func_skip env W (r :: base) inst m args (by rw [hres]; intro f hf; cases hf)]
    refine ⟨(OwnHooks_congr (skipWorld_tables W) (skipWorld_objects W)).2 ⟨hb, hi, hs⟩, ?_⟩
    simp [skipWorld_calls, hk]

theorem call_multilevel_loop_calls (env : LuaEnv) (L0 : World) (inst : LuaInstance) (m : String)
    (args : List Variant)
    (hst : ∀ f vals X, OwnHooks L0 inst m X → OwnHooks L0 inst m (env f vals X).2)
    (sptr : LuaScriptPtr) (W : World) (hW : OwnHooks L0 inst m W) (hsub : ∀ r ∈ sptr, r ∈ inst.script) :
    (call_multilevel_loop env inst m args sptr W).calls.map (·.fn) =
      W.calls.map (·.fn) ++ sptr.filterMap (hookOf L0 · m) := by
  induction sptr generalizing W with
  | nil => simp [call_multilevel_loop_nil]
  | cons r base ih =>
    obtain ⟨h1, h2⟩ := level_step env L0 inst m args W r base hst hW (hsub r (List.mem_cons_self _ _))
    rw [call_multilevel_loop_cons, ih _ h1 (fun q hq => hsub q (List.mem_cons_of_mem _ hq)), h2]
    cases hk : hookOf L0 r m <;> simp [List.filterMap_cons, hk]

theorem _ml_call_reversed_calls (env : LuaEnv) (L0 : World) (inst : LuaInstance) (m : String)
    (args : List Variant)
    (hst : ∀ f vals X, OwnHooks L0 inst m X → OwnHooks L0 inst m (env f vals X).2)
    (sptr : LuaScriptPtr) (W : World) (hW : OwnHooks L0 inst m W) (hsub : ∀ r ∈ sptr, r ∈ inst.script) :
    OwnHooks L0 inst m (_ml_call_reversed env inst m args sptr W) ∧
    (_ml_call_reversed env inst m args sptr W).calls.map (·.fn) =
      W.calls.map (·.fn) ++ (sptr.filterMap (hookOf L0 · m)).reverse := by
  induction sptr with
  | nil => exact ⟨hW, by simp [_ml_call_reversed]⟩
  | cons r base ih =>
    obtain ⟨i1, i2⟩ := ih (fun q hq => hsub q (List.mem_cons_of_mem _ hq))
    obtain ⟨h1, h2⟩ := level_step env L0 inst m args (_ml_call_reversed env inst m args base W)
      r base hst i1 (hsub r (List.mem_cons_self _ _))
    rw [_ml_call_reversed_cons]
    refine ⟨h1, ?_⟩
    rw [h2, i2]
    cases hk : hookOf L0 r m <;> simp [List.filterMap_cons, hk]

/-- C5, as amended: take a world in which the table of every bound object
holds its handle under `.c_instance` and the table of the instance has no
field under the method name, and hooks that leave both, and the fields of
the script tables under the name, as they are. Then `call_multilevel` calls
the functions the levels define under the name in leaf-to-root order and
`call_multilevel_reversed` calls them in root-to-leaf order; the function of
each level that defines one is called once, whether the calls succeed, fail,
or a level defines nothing. -/
theorem call_multilevel_order (env : LuaEnv) (L : World) (inst : LuaInstance) (m : String)
    (args : List Variant) (h0 : OwnHooks L inst (utf8_get_data m) L)
    (hst : ∀ f vals X, OwnHooks L inst (utf8_get_data m) X →
      OwnHooks L inst (utf8_get_data m) (env f vals X).2) :
    (call_multilevel env L inst m args).calls.map (·.fn) =
      L.calls.map (·.fn) ++ inst.script.filterMap (hookOf L · (utf8_get_data m)) ∧
    (call_multilevel_reversed env L inst m args).calls.map (·.fn) =
      L.calls.map (·.fn) ++ (inst.script.filterMap (hookOf L · (utf8_get_data m))).reverse := by
  constructor
  · exact call_multilevel_loop_calls env L inst (utf8_get_data m) args hst inst.script L h0
      (fun _ h => h)
  · unfold call_multilevel_reversed
    by_cases hs : inst.script = []
    · simp [hs]
    · simp only [hs, ne_eq, not_false_eq_true, if_true]
      exact (_ml_call_reversed_calls env L inst (utf8_get_data m) args hst inst.script L h0
        (fun _ h => h)).2

/-- The theorem `call_multilevel_order` at `chainWorld`, whose scripts define
`m` as the functions 1 (leaf) and 2 (parent). -/
theorem call_multilevel_order_witness :
    OwnHooks chainWorld sampleInst (utf8_get_data "m") chainWorld ∧
    (call_multilevel sampleEnv chainWorld sampleInst "m" []).calls.map (·.fn) = [1, 2] ∧
    (call_multilevel_reversed sampleEnv chainWorld sampleInst "m" []).calls.map (·.fn) = [2, 1] :=
  ⟨⟨by decide, by decide, fun _ _ => rfl⟩,
   (call_multilevel_order sampleEnv chainWorld sampleInst "m" []
      ⟨by decide, by decide, fun _ _ => rfl⟩
      (fun f vals X hX => by unfold sampleEnv; split <;> exact hX)).1.trans (by decide),
   (call_multilevel_order sampleEnv chainWorld sampleInst "m" []
      ⟨by decide, by decide, fun _ _ => rfl⟩
      (fun f vals X hX => by unfold sampleEnv; split <;> exact hX)).2.trans (by decide)⟩

/-! ## The round trip of the conversions -/

theorem utf8_bytes_plain (l : List Char) (h : ∀ c ∈ l, 0 < c.toNat ∧ c.toNat < 0x80) :
    ((l.flatMap (fun c => utf8 c.toNat)).takeWhile (fun b => b != 0)).map Char.ofNat = l := by
  induction l with
  | nil => rfl
  | cons c l ih =>
    obtain ⟨h0, h1⟩ := h c (List.mem_cons_self _ _)
    have hu : utf8 c.toNat = [c.toNat] := by simp [utf8, h1]
    have hne : (c.toNat != 0) = true := by simp; omega
    rw [List.flatMap_cons, hu, List.singleton_append, List.takeWhile_cons, hne]
    simp only [if_true, List.map_cons, Char.ofNat_toNat]
    rw [ih (fun d hd => h d (List.mem_cons_of_mem _ hd))]

theorem takeWhile_plain (l : List Char) (h : ∀ c ∈ l, 0 < c.toNat ∧ c.toNat < 0x80) :
    l.takeWhile (fun c => c != Char.ofNat 0) = l := by
  induction l with
  | nil => rfl
  | cons c l ih =>
    obtain ⟨h0, _⟩ := h c (List.mem_cons_self _ _)
    have hne : (c != Char.ofNat 0) = true := by
      simp only [bne_iff_ne, ne_eq]
      intro hc
      rw [hc] at h0
      exact absurd h0 (by decide)
    rw [List.takeWhile_cons, hne]
    simp only [if_true]
    rw [ih (fun d hd => h d (List.mem_cons_of_mem _ hd))]

theorem utf8_get_data_plain (s : String) (h : ∀ c ∈ s.data, 0 < c.toNat ∧ c.toNat < 0x80) :
    utf8_get_data s = s := by
  unfold utf8_get_data
  rw [utf8_bytes_plain s.data h]

/-- C6, as amended: converting a NIL, BOOL or REAL value, or a STRING value
whose characters are ASCII characters other than the zero character, with
`l_push_variant` and back with `l_get_variant` yields the value itself;
converting an INT value yields the REAL value of the same number. -/
theorem roundTrip_primitive (L : World) (r : Variant) :
    roundTrip L .nil r = .nil ∧
    (∀ b, roundTrip L (.bool b) r = .bool b) ∧
    (∀ i, roundTrip L (.int i) r = .real (i : Rat)) ∧
    (∀ x, roundTrip L (.real x) r = .real x) ∧
    (∀ s : String, (∀ c ∈ s.data, 0 < c.toNat ∧ c.toNat < 0x80) →
      roundTrip L (.string s) r = .string s) := by
  refine ⟨?_, ?_, ?_, ?_, ?_⟩
  · simp [roundTrip, l_push_variant, Variant.get_type, lua_pushnil, push, l_get_variant, lua_type,
      typeOf, Variant.ofNULL]
  · intro b
    cases b <;>
    simp [roundTrip, l_push_variant, Variant.get_type, lua_pushboolean, push, l_get_variant,
      lua_type, typeOf, Variant.toBool, lua_toboolean]
  · intro i
    simp [roundTrip, l_push_variant, Variant.get_type, lua_pushinteger, push, l_get_variant,
      lua_type, typeOf, Variant.toInt, lua_tonumber]
  · intro x
    simp [roundTrip, l_push_variant, Variant.get_type, lua_pushnumber, push, l_get_variant,
      lua_type, typeOf, Variant.toDouble, lua_tonumber]
  · intro s hs
    have h1 : roundTrip L (.string s) r = Variant.ofCString (utf8_get_data s) := by
      simp [roundTrip, l_push_variant, Variant.get_type, lua_pushstring, push, l_get_variant,
        lua_type, typeOf, Variant.toCString, lua_tostring]
    rw [h1, utf8_get_data_plain s hs]
    unfold Variant.ofCString
    rw [takeWhile_plain s.data hs]

/-- The amended statement of C6 at the string `abc`; a string with a zero
character, which is outside it, comes back cut before that character. -/
theorem roundTrip_primitive_witness :
    (∀ c ∈ "abc".data, 0 < c.toNat ∧ c.toNat < 0x80) ∧
    roundTrip setupWorld (.string "abc") .nil = .string "abc" ∧
    roundTrip setupWorld (.string ⟨['a', Char.ofNat 0, 'b']⟩) .nil = .string "a" :=
  ⟨by decide, (roundTrip_primitive setupWorld .nil).2.2.2.2 "abc" (by decide), by decide⟩

/-- C6, the claim as stated fails: the INT value 3 comes back as a value
of kind REAL, which is not the INT value 3. -/
theorem roundTrip_int_changes_kind :
    roundTrip setupWorld (.int 3) .nil ≠ .int 3 ∧
    (roundTrip setupWorld (.int 3) .nil).get_type = .REAL := by
  decide

/-! ## Boxed values -/

theorem l_push_bulltins_type_box (L : World) (var : Variant) (mv : Nat)
    (hv : rawfield L.tables (some registry) (.string "Variant") = .table mv) :
    l_push_bulltins_type L var =
      { L with stack := .userdata L.udata.length :: L.stack,
               udata := L.udata ++ [{ ptr := L.variants.length + 1, metatable := some mv }],
               variants := L.variants ++ [var] } := by
  unfold l_push_bulltins_type
  simp only [lua_newuserdata, memnew_Variant, storePtr, luaL_getmetatable, lua_getfield, push,
    lua_setmetatable, index2adr_neg_two, index2adr_registry]
  simp [hv]

/-- C7: what the code does with every compound value. In a world where
`setup` has run, `l_push_variant` makes a new cell holding a copy of the
value and pushes a new box holding the address of the cell, with the
`Variant` metatable; `l_get_variant` then assigns the address kept in the box
to the output, not the value in the cell: the output is the BOOL value true,
whatever the compound value was. -/
theorem roundTrip_compound (L : World) (t : VariantType) (d : List Int) (r : Variant) (mv : Nat)
    (ht : t.isCompound = true)
    (hv : rawfield L.tables (some registry) (.string "Variant") = .table mv)
    (hg : rawfield L.tables (some registry) (.string "GdObject") ≠ .table mv) :
    l_push_variant L (.builtin t d) =
      { L with stack := .userdata L.udata.length :: L.stack,
               udata := L.udata ++ [{ ptr := L.variants.length + 1, metatable := some mv }],
               variants := L.variants ++ [.builtin t d] } ∧
    roundTrip L (.builtin t d) r = .bool true := by
  have hp : l_push_variant L (.builtin t d) = l_push_bulltins_type L (.builtin t d) := by
    cases t <;> first
      | rfl
      | exact absurd ht (by decide)
  have hb := l_push_bulltins_type_box L (.builtin t d) mv hv
  refine ⟨hp.trans hb, ?_⟩
  unfold roundTrip
  rw [hp, hb, l_get_variant_value _ (-1) (.userdata L.udata.length) r (by simp)]
  simp [toNative, metatableOf, hg, hv, Variant.ofVariantPtr, blockPtr]

/-- The theorem `roundTrip_compound` at the VECTOR2 value with the contents
1 and 2: it comes back as the BOOL value true. -/
theorem roundTrip_compound_witness :
    VariantType.VECTOR2.isCompound = true ∧
    rawfield setupWorld.tables (some registry) (.string "Variant") = .table 2 ∧
    rawfield setupWorld.tables (some registry) (.string "GdObject") ≠ .table 2 ∧
    roundTrip setupWorld (.builtin .VECTOR2 [1, 2]) .nil = .bool true ∧
    roundTrip setupWorld (.builtin .VECTOR2 [1, 2]) .nil ≠ .builtin .VECTOR2 [1, 2] :=
  ⟨by decide, by decide, by decide,
   (roundTrip_compound setupWorld .VECTOR2 [1, 2] .nil 2 (by decide) (by decide) (by decide)).2,
   by decide⟩

/-! ## Values without a native form -/

/-- C8, the claim as stated fails: for a table on the stack `l_get_variant`
leaves the output as it was, here the INT value 7, and does not set it to
NIL. -/
theorem l_get_variant_table_keeps_output :
    (l_get_variant (push setupWorld (.table 1)) (-1) (.int 7)).2 = .int 7 ∧
    (l_get_variant (push setupWorld (.table 1)) (-1) (.int 7)).2 ≠ .nil := by
  decide

/-- C8, as amended: for a function, a thread or a light userdata
`l_get_variant` sets the output to NIL whatever it held before; for a table,
and for a full userdata whose metatable is neither the `GdObject` nor the
`Variant` metatable (or that has none), it leaves the output as it was, so
the output is NIL when it was NIL before. The function is total: it raises
nothing. -/
theorem l_get_variant_unsupported (L : World) (idx : Int) (v : LuaValue) (var : Variant)
    (h : index2adr L.stack idx = some v) :
    ((∃ f, v = .function f) ∨ (∃ t, v = .thread t) ∨ (∃ p, v = .lightuserdata p) →
      (l_get_variant L idx var).2 = .nil) ∧
    ((∃ t, v = .table t) → (l_get_variant L idx var).2 = var) ∧
    (∀ u, v = .userdata u →
      (∀ mt, metatableOf L.tables L.udata (some v) = some mt →
        rawfield L.tables (some registry) (.string "GdObject") ≠ .table mt ∧
        rawfield L.tables (some registry) (.string "Variant") ≠ .table mt) →
      (l_get_variant L idx var).2 = var) := by
  rw [l_get_variant_value L idx v var h]
  refine ⟨?_, ?_, ?_⟩
  · rintro (⟨f, rfl⟩ | ⟨t, rfl⟩ | ⟨p, rfl⟩) <;> rfl
  · rintro ⟨t, rfl⟩; rfl
  · rintro u rfl hm
    simp only [toNative]
    cases hmt : metatableOf L.tables L.udata (some (.userdata u)) with
    | none => rfl
    | some mt =>
      obtain ⟨h1, h2⟩ := hm mt hmt
      simp [h1, h2]

/-- The theorem `l_get_variant_unsupported` at a function, at a table and at
a userdata block without metatable, the output holding the INT value 7
before. -/
theorem l_get_variant_unsupported_witness :
    index2adr (push setupWorld (.function 4)).stack (-1) = some (.function 4) ∧
    (l_get_variant (push setupWorld (.function 4)) (-1) (.int 7)).2 = .nil ∧
    (l_get_variant (push setupWorld (.table 1)) (-1) (.int 7)).2 = .int 7 ∧
    (l_get_variant alienWorld 1 (.int 7)).2 = .int 7 :=
  ⟨by decide,
   (l_get_variant_unsupported (push setupWorld (.function 4)) (-1) (.function 4) (.int 7)
      (by decide)).1 (Or.inl ⟨4, rfl⟩),
   (l_get_variant_unsupported (push setupWorld (.table 1)) (-1) (.table 1) (.int 7)
      (by decide)).2.1 ⟨1, rfl⟩,
   (l_get_variant_unsupported alienWorld 1 (.userdata 0) (.int 7) (by decide)).2.2 0 rfl
      (fun mt hmt => by
        rw [show metatableOf alienWorld.tables alienWorld.udata (some (LuaValue.userdata 0)) = none
          by decide] at hmt
        cases hmt)⟩

/-! ## Objects with a binding instance -/

theorem l_push_variant_live (L : World) (obj : Nat) (inst : LuaInstance) (u : Nat)
    (h : Live L obj inst u = true) : l_push_variant L (.object obj) = push L (.userdata u) := by
  simp only [Live, Bool.and_eq_true, decide_eq_true_eq, isTableValue] at h
  obtain ⟨⟨⟨⟨⟨h0, hsi⟩, ht⟩, hc⟩, _⟩, _⟩ := h
  simp only [l_push_variant, Variant.get_type, Variant.toObject, h0, if_false, hsi]
  simp only [lua_rawgeti, lua_pushstring, push, lua_rawget, index2adr_registry,
    index2adr_neg_two, lua_isnil, lua_istable, lua_type, index2adr_neg_one, typeOf_nil_iff,
    lua_remove]
  simp only [regslot, fieldAt] at ht hc
  simp [ht, hc]

theorem Live_push (L : World) (obj : Nat) (inst : LuaInstance) (u : Nat) (x : LuaValue) :
    Live (push L x) obj inst u = Live L obj inst u := rfl

theorem toNative_live (L : World) (obj : Nat) (inst : LuaInstance) (u : Nat) (r : Variant)
    (h : Live L obj inst u = true) : toNative L.tables L.udata (.userdata u) r = .object obj := by
  simp only [Live, Bool.and_eq_true, decide_eq_true_eq] at h
  obtain ⟨⟨⟨⟨⟨_, _⟩, _⟩, _⟩, hp⟩, hm⟩ := h
  simp only [toNative]
  cases hmt : metatableOf L.tables L.udata (some (.userdata u)) with
  | none => rw [hmt] at hm; cases hm
  | some mt =>
    rw [hmt] at hm
    simp only [decide_eq_true_eq] at hm
    simp [hm, hp]

/-- C9: for an object with a live binding instance, `l_push_variant`
creates no new wrapper: the first and the second conversion both push the
value kept in the table of the instance under `.c_instance` and change
nothing else in the world; `l_get_variant` makes the object of either of the
two pushed values; and a null object reference is converted to nil. -/
theorem object_handle_is_shared (L : World) (obj : Nat) (inst : LuaInstance) (u : Nat)
    (r : Variant) (h : Live L obj inst u = true) :
    l_push_variant L (.object obj) = push L (.userdata u) ∧
    l_push_variant (l_push_variant L (.object obj)) (.object obj) =
      push (push L (.userdata u)) (.userdata u) ∧
    fieldAt L inst.ref ".c_instance" = .userdata u ∧
    (l_get_variant (l_push_variant L (.object obj)) (-1) r).2 = .object obj ∧
    (l_get_variant (l_push_variant (l_push_variant L (.object obj)) (.object obj)) (-1) r).2 =
      .object obj ∧
    (l_get_variant (l_push_variant (l_push_variant L (.object obj)) (.object obj)) (-2) r).2 =
      .object obj ∧
    (∀ W : World, l_push_variant W (.object 0) = lua_pushnil W) := by
  have h1 := l_push_variant_live L obj inst u h
  have h2 := l_push_variant_live (push L (.userdata u)) obj inst u h
  have hn := toNative_live L obj inst u r h
  have hc : fieldAt L inst.ref ".c_instance" = .userdata u := by
    simp only [Live, Bool.and_eq_true, decide_eq_true_eq] at h
    exact h.1.1.2
  refine ⟨h1, by rw [h1, h2], hc, ?_, ?_, ?_, fun W => rfl⟩
  · rw [h1, l_get_variant_value _ (-1) (.userdata u) r (by simp [push])]
    exact hn
  · rw [h1, h2, l_get_variant_value _ (-1) (.userdata u) r (by simp [push])]
    exact hn
  · rw [h1, h2, l_get_variant_value _ (-2) (.userdata u) r (by simp [push])]
    exact hn

/-- The theorem `object_handle_is_shared` at the world `init` leaves for an
instance without script: `init` succeeds and the object is live. -/
theorem object_handle_is_shared_witness :
    (init failingInitEnv bareWorld bareInst).1 = .OK ∧
    Live (init failingInitEnv bareWorld bareInst).2.2 100 (init failingInitEnv bareWorld bareInst).2.1 0
      = true ∧
    l_push_variant (init failingInitEnv bareWorld bareInst).2.2 (.object 100) =
      push (init failingInitEnv bareWorld bareInst).2.2 (.userdata 0) ∧
    (l_get_variant (l_push_variant (init failingInitEnv bareWorld bareInst).2.2 (.object 100)) (-1)
      .nil).2 = .object 100 :=
  ⟨by decide, by decide,
   (object_handle_is_shared (init failingInitEnv bareWorld bareInst).2.2 100
      (init failingInitEnv bareWorld bareInst).2.1 0 .nil (by decide)).1,
   (object_handle_is_shared (init failingInitEnv bareWorld bareInst).2.2 100
      (init failingInitEnv bareWorld bareInst).2.1 0 .nil (by decide)).2.2.2.1⟩

/-! ## `init`: a failing `_init` hook -/

/-- C10: the code at the failing input. The script of the instance defines
`_init` as a function that raises an error. `_call_script` reports the error
and answers `ERR_SCRIPT_FAILED`; `init` compares the answer with `FAILED`,
so it returns `OK`. -/
theorem init_ok_though_init_hook_fails :
    (init failingInitEnv scriptWorld newInst).1 = .OK ∧
    (init failingInitEnv scriptWorld newInst).2.2.calls =
      [⟨31, [.userdata 0], .error (.string "init failed")⟩] ∧
    (init failingInitEnv scriptWorld newInst).2.2.errors = [(some "init failed", "_init")] := by
  decide

/-! ## `init`: an inherited `_init` hook -/

/-- C11: the code at the failing input. `Base` defines `_init`, which sets
the field `x` of the instance to 1; `Child` derives from `Base` and defines
nothing. `init` of an instance of `Child` looks `_init` up at the level of
`Child` only, finds nothing and calls no function, so `get` of `x` answers
not found. For an instance of `Base` itself the hook is run and `get` of `x`
answers 1. -/
theorem init_skips_inherited_init :
    (init initEnv (inheritWorld childInst) childInst).1 = .OK ∧
    (init initEnv (inheritWorld childInst) childInst).2.2.calls = [] ∧
    (get initEnv (init initEnv (inheritWorld childInst) childInst).2.2
      (init initEnv (inheritWorld childInst) childInst).2.1 "x" .nil).1 = false ∧
    (init initEnv (inheritWorld baseInst) baseInst).2.2.calls.map (·.fn) = [31] ∧
    (get initEnv (init initEnv (inheritWorld baseInst) baseInst).2.2
      (init initEnv (inheritWorld baseInst) baseInst).2.1 "x" .nil).1 = true ∧
    (get initEnv (init initEnv (inheritWorld baseInst) baseInst).2.2
      (init initEnv (inheritWorld baseInst) baseInst).2.1 "x" .nil).2.1 = .real 1 := by
  decide

/-! ## The two wrappers and the size of `args` -/

theorem marshal_args_written (first : Int) (ks : List Nat) (L : World) (vars : List Variant)
    (written : List Nat) :
    (marshal_args first ks L vars written).2.2 = written ++ ks ∧
    (marshal_args first ks L vars written).2.1.length = vars.length + ks.length := by
  induction ks generalizing L vars written with
  | nil => simp [marshal_args]
  | cons k ks ih =>
    simp only [marshal_args]
    obtain ⟨h1, h2⟩ := ih (l_get_variant L (first + k) .nil).1
      (vars ++ [(l_get_variant L (first + k) .nil).2]) (written ++ [k])
    rw [h1, h2]
    simp only [List.append_assoc, List.singleton_append, List.length_append, List.length_cons,
      List.length_nil, true_and]
    omega

theorem l_methodbind_wrapper_marshalled (native : NativeEnv) (env : LuaEnv) (L : World) (mb : Nat)
    (self : Nat) (hself : luaL_checkobject L 1 "GdObject" = some self)
    (hlen : 2 ≤ L.stack.length) :
    (l_methodbind_wrapper native env L mb).args_written =
      (marshal_args 2 (List.range (L.stack.length - 1)) L [] []).2.2 ∧
    (l_methodbind_wrapper native env L mb).native_args =
      some (marshal_args 2 (List.range (L.stack.length - 1)) L [] []).2.1 ∧
    (l_methodbind_wrapper native env L mb).ret ≠ .raised := by
  have htop : (2 : Int) ≤ lua_gettop L := by unfold lua_gettop; omega
  have hn : (lua_gettop L - 1).toNat = L.stack.length - 1 := by unfold lua_gettop; omega
  unfold l_methodbind_wrapper
  simp only [hself, htop, if_true, hn]
  split
  · split
    · exact ⟨rfl, rfl, by simp⟩
    · exact ⟨rfl, rfl, by simp⟩
  · exact ⟨rfl, rfl, by simp⟩

theorem l_bultins_wrapper_marshalled (native : NativeEnv) (L : World) (type : Int)
    (hlen : 1 ≤ L.stack.length) :
    (l_bultins_wrapper native L type).args_written =
      (marshal_args 1 (List.range L.stack.length) L [] []).2.2 ∧
    (l_bultins_wrapper native L type).native_args =
      some (marshal_args 1 (List.range L.stack.length) L [] []).2.1 ∧
    (l_bultins_wrapper native L type).ret ≠ .raised := by
  have htop : ¬ lua_gettop L = 0 := by unfold lua_gettop; omega
  have hn : (lua_gettop L).toNat = L.stack.length := by unfold lua_gettop; omega
  unfold l_bultins_wrapper
  simp only [htop, if_false, hn]
  split
  · exact ⟨rfl, rfl, by simp⟩
  · exact ⟨rfl, rfl, by simp⟩

/-- C12: the code at more than 128 arguments. Neither wrapper compares the
number of its arguments with the size of `args`. `l_methodbind_wrapper`
called with a valid object and 129 or more further values stores into
`args` at every index up to the number of arguments, the index 128 among
them, calls the native method with all the arguments, and raises no error;
`l_bultins_wrapper` called with 129 or more values does the same with the
native constructor. -/
theorem wrappers_store_past_args (native : NativeEnv) (env : LuaEnv) (L : World) (mb : Nat)
    (type : Int) :
    (∀ self, luaL_checkobject L 1 "GdObject" = some self → 130 ≤ L.stack.length →
      (l_methodbind_wrapper native env L mb).args_written = List.range (L.stack.length - 1) ∧
      128 ∈ (l_methodbind_wrapper native env L mb).args_written ∧
      (∃ a, (l_methodbind_wrapper native env L mb).native_args = some a ∧
        a.length = L.stack.length - 1) ∧
      (l_methodbind_wrapper native env L mb).ret ≠ .raised) ∧
    (129 ≤ L.stack.length →
      (l_bultins_wrapper native L type).args_written = List.range L.stack.length ∧
      128 ∈ (l_bultins_wrapper native L type).args_written ∧
      (∃ a, (l_bultins_wrapper native L type).native_args = some a ∧
        a.length = L.stack.length) ∧
      (l_bultins_wrapper native L type).ret ≠ .raised) := by
  constructor
  · intro self hself hlen
    obtain ⟨h1, h2, h3⟩ := l_methodbind_wrapper_marshalled native env L mb self hself (by omega)
    obtain ⟨m1, m2⟩ := marshal_args_written 2 (List.range (L.stack.length - 1)) L [] []
    rw [h1, h2, m1]
    refine ⟨rfl, ?_, ⟨_, rfl, ?_⟩, h3⟩
    · simp only [List.nil_append, List.mem_range]; omega
    · rw [m2]; simp
  · intro hlen
    obtain ⟨h1, h2, h3⟩ := l_bultins_wrapper_marshalled native L type (by omega)
    obtain ⟨m1, m2⟩ := marshal_args_written 1 (List.range L.stack.length) L [] []
    rw [h1, h2, m1]
    refine ⟨rfl, ?_, ⟨_, rfl, ?_⟩, h3⟩
    · simp only [List.nil_append, List.mem_range]; omega
    · rw [m2]; simp

set_option maxRecDepth 100000 in
/-- The theorem `wrappers_store_past_args` at a call with the handle of an
object and 129 numbers: `l_methodbind_wrapper` writes `args[128]` and
returns one value; `l_bultins_wrapper`, given the same 130 values, writes
`args[128]` and `args[129]`. -/
theorem wrappers_store_past_args_witness :
    luaL_checkobject manyArgsWorld 1 "GdObject" = some 100 ∧
    manyArgsWorld.stack.length = 130 ∧
    128 ∈ (l_methodbind_wrapper idleNative sampleEnv manyArgsWorld 7).args_written ∧
    (l_methodbind_wrapper idleNative sampleEnv manyArgsWorld 7).ret ≠ .raised ∧
    128 ∈ (l_bultins_wrapper idleNative manyArgsWorld 5).args_written ∧
    (l_bultins_wrapper idleNative manyArgsWorld 5).args_written = List.range 130 :=
  ⟨by decide, by decide,
   ((wrappers_store_past_args idleNative sampleEnv manyArgsWorld 7 5).1 100 (by decide)
      (by decide)).2.1,
   ((wrappers_store_past_args idleNative sampleEnv manyArgsWorld 7 5).1 100 (by decide)
      (by decide)).2.2.2,
   ((wrappers_store_past_args idleNative sampleEnv manyArgsWorld 7 5).2 (by decide)).2.1,
   ((wrappers_store_past_args idleNative sampleEnv manyArgsWorld 7 5).2 (by decide)).1⟩

/-! ## `set`: what counts as acceptance -/

/-- C13, counterexample: on the sample chain the `_set` hook of the leaf
returns the number 1 and the hook of the parent returns the string `yes`,
both without error; `set` stops at neither level and returns false. -/
theorem set_rejects_truthy :
    (set truthyEnv chainWorld sampleInst "x" (.int 1)).1 = false ∧
    (set truthyEnv chainWorld sampleInst "x" (.int 1)).2.calls.map (·.outcome) =
      [.ok [.number 1], .ok [.string "yes"]] := by
  decide

/-- A value that is not a userdata converts to the boolean variant true only
when it is the Lua boolean true. -/
theorem toNative_bool_true_iff (tables : List LuaTable) (udata : List UserData) (v : LuaValue)
    (hu : ∀ u, v ≠ .userdata u) : toNative tables udata v .nil = .bool true ↔ v = .boolean true := by
  cases v with
  | userdata u => exact absurd rfl (hu u)
  | boolean b => cases b <;> simp [toNative]
  | _ => simp [toNative, Variant.ofNULL, Variant.ofCString]

/-- C13, amended: at a level whose `_set` hook resolves to a function and
completes without error, the walk of `set` (it starts at the script of the
instance) stops and reports true when the first result of the hook is the
boolean true; when the first result is any other value that is not a
userdata (nil, false, a number, a string, a table, a function) the walk
goes on with the base script, in the world the hook left. -/
theorem set_accepts_boolean_true (env : LuaEnv) (W : World) (inst : LuaInstance) (name : String)
    (value : Variant) (ref : Int) (base : LuaScriptPtr) (f : Nat) (rs : List LuaValue)
    (hb : Bound W = true) (h : resolveMethod W inst ref "_set" = .function f)
    (ho : (hookOutcome env W inst f [.string name, value]).1 = .ok rs) :
    (rs.headD .nil = .boolean true →
      set_loop env inst name value (ref :: base) W =
        (true, afterHook W (hookOutcome env W inst f [.string name, value]).2
          (hookRecord env W inst f [.string name, value]))) ∧
    (rs.headD .nil ≠ .boolean true → (∀ u, rs.headD .nil ≠ .userdata u) →
      set_loop env inst name value (ref :: base) W =
        set_loop env inst name value base
          (afterHook W (hookOutcome env W inst f [.string name, value]).2
            (hookRecord env W inst f [.string name, value]))) := by
  have hstep := _call_script_func_result_function env W (ref :: base) inst "_set"
    [.string name, value] .nil f hb h
  rw [ho] at hstep
  simp only at hstep
  constructor
  · intro hv
    rw [set_loop_cons, hstep, hv]
    simp [toNative, Variant.get_type, Variant.toBool]
  · intro hv hu
    rw [set_loop_cons, hstep]
    have hn : ¬ toNative (hookOutcome env W inst f [.string name, value]).2.tables
        (hookOutcome env W inst f [.string name, value]).2.udata (rs.headD .nil) .nil = .bool true :=
      fun hc => hv ((toNative_bool_true_iff _ _ _ hu).1 hc)
    have hc : ¬ (Error.OK = Error.OK ∧
        (toNative (hookOutcome env W inst f [.string name, value]).2.tables
          (hookOutcome env W inst f [.string name, value]).2.udata (rs.headD .nil) .nil).get_type = .BOOL ∧
        (toNative (hookOutcome env W inst f [.string name, value]).2.tables
          (hookOutcome env W inst f [.string name, value]).2.udata (rs.headD .nil) .nil).toBool = true) := by
      rintro ⟨_, b⟩; exact hn ((bool_true_iff _).1 b)
    exact if_neg hc

/-- The amended statement of C13 at the parent level of the sample chain:
the hook returning true is accepted, the hook returning `yes` is not. -/
theorem set_accepts_boolean_true_witness :
    Bound chainWorld = true ∧
    resolveMethod chainWorld sampleInst 3 "_set" = .function 12 ∧
    (hookOutcome sampleEnv chainWorld sampleInst 12 [.string "x", .int 1]).1 = .ok [.boolean true] ∧
    (set_loop sampleEnv sampleInst "x" (.int 1) [3] chainWorld).1 = true ∧
    (hookOutcome truthyEnv chainWorld sampleInst 12 [.string "x", .int 1]).1 = .ok [.string "yes"] ∧
    (set_loop truthyEnv sampleInst "x" (.int 1) [3] chainWorld).1 = false :=
  ⟨by decide, by decide, by decide,
   congrArg Prod.fst ((set_accepts_boolean_true sampleEnv chainWorld sampleInst "x" (.int 1) 3 []
      12 [.boolean true] (by decide) (by decide) (by decide)).1 rfl),
   by decide,
   (congrArg Prod.fst ((set_accepts_boolean_true truthyEnv chainWorld sampleInst "x" (.int 1) 3 []
      12 [.string "yes"] (by decide) (by decide) (by decide)).2 (by decide)
      (fun u h => LuaValue.noConfusion h))).trans rfl⟩

/-! ## `get`: raw fields of ancestors and the hooks of nearer levels -/

theorem scriptProbes_split (sptr : LuaScriptPtr) (k : Nat) :
    scriptProbes sptr = nearerProbes sptr k ++ scriptProbes (sptr.drop k) := by
  induction sptr generalizing k with
  | nil => cases k <;> rfl
  | cons ref base ih =>
    cases k with
    | zero => rfl
    | succ k => simp only [scriptProbes, nearerProbes, List.drop_succ_cons, List.cons_append, ← ih k]

theorem firstYield_append (env : LuaEnv) (inst : LuaInstance) (name : String) (r_ret : Variant)
    (ps qs : List Probe) (L : World) :
    firstYield env inst name r_ret (ps ++ qs) L =
      match firstYield env inst name r_ret ps L with
      | some v => some v
      | none => firstYield env inst name r_ret qs (afterProbes env inst name r_ret ps L) := by
  induction ps generalizing L with
  | nil => rfl
  | cons p ps ih =>
    simp only [List.cons_append, firstYield_cons, afterProbes]
    cases (runProbe env inst name r_ret p L).1 with
    | some v => rfl
    | none => exact ih _

/-- C14, counterexample: on the sample chain the name `x` is absent from the
table of the instance and from the leaf script and is a raw field (5) of the
parent script; the `_get` hook of the leaf is invoked all the same, and its
result 9 is the answer of `get`, not the raw field of the parent. -/
theorem get_hook_before_parent_field :
    fieldAt chainWorld sampleInst.ref "x" = .nil ∧
    fieldAt chainWorld 3 "x" = .number 5 ∧
    (get hookedEnv chainWorld sampleInst "x" .nil).1 = true ∧
    (get hookedEnv chainWorld sampleInst "x" .nil).2.1 = .real 9 ∧
    (get hookedEnv chainWorld sampleInst "x" .nil).2.2.calls.map (·.fn) = [21] := by
  decide

/-- C14, amended: take a world in which the table of every bound object
holds its handle under `.c_instance`, and hooks that leave it so. Let the
name be absent from the table of the instance and let `ref` be the script
at level `k` of the chain. The steps of the nearer levels come first, level
by level: the raw field of the script table, then the `_get` hook of the
level, which is the function that `_get` resolves to there, run on the owner
and the name. When none of these steps yields (each nearer raw field is nil;
each nearer hook is missing, raises an error, or returns a value whose
conversion is NIL) and the raw field of `ref` is not nil in the world they
leave, `get` answers found with that raw field; when one of them yields,
`get` answers found with the first such yield, whatever the raw field of
`ref` is. -/
theorem get_nearest_raw_field (env : LuaEnv) (L : World) (inst : LuaInstance) (name : String)
    (r_ret : Variant) (k : Nat) (ref : Int) (post : LuaScriptPtr)
    (hb : Bound L = true) (hst : ∀ f a W, Bound W = true → Bound (env f a W).2 = true)
    (h0 : fieldAt L inst.ref (utf8_get_data name) = .nil)
    (hk : inst.script.drop k = ref :: post) :
    (firstYield env inst name r_ret (nearerProbes inst.script k) L = none →
      fieldAt (afterProbes env inst name r_ret (nearerProbes inst.script k) L) ref
        (utf8_get_data name) ≠ .nil →
      ((get env L inst name r_ret).1, (get env L inst name r_ret).2.1) =
        (true, toNative (afterProbes env inst name r_ret (nearerProbes inst.script k) L).tables
          (afterProbes env inst name r_ret (nearerProbes inst.script k) L).udata
          (fieldAt (afterProbes env inst name r_ret (nearerProbes inst.script k) L) ref
            (utf8_get_data name)) r_ret)) ∧
    (∀ v, firstYield env inst name r_ret (nearerProbes inst.script k) L = some v →
      ((get env L inst name r_ret).1, (get env L inst name r_ret).2.1) = (true, v)) := by
  rw [get_answer env L inst name r_ret hb hst, getProbes, firstYield_cons]
  have e1 : runProbe env inst name r_ret .instanceField L =
      (rawYield L (fieldAt L inst.ref (utf8_get_data name)) r_ret, L) := rfl
  have hy : rawYield L (fieldAt L inst.ref (utf8_get_data name)) r_ret = none := by
    simp [rawYield, h0]
  rw [e1, hy]
  simp only
  rw [scriptProbes_split inst.script k, firstYield_append, hk]
  constructor
  · intro hn hf
    rw [hn]
    simp only
    rw [scriptProbes, firstYield_field, if_neg hf]
    rfl
  · intro v hv
    rw [hv]
    rfl

/-- The amended statement of C14 on the sample chain, the parent script
being level 1: with hooks that return nothing the answer is the raw field 5
of the parent; with the leaf hook returning 9 the answer is 9. -/
theorem get_nearest_raw_field_witness :
    Bound chainWorld = true ∧
    fieldAt chainWorld sampleInst.ref (utf8_get_data "x") = .nil ∧
    sampleInst.script.drop 1 = [3] ∧
    firstYield sampleEnv sampleInst "x" .nil (nearerProbes sampleInst.script 1) chainWorld = none ∧
    ((get sampleEnv chainWorld sampleInst "x" .nil).1,
      (get sampleEnv chainWorld sampleInst "x" .nil).2.1) = (true, .real 5) ∧
    firstYield hookedEnv sampleInst "x" .nil (nearerProbes sampleInst.script 1) chainWorld =
      some (.real 9) ∧
    ((get hookedEnv chainWorld sampleInst "x" .nil).1,
      (get hookedEnv chainWorld sampleInst "x" .nil).2.1) = (true, .real 9) :=
  ⟨by decide, by decide, rfl, by decide,
   ((get_nearest_raw_field sampleEnv chainWorld sampleInst "x" .nil 1 3 [] (by decide)
      (fun f a W hW => by unfold sampleEnv; split <;> exact hW) (by decide) rfl).1
      (by decide) (by decide)).trans (by decide),
   by decide,
   (get_nearest_raw_field hookedEnv chainWorld sampleInst "x" .nil 1 3 [] (by decide)
      (fun f a W hW => by unfold hookedEnv; split <;> exact hW) (by decide) rfl).2
      (.real 9) (by decide)⟩

/-! ## `l_methodbind_wrapper`: the instance of a returned object -/

theorem pushObjectUserdata_exact (L : World) (obj : Nat) :
    pushObjectUserdata L obj =
      { L with stack := .userdata L.udata.length :: L.stack,
               udata := L.udata ++
                 [⟨obj, metaId (rawfield L.tables (some registry) (.string "GdObject"))⟩] } := by
  unfold pushObjectUserdata
  simp only [lua_newuserdata, storePtr, luaL_getmetatable, lua_getfield, push, lua_setmetatable,
    index2adr_neg_two, index2adr_registry]
  cases hx : rawfield L.tables (some registry) (.string "GdObject") <;> simp [metaId, hx]

theorem l_push_variant_unbound (L : World) (obj : Nat) (inst : LuaInstance) (h0 : obj ≠ 0)
    (hsi : get_script_instance L obj = some (.lua inst))
    (hnt : isTableValue (regslot L inst.ref) = false) :
    l_push_variant L (.object obj) = pushObjectUserdata L obj := by
  simp only [l_push_variant, Variant.get_type, Variant.toObject, h0, if_false, hsi]
  simp only [lua_rawgeti, push, index2adr_registry, lua_istable, lua_type, index2adr_neg_one,
    lua_pop_eq, List.drop_succ_cons, List.drop_zero]
  simp only [isTableValue, regslot] at hnt
  simp [hnt]

theorem l_push_variant_handle (L : World) (obj : Nat) (inst : LuaInstance) (v : LuaValue)
    (h0 : obj ≠ 0) (hsi : get_script_instance L obj = some (.lua inst))
    (ht : isTableValue (regslot L inst.ref) = true)
    (hc : fieldAt L inst.ref ".c_instance" = v) (hv : v ≠ .nil) :
    l_push_variant L (.object obj) = push L v := by
  simp only [l_push_variant, Variant.get_type, Variant.toObject, h0, if_false, hsi]
  simp only [lua_rawgeti, lua_pushstring, push, lua_rawget, index2adr_registry,
    index2adr_neg_two, lua_isnil, lua_istable, lua_type, index2adr_neg_one, typeOf_nil_iff,
    lua_remove]
  simp only [regslot, fieldAt, isTableValue] at ht hc
  simp [ht, hc, hv]

theorem map_of_lookup_none (l : List (Nat × ScriptInstance)) (obj : Nat) (x y : ScriptInstance)
    (h : l.lookup obj = none) :
    l.map (fun e => if e.1 = obj ∧ e.2 = x then (e.1, y) else e) = l := by
  induction l with
  | nil => rfl
  | cons e l ih =>
    obtain ⟨a, b⟩ := e
    rw [List.lookup_cons] at h
    cases hq : obj == a with
    | true => rw [hq] at h; cases h
    | false =>
      rw [hq] at h
      have hne : ¬ a = obj := fun hc => by simp [hc] at hq
      simp only [List.map_cons, hne, false_and, if_false, ih h]

theorem regslot_newtable (W : World) (hreg : W.tables ≠ []) (e : LuaTable) (k : LuaValue) :
    rawfield (W.tables ++ [e]) (some registry) k = rawfield W.tables (some registry) k := by
  unfold rawfield fieldsOf registry
  have h0 : 0 < W.tables.length := List.length_pos.2 hreg
  simp only [List.getElem?_append_left h0]

theorem init_bare (env : LuaEnv) (W : World) (obj : Nat) (hobj : obj ≠ 0)
    (hnone : get_script_instance W obj = none) (hreg : W.tables ≠ [])
    (hnoref : isTableValue (regslot W LUA_NOREF) = false) :
    init env (set_script_instance W obj
        (.lua { owner := obj, base_ref := false, ref := LUA_NOREF, script := [] }))
      { owner := obj, base_ref := false, ref := LUA_NOREF, script := [] } =
      (.OK, boundInstance W obj, boundWorld W obj) := by
  have hsi : get_script_instance (lua_newtable (set_script_instance W obj
      (.lua { owner := obj, base_ref := false, ref := LUA_NOREF, script := [] }))) obj =
      some (.lua { owner := obj, base_ref := false, ref := LUA_NOREF, script := [] }) := by
    simp [get_script_instance, lua_newtable, set_script_instance, List.lookup_cons]
  have hnt : isTableValue (regslot (lua_newtable (set_script_instance W obj
      (.lua { owner := obj, base_ref := false, ref := LUA_NOREF, script := [] }))) LUA_NOREF) =
      false := by
    simp only [regslot, lua_newtable, set_script_instance]
    rw [regslot_newtable W hreg]
    exact hnoref
  have hp := l_push_variant_unbound _ obj _ hobj hsi hnt
  have hmap := map_of_lookup_none W.objects obj
    (.lua { owner := obj, base_ref := false, ref := LUA_NOREF, script := [] })
    (.lua { owner := obj, base_ref := false, ref := W.nextref, script := [] }) hnone
  simp only [lua_newtable, set_script_instance, pushObjectUserdata_exact] at hp
  unfold init
  simp only [lua_newtable, set_script_instance, hp, lua_setfield, index2adr_neg_two, luaL_ref,
    storeRef, lua_gettop]
  simp only [ne_eq, not_true_eq_false, if_false, List.map_cons, hmap, and_self, if_true,
    regslot_newtable W hreg, Prod.mk.injEq, true_and]
  refine ⟨rfl, ?_⟩
  exact lua_settop_restore _ [] W.stack rfl

theorem rawstore_length (T : List LuaTable) (tv : Option LuaValue) (k v : LuaValue) :
    (rawstore T tv k v).length = T.length := by
  unfold rawstore
  split
  · split
    · simp
    · rfl
  · rfl

theorem boundWorld_reads (W : World) (obj : Nat) (hreg : W.tables ≠ []) :
    regslot (boundWorld W obj) W.nextref = .table W.tables.length ∧
    fieldAt (boundWorld W obj) W.nextref ".c_instance" = .userdata W.udata.length ∧
    blockPtr (boundWorld W obj).udata W.udata.length = obj := by
  have h0 : 0 < W.tables.length := List.length_pos.2 hreg
  have hr : regslot (boundWorld W obj) W.nextref = .table W.tables.length := by
    unfold regslot boundWorld registry
    exact rawfield_rawstore_self _ 0 _ _ (by rw [rawstore_length]; simp) (by simp)
  refine ⟨hr, ?_, ?_⟩
  · unfold fieldAt
    rw [hr]
    unfold boundWorld
    simp only
    rw [rawfield_rawstore_ne _ _ _ _ _ _ (by simp)]
    exact rawfield_rawstore_self _ _ _ _ (by simp) (by simp)
  · simp [boundWorld, blockPtr]

theorem l_push_bulltins_type_objects (L : World) (var : Variant) :
    (l_push_bulltins_type L var).objects = L.objects := by
  obtain ⟨ud, h⟩ := l_push_bulltins_type_eq L var
  rw [h]

theorem l_push_variant_objects (L : World) (var : Variant) :
    (l_push_variant L var).objects = L.objects := by
  cases var with
  | object obj =>
    simp only [l_push_variant, Variant.get_type, Variant.toObject]
    split
    · rfl
    · split
      · split
        · split
          · rfl
          · rw [pushObjectUserdata_exact]; simp [lua_pop_eq, lua_rawget, lua_pushstring, lua_rawgeti, push]
        · rw [pushObjectUserdata_exact]; simp [lua_pop_eq, lua_rawgeti, push]
      · rw [pushObjectUserdata_exact]
  | builtin t d =>
    cases t <;> first
      | rfl
      | exact l_push_bulltins_type_objects L _
  | _ => rfl

theorem toObject_ne_zero (ret : Variant) (h : ret.toObject ≠ 0) : ret = .object ret.toObject := by
  cases ret <;> first | rfl | exact absurd rfl h

theorem l_methodbind_wrapper_run (native : NativeEnv) (env : LuaEnv) (L : World) (mb self : Nat)
    (ret : Variant) (W : World)
    (hself : luaL_checkobject L 1 "GdObject" = some self)
    (hr : nativeReturn native L mb self = (ret, W)) (hobj : ret.toObject ≠ 0) :
    (l_methodbind_wrapper native env L mb).ret = .returned 1 ∧
    (get_script_instance W ret.toObject = none →
      (l_methodbind_wrapper native env L mb).world =
        l_push_variant (_ref_stacked (init env (set_script_instance W ret.toObject
          (.lua { owner := ret.toObject, base_ref := false, ref := LUA_NOREF, script := [] }))
          { owner := ret.toObject, base_ref := false, ref := LUA_NOREF, script := [] }).2.2 ret)
          ret) ∧
    (get_script_instance W ret.toObject ≠ none →
      (l_methodbind_wrapper native env L mb).world = l_push_variant W ret) := by
  unfold nativeReturn at hr
  simp only at hr
  unfold l_methodbind_wrapper
  simp only [hself, hr, ne_eq, hobj, not_false_eq_true, true_and, init_status, not_true_eq_false,
    if_false]
  by_cases hn : get_script_instance W ret.toObject = none
  · simp only [hn, if_true, not_true_eq_false, false_implies, and_true, true_implies]
    exact ⟨trivial, rfl⟩
  · simp only [hn, if_false, false_implies, not_false_eq_true, true_implies, and_self]

/-- C15: a run of `l_methodbind_wrapper` on a valid object whose native
method returns a non-null object `obj` returns one value. When `obj` has no
script instance after the native call (and the registry exists and keeps no
table under `LUA_NOREF`), the wrapper leaves `obj` with one instance, new,
without script and with the next free reference; under that reference the
registry keeps a new table whose field `.c_instance` is a new handle of
`obj`; the returned value is appended to the keep-alive pool; and the value
pushed for Lua is that handle. When `obj` has a script instance already,
the wrapper only converts the result: the script instances and the pool are
as the native call left them. -/
theorem l_methodbind_wrapper_binds (native : NativeEnv) (env : LuaEnv) (L : World)
    (mb self : Nat) (ret : Variant) (W : World)
    (hself : luaL_checkobject L 1 "GdObject" = some self)
    (hr : nativeReturn native L mb self = (ret, W)) (hobj : ret.toObject ≠ 0) :
    (l_methodbind_wrapper native env L mb).ret = .returned 1 ∧
    (get_script_instance W ret.toObject = none → W.tables ≠ [] →
      isTableValue (regslot W LUA_NOREF) = false →
      (l_methodbind_wrapper native env L mb).world =
        push (_ref_stacked (boundWorld W ret.toObject) ret) (.userdata W.udata.length) ∧
      (l_methodbind_wrapper native env L mb).world.objects =
        (ret.toObject, .lua (boundInstance W ret.toObject)) :: W.objects ∧
      get_script_instance (l_methodbind_wrapper native env L mb).world ret.toObject =
        some (.lua (boundInstance W ret.toObject)) ∧
      regslot (l_methodbind_wrapper native env L mb).world W.nextref =
        .table W.tables.length ∧
      fieldAt (l_methodbind_wrapper native env L mb).world W.nextref ".c_instance" =
        .userdata W.udata.length ∧
      blockPtr (l_methodbind_wrapper native env L mb).world.udata W.udata.length =
        ret.toObject ∧
      (l_methodbind_wrapper native env L mb).world.stackrefs = W.stackrefs ++ [ret] ∧
      (l_methodbind_wrapper native env L mb).world.stack =
        .userdata W.udata.length :: W.stack) ∧
    (∀ si, get_script_instance W ret.toObject = some si →
      (l_methodbind_wrapper native env L mb).world = l_push_variant W ret ∧
      (l_methodbind_wrapper native env L mb).world.objects = W.objects ∧
      get_script_instance (l_methodbind_wrapper native env L mb).world ret.toObject = some si ∧
      (l_methodbind_wrapper native env L mb).world.stackrefs = W.stackrefs) := by
  obtain ⟨h1, h2, h3⟩ := l_methodbind_wrapper_run native env L mb self ret W hself hr hobj
  refine ⟨h1, ?_, ?_⟩
  · intro hnone hreg hnoref
    obtain ⟨b1, b2, b3⟩ := boundWorld_reads W ret.toObject hreg
    have hsi : get_script_instance (_ref_stacked (boundWorld W ret.toObject) ret) ret.toObject =
        some (.lua (boundInstance W ret.toObject)) := by
      simp [get_script_instance, _ref_stacked, boundWorld, List.lookup_cons]
    have hpush : l_push_variant (_ref_stacked (boundWorld W ret.toObject) ret) ret =
        push (_ref_stacked (boundWorld W ret.toObject) ret) (.userdata W.udata.length) := by
      have hv := l_push_variant_handle (_ref_stacked (boundWorld W ret.toObject) ret) ret.toObject
        (boundInstance W ret.toObject) (.userdata W.udata.length) hobj hsi
        (by show isTableValue (regslot (boundWorld W ret.toObject) W.nextref) = true
            rw [b1]; rfl)
        b2 (by simp)
      rw [← toObject_ne_zero ret hobj] at hv
      exact hv
    have hw : (l_methodbind_wrapper native env L mb).world =
        push (_ref_stacked (boundWorld W ret.toObject) ret) (.userdata W.udata.length) := by
      rw [h2 hnone, init_bare env W ret.toObject hobj hnone hreg hnoref]
      exact hpush
    rw [hw]
    exact ⟨rfl, rfl, hsi, b1, b2, b3, rfl, rfl⟩
  · intro si hsi
    have hw := h3 (by rw [hsi]; simp)
    rw [hw]
    refine ⟨rfl, l_push_variant_objects W ret, ?_, (l_push_variant_nesting W ret).2⟩
    unfold get_script_instance at hsi ⊢
    rw [l_push_variant_objects]
    exact hsi

/-- The theorem `l_methodbind_wrapper_binds` in the world of the sample
chain. A method that returns the object `200`, which has no script instance:
the wrapper gives it an instance without script under the reference 4, puts
the result into the pool and pushes the new handle (block 1). A method that
returns the object `100`, which has its instance: the script instances and
the pool stay as they are and the handle that exists (block 0) is pushed. -/
theorem l_methodbind_wrapper_binds_witness :
    luaL_checkobject wrapperWorld 1 "GdObject" = some 100 ∧
    get_script_instance wrapperWorld 200 = none ∧
    get_script_instance (l_methodbind_wrapper spawnNative sampleEnv wrapperWorld 7).world 200 =
      some (.lua { owner := 200, base_ref := false, ref := 4, script := [] }) ∧
    fieldAt (l_methodbind_wrapper spawnNative sampleEnv wrapperWorld 7).world 4 ".c_instance" =
      .userdata 1 ∧
    (l_methodbind_wrapper spawnNative sampleEnv wrapperWorld 7).world.stackrefs = [.object 200] ∧
    (l_methodbind_wrapper spawnNative sampleEnv wrapperWorld 7).world.stack =
      [.userdata 1, .userdata 0] ∧
    (l_methodbind_wrapper echoNative sampleEnv wrapperWorld 7).world.objects =
      wrapperWorld.objects ∧
    (l_methodbind_wrapper echoNative sampleEnv wrapperWorld 7).world.stackrefs = [] ∧
    (l_methodbind_wrapper echoNative sampleEnv wrapperWorld 7).world.stack =
      [.userdata 0, .userdata 0] :=
  have hs := (l_methodbind_wrapper_binds spawnNative sampleEnv wrapperWorld 7 100 (.object 200)
    wrapperWorld (by decide) rfl (by decide)).2.1 (by decide) (by decide) (by decide)
  have he := (l_methodbind_wrapper_binds echoNative sampleEnv wrapperWorld 7 100 (.object 100)
    wrapperWorld (by decide) rfl (by decide)).2.2 (.lua sampleInst) (by decide)
  ⟨by decide, by decide, hs.2.2.1, hs.2.2.2.2.1, hs.2.2.2.2.2.2.1, hs.2.2.2.2.2.2.2,
   he.2.1, he.2.2.2, (congrArg World.stack he.1).trans (by decide)⟩

/-! ## Teardown -/

theorem lua_setmetatable_stack (W : World) (idx : Int) (m : LuaValue) (rest : List LuaValue)
    (h : W.stack = m :: rest) : (lua_setmetatable W idx).stack = rest := by
  unfold lua_setmetatable
  rw [h]
  simp only
  split
  · split <;> rfl
  · split <;> rfl
  · rfl

theorem clear_c_instance_reads (L : World) (ref : Int) :
    (clear_c_instance L ref).stack = L.stack ∧
    (∀ t k, k ≠ .string ".c_instance" →
      rawfield (clear_c_instance L ref).tables t k = rawfield L.tables t k) ∧
    rawfield (clear_c_instance L ref).tables (some (regslot L ref)) (.string ".c_instance") =
      .nil := by
  unfold clear_c_instance
  simp only [lua_rawgeti, lua_istable, lua_type, push, index2adr_neg_one, index2adr_registry,
    lua_getfield, lua_pushnil, lua_pop_eq, lua_setfield]
  have hr : rawfield L.tables (some registry) (.number (ref : Rat)) = regslot L ref := rfl
  rw [hr]
  split
  · have hst := lua_setmetatable_stack
      { L with stack := .nil :: rawfield L.tables (some (regslot L ref)) (.string ".c_instance") ::
          regslot L ref :: L.stack } (-2) _ _ rfl
    simp only [hst, List.drop_succ_cons, List.drop_zero, index2adr_neg_two]
    refine ⟨trivial, ?_, ?_⟩
    · intro t k hk
      rw [rawfield_rawstore_ne _ _ _ _ _ _ hk, rawfield_setmetatable]
    · exact rawfield_rawstore_self_nil _ _ _
  · rename_i hnt
    refine ⟨rfl, fun _ _ _ => rfl, ?_⟩
    unfold rawfield fieldsOf
    split
    · rename_i id heq
      simp only [Option.some.injEq] at heq
      rw [heq] at hnt
      exact absurd rfl hnt
    · rfl

theorem regslot_clear_c_instance (L : World) (ref r : Int) :
    regslot (clear_c_instance L ref) r = regslot L r :=
  (clear_c_instance_reads L ref).2.1 _ _ (by simp)

/-- C16: the destructor of an instance whose `ref` is not `LUA_NOREF` first
clears the field `.c_instance` of the table kept under `ref` and then hands
`ref` to `luaL_unref`, once: in the world between the two steps the
registry still keeps under `ref` what it kept before, the field reads nil
there, and the stack is as before; the world the destructor leaves is that
world after `luaL_unref`, in which a non-negative `ref` names nothing any
more; the list of released references is `ref` alone and the member `ref`
is `LUA_NOREF` afterwards. The destructor of an instance whose `ref` is
`LUA_NOREF` releases nothing and leaves the world and the instance as they
were. -/
theorem teardown_releases_once (L : World) (inst : LuaInstance) :
    (inst.ref ≠ LUA_NOREF →
      (LuaInstance.delete L inst).world =
        luaL_unref (clear_c_instance L inst.ref) inst.ref ∧
      regslot (clear_c_instance L inst.ref) inst.ref = regslot L inst.ref ∧
      fieldAt (clear_c_instance L inst.ref) inst.ref ".c_instance" = .nil ∧
      (clear_c_instance L inst.ref).stack = L.stack ∧
      (0 ≤ inst.ref → regslot (LuaInstance.delete L inst).world inst.ref = .nil) ∧
      (LuaInstance.delete L inst).released = [inst.ref] ∧
      (LuaInstance.delete L inst).inst.ref = LUA_NOREF) ∧
    (inst.ref = LUA_NOREF →
      (LuaInstance.delete L inst).world = L ∧
      (LuaInstance.delete L inst).released = [] ∧
      (LuaInstance.delete L inst).inst = inst) := by
  constructor
  · intro h
    have hd : LuaInstance.delete L inst =
        { world := luaL_unref (clear_c_instance L inst.ref) inst.ref,
          inst := { inst with ref := LUA_NOREF },
          erased := decide (inst.script ≠ [] ∧ inst.owner ≠ 0), released := [inst.ref] } := by
      unfold LuaInstance.delete
      simp only [h, ne_eq, not_false_eq_true, if_true]
    have hreg := regslot_clear_c_instance L inst.ref inst.ref
    refine ⟨by rw [hd], hreg, ?_, (clear_c_instance_reads L inst.ref).1, ?_, by rw [hd], by rw [hd]⟩
    · unfold fieldAt
      rw [hreg]
      exact (clear_c_instance_reads L inst.ref).2.2
    · intro hpos
      rw [hd]
      simp only [luaL_unref, hpos, if_true, regslot]
      exact rawfield_rawstore_self_nil _ _ _
  · intro h
    unfold LuaInstance.delete
    simp only [h, ne_eq, not_true_eq_false, if_false, and_self]

/-- The theorem `teardown_releases_once` at the instance that `init` made
for the object `100` without script: its reference is 1, the destructor
releases 1 and nothing else, and the field `.c_instance`, which held the
handle of the object before, reads nil; the destructor of the instance as it
was before `init` releases nothing. -/
theorem teardown_releases_once_witness :
    (init failingInitEnv bareWorld bareInst).2.1.ref = 1 ∧
    fieldAt (init failingInitEnv bareWorld bareInst).2.2 1 ".c_instance" = .userdata 0 ∧
    fieldAt (clear_c_instance (init failingInitEnv bareWorld bareInst).2.2 1) 1 ".c_instance" =
      .nil ∧
    (LuaInstance.delete (init failingInitEnv bareWorld bareInst).2.2
      (init failingInitEnv bareWorld bareInst).2.1).released = [1] ∧
    (LuaInstance.delete (init failingInitEnv bareWorld bareInst).2.2
      (init failingInitEnv bareWorld bareInst).2.1).inst.ref = LUA_NOREF ∧
    (LuaInstance.delete bareWorld bareInst).released = [] :=
  ⟨by decide, by decide,
   ((teardown_releases_once (init failingInitEnv bareWorld bareInst).2.2
      (init failingInitEnv bareWorld bareInst).2.1).1 (by decide)).2.2.1,
   ((teardown_releases_once (init failingInitEnv bareWorld bareInst).2.2
      (init failingInitEnv bareWorld bareInst).2.1).1 (by decide)).2.2.2.2.2.1,
   ((teardown_releases_once (init failingInitEnv bareWorld bareInst).2.2
      (init failingInitEnv bareWorld bareInst).2.1).1 (by decide)).2.2.2.2.2.2,
   ((teardown_releases_once bareWorld bareInst).2 rfl).2.1⟩

/-! ## The nesting depth and the keep-alive pool -/

theorem lua_pcall_stacklevel (env : LuaEnv)
    (hbal : ∀ f a W, (env f a W).2.stacklevel = W.stacklevel) (W : World) (k n : Nat) :
    (lua_pcall env W k n).2.stacklevel = W.stacklevel := by
  unfold lua_pcall
  simp only
  split
  · split
    · exact hbal _ _ _
    · exact hbal _ _ _
  · rfl
  · rfl

theorem _call_script_exit (env : LuaEnv)
    (hbal : ∀ f a W, (env f a W).2.stacklevel = W.stacklevel) (L : World) (sptr : LuaScriptPtr)
    (inst : LuaInstance) (m : String) (args : List Variant) (p_ret : Bool) :
    ∃ W, (_call_script env L sptr inst m args p_ret).2 = _cleanup_stacked W ∧
      W.stacklevel = L.stacklevel + 1 := by
  unfold _call_script
  simp only
  have hpre : ∀ W : World, W.stacklevel = L.stacklevel + 1 →
      ∃ X, (if lua_isfunction W (-1) = true then
        let L := l_push_variant W (.object inst.owner)
        let L := args.foldl l_push_variant L
        let r := lua_pcall env L (args.length + 1) (if p_ret then 1 else 0)
        if r.1 ≠ 0 then
          (Error.ERR_SCRIPT_FAILED, _cleanup_stacked (reportError r.2 (lua_tostring r.2 (-1)) m))
        else (Error.OK, _cleanup_stacked r.2)
      else (Error.ERR_SKIP, _cleanup_stacked W)).2 = _cleanup_stacked X ∧
        X.stacklevel = L.stacklevel + 1 := by
    intro W hW
    generalize (if p_ret = true then (1 : Nat) else 0) = n
    have hp : (lua_pcall env (args.foldl l_push_variant (l_push_variant W (.object inst.owner)))
        (args.length + 1) n).2.stacklevel = L.stacklevel + 1 := by
      rw [lua_pcall_stacklevel env hbal, (foldl_push_nesting _ _).1, (l_push_variant_nesting _ _).1, hW]
    split
    · simp only
      split
      · exact ⟨_, rfl, hp⟩
      · exact ⟨_, rfl, hp⟩
    · exact ⟨W, rfl, hW⟩
  apply hpre
  split
  · simp [lua_remove, lua_rawget, lua_pushstring, lua_rawgeti, push, lua_pop_eq, _start_stacked]
  · simp [lua_rawget, lua_pushstring, lua_rawgeti, push, _start_stacked]

theorem calleeWorld_nesting (L : World) (inst : LuaInstance) (f : Nat) (args : List Variant) :
    (calleeWorld L inst f args).stacklevel = L.stacklevel + 1 ∧
    (calleeWorld L inst f args).stackrefs = L.stackrefs := by
  have h := foldl_push_nesting (Variant.object inst.owner :: args) (callWorld L inst f)
  exact ⟨h.1, h.2⟩

/-- C17: `_call_script` leaves the nesting depth as it found it, on each of
its exits, when the function it calls does (as a function does whose native
calls are again calls of `_call_script`); the function itself runs one level
deeper, with the pool of the caller. The exit clears the keep-alive pool
when the depth before the call was zero. When it was not zero (a nested
call) the pool is kept: a call that is skipped leaves the pool as it was,
and a call that ran a function, with or without error, leaves the pool the
function left, so that what was registered before or during the nested call
is still there. -/
theorem _call_script_nesting (env : LuaEnv) (L : World) (sptr : LuaScriptPtr)
    (inst : LuaInstance) (m : String) (args : List Variant) (p_ret : Bool)
    (hbal : ∀ f a W, (env f a W).2.stacklevel = W.stacklevel) :
    (_call_script env L sptr inst m args p_ret).2.stacklevel = L.stacklevel ∧
    (L.stacklevel = 0 → (_call_script env L sptr inst m args p_ret).2.stackrefs = []) ∧
    (L.stacklevel ≠ 0 → (∀ f, resolveMethod L inst sptr.ref m ≠ .function f) →
      (_call_script env L sptr inst m args p_ret).2.stackrefs = L.stackrefs) ∧
    (L.stacklevel ≠ 0 → Bound L = true → ∀ f, resolveMethod L inst sptr.ref m = .function f →
      (calleeWorld L inst f args).stacklevel = L.stacklevel + 1 ∧
      (calleeWorld L inst f args).stackrefs = L.stackrefs ∧
      (_call_script env L sptr inst m args p_ret).2.stackrefs =
        (hookOutcome env L inst f args).2.stackrefs) := by
  obtain ⟨W, hW, hd⟩ := _call_script_exit env hbal L sptr inst m args p_ret
  refine ⟨?_, ?_, ?_, ?_⟩
  · rw [hW, _cleanup_stacked_stacklevel, hd]; omega
  · intro h0
    rw [hW, _cleanup_stacked_stackrefs, hd, h0]; rfl
  · intro hne hskip
    rw [_call_script_skip env L sptr inst m args p_ret hskip]
    simp only [_cleanup_stacked_stackrefs, _start_stacked]
    rw [if_neg (by omega)]
  · intro hne hb f hf
    refine ⟨(calleeWorld_nesting L inst f args).1, (calleeWorld_nesting L inst f args).2, ?_⟩
    have hout : (hookOutcome env L inst f args).2.stacklevel = L.stacklevel + 1 := by
      unfold hookOutcome
      rw [hbal, (calleeWorld_nesting L inst f args).1]
    rw [_call_script_function env L sptr inst m args p_ret f hb hf]
    cases hq : (hookOutcome env L inst f args).1 with
    | ok rs =>
      simp only [_cleanup_stacked_stackrefs, hout]
      rw [if_neg (by omega)]
    | error e =>
      simp only [_cleanup_stacked_stackrefs, reportError, hout]
      rw [if_neg (by omega)]

theorem innerEnv_balanced (f : Nat) (a : List LuaValue) (W : World) :
    (innerEnv f a W).2.stacklevel = W.stacklevel := by
  unfold innerEnv; split <;> rfl

/-- The theorem `_call_script_nesting` at a nested call and at the
outermost call that contains it. The inner call starts at depth 1 with the
value 1 in the pool and its function registers the value 2 at depth 2: when
it returns, the depth is 1 again and both values are in the pool. The outer
call starts at depth 0: when it returns, the depth is 0 and the pool is
empty. Both calls run their function. -/
theorem _call_script_nesting_witness :
    (∀ f a W, (innerEnv f a W).2.stacklevel = W.stacklevel) ∧
    (∀ f a W, (outerEnv f a W).2.stacklevel = W.stacklevel) ∧
    (_call_script innerEnv nestedWorld [3] sampleInst "base_only" [] false).2.stacklevel = 1 ∧
    (_call_script innerEnv nestedWorld [3] sampleInst "base_only" [] false).2.stackrefs =
      [.int 1, .int 2] ∧
    (_call_script outerEnv chainWorld [2, 3] sampleInst "m" [] false).2.stacklevel = 0 ∧
    (_call_script outerEnv chainWorld [2, 3] sampleInst "m" [] false).2.stackrefs = [] ∧
    (_call_script innerEnv nestedWorld [3] sampleInst "base_only" [] false).1 = .OK ∧
    (_call_script outerEnv chainWorld [2, 3] sampleInst "m" [] false).1 = .OK :=
  have hout : ∀ f a W, (outerEnv f a W).2.stacklevel = W.stacklevel := fun f a W => by
    unfold outerEnv
    split
    · exact (_call_script_nesting innerEnv (_ref_stacked W (.int 1)) [3] sampleInst "base_only" []
        false innerEnv_balanced).1
    · rfl
  ⟨innerEnv_balanced, hout,
   (_call_script_nesting innerEnv nestedWorld [3] sampleInst "base_only" [] false
      innerEnv_balanced).1,
   ((_call_script_nesting innerEnv nestedWorld [3] sampleInst "base_only" [] false
      innerEnv_balanced).2.2.2 (by decide) (by decide) 3 (by decide)).2.2.trans (by decide),
   (_call_script_nesting outerEnv chainWorld [2, 3] sampleInst "m" [] false hout).1,
   (_call_script_nesting outerEnv chainWorld [2, 3] sampleInst "m" [] false hout).2.1 rfl,
   by decide, by decide⟩

/-! ## `meta__index`: a key that nothing defines -/

theorem index2adr_two (a b c : LuaValue) : index2adr [a, b, c] 2 = some b := by
  simp [index2adr]

theorem index2adr_two_top (b c : LuaValue) : index2adr [b, c] 2 = some b := by
  simp [index2adr]

theorem index2adr_one (b c : LuaValue) : index2adr [b, c] 1 = some c := by
  simp [index2adr]

theorem probe_key (L : World) (ref : Int) (key : String) (self : LuaValue)
    (hs : L.stack = [.string key, self]) :
    lua_rawget (lua_pushvalue (lua_rawgeti L LUA_REGISTRYINDEX ref) 2) (-2) =
      { L with stack := fieldAt L ref key :: regslot L ref :: L.stack } := by
  simp only [lua_rawgeti, lua_pushvalue, push, lua_rawget, index2adr_registry, hs, index2adr_two,
    Option.getD_some, index2adr_neg_two, fieldAt, regslot]

theorem meta__index_loop_absent (key : String) (self : LuaValue) (sptr : LuaScriptPtr) (L : World)
    (hs : L.stack = [.string key, self]) (h : ∀ ref ∈ sptr, fieldAt L ref key = .nil) :
    meta__index_loop sptr L = (false, L) := by
  induction sptr with
  | nil => rfl
  | cons ref base ih =>
    have h1 : fieldAt L ref key = .nil := h ref (List.mem_cons_self _ _)
    unfold meta__index_loop
    simp only [LuaScriptPtr.ref, List.headD_cons, probe_key L ref key self hs, h1, lua_isnil,
      lua_type, index2adr_neg_one, typeOf, lua_pop_eq, List.drop_succ_cons, List.drop_zero]
    exact ih (fun r hr => h r (List.mem_cons_of_mem _ hr))

theorem index2adr_two_bottom (pre : List LuaValue) (b c : LuaValue) :
    index2adr (pre ++ [b, c]) 2 = some b := by
  simp [index2adr, List.reverse_append]

theorem methods_probe (L : World) (u mt : Nat) (key : String)
    (hs : L.stack = [.string key, .userdata u])
    (hmt : metatableOf L.tables L.udata (some (.userdata u)) = some mt) :
    lua_gettable (lua_pushvalue (lua_getfield (lua_getmetatable L 1).2 (-1) ".methods") 2) (-2) =
      { L with stack := methodsField L u key ::
          rawfield L.tables (some (.table mt)) (.string ".methods") :: .table mt :: L.stack } := by
  have h2 : index2adr [rawfield L.tables (some (.table mt)) (.string ".methods"), .table mt,
      .string key, .userdata u] 2 = some (.string key) :=
    index2adr_two_bottom [_, _] _ _
  simp only [lua_getmetatable, hs, index2adr_one, hmt, lua_getfield, push, index2adr_neg_one,
    lua_pushvalue, h2, Option.getD_some, lua_gettable, index2adr_neg_two, methodsField,
    Option.map_some']

theorem meta__index_native_absent (native : NativeEnv) (L : World) (u self : Nat) (key : String)
    (hs : L.stack = [.string key, .userdata u])
    (hmt : (metatableOf L.tables L.udata (some (.userdata u))).isSome = true)
    (hm : methodsField L u key = .nil)
    (hget : (native.get self key L).1 = none)
    (hconst : native.get_integer_constant self key = none)
    (hmeth : native.get_method self key = none) :
    meta__index_native native L self = (.returned 1, (native.get self key L).2) := by
  obtain ⟨mt, hmt2⟩ := Option.isSome_iff_exists.1 hmt
  have hp := methods_probe L u mt key hs hmt2
  have h2 : index2adr L.stack 2 = some (.string key) := by rw [hs]; exact index2adr_two_top _ _
  unfold meta__index_native
  simp only [hp, hm, lua_isnil, lua_type, index2adr_neg_one, typeOf, lua_pop_eq,
    List.drop_succ_cons, List.drop_zero, h2, hget, hconst, hmeth, beq_self_eq_true, Bool.not_true,
    Bool.false_eq_true, if_false]

theorem checkobject_metatable (L : World) (u self : Nat) (rest : LuaValue)
    (hs : L.stack = [rest, .userdata u]) (hself : luaL_checkobject L 1 "GdObject" = some self) :
    (metatableOf L.tables L.udata (some (.userdata u))).isSome = true := by
  unfold luaL_checkobject luaL_checkudata at hself
  simp only [lua_touserdata, hs, index2adr_one, lua_getmetatable] at hself
  cases hm : metatableOf L.tables L.udata (some (.userdata u)) with
  | none => rw [hm] at hself; simp at hself
  | some mt => rfl

/-- C18: the code at a key that no tier defines. `meta__index` is entered
with the handle of an object and a string key on the stack. When the key is
absent from the table of the instance and from the table of every script of
its chain (or the object has no script instance), from the table `.methods`
of the metatable, and the engine knows no property, no class constant and no
method of that name, the function comes to its last statement, `return 1`,
having pushed nothing: it returns one value, and that value is the key. -/
theorem meta__index_absent_returns_key (native : NativeEnv) (L : World) (u self : Nat)
    (key : String)
    (hs : L.stack = [.string key, .userdata u])
    (hself : luaL_checkobject L 1 "GdObject" = some self)
    (hsi : get_script_instance L self ≠ some .other)
    (hinst : ∀ inst, get_script_instance L self = some (.lua inst) →
      fieldAt L inst.ref key = .nil ∧ ∀ ref ∈ inst.script, fieldAt L ref key = .nil)
    (hm : methodsField L u key = .nil)
    (hget : (native.get self key L).1 = none)
    (hstk : (native.get self key L).2.stack = L.stack)
    (hconst : native.get_integer_constant self key = none)
    (hmeth : native.get_method self key = none) :
    meta__index native L = (.returned 1, (native.get self key L).2) ∧
    index2adr (meta__index native L).2.stack (-1) = some (.string key) := by
  have hmt := checkobject_metatable L u self _ hs hself
  have hnat := meta__index_native_absent native L u self key hs hmt hm hget hconst hmeth
  have hk : luaL_checkstring native L 2 = some (key, L) := by
    unfold luaL_checkstring
    simp only [hs, index2adr_two_top]
  have hmain : meta__index native L = (.returned 1, (native.get self key L).2) := by
    unfold meta__index
    simp only [hself, hk]
    cases hg : get_script_instance L self with
    | none => exact hnat
    | some si =>
      cases si with
      | other => exact absurd hg hsi
      | lua inst =>
        obtain ⟨h1, h2⟩ := hinst inst hg
        have hl := meta__index_loop_absent key (.userdata u) inst.script L hs h2
        simp only [probe_key L inst.ref key (.userdata u) hs, h1, lua_isnil, lua_type,
          index2adr_neg_one, typeOf, lua_pop_eq, List.drop_succ_cons, List.drop_zero,
          beq_self_eq_true, Bool.not_true, Bool.false_eq_true, if_false]
        have hl2 : meta__index_loop inst.script { L with stack := L.stack } = (false, L) := hl
        rw [hl2]
        exact hnat
  refine ⟨hmain, ?_⟩
  rw [hmain]
  simp only [hstk, hs, index2adr_neg_one, List.getElem?_cons_zero]

/-- The theorem `meta__index_absent_returns_key` at the expression
`self.missing` for the object of the sample chain: no table and nothing in
the engine defines `missing`, and the lookup returns one value, the string
`missing`. -/
theorem meta__index_absent_returns_key_witness :
    fieldAt indexWorld sampleInst.ref "missing" = .nil ∧
    (∀ ref ∈ sampleInst.script, fieldAt indexWorld ref "missing" = .nil) ∧
    methodsField indexWorld 0 "missing" = .nil ∧
    meta__index idleNative indexWorld = (.returned 1, indexWorld) ∧
    index2adr (meta__index idleNative indexWorld).2.stack (-1) = some (.string "missing") :=
  ⟨by decide, by decide, by decide,
   (meta__index_absent_returns_key idleNative indexWorld 0 100 "missing" rfl (by decide)
      (by decide) (fun inst h => by
        have hi : inst = sampleInst := by
          have h2 : get_script_instance indexWorld 100 = some (.lua sampleInst) := by decide
          rw [h2] at h
          injection h with h3
          injection h3 with h4
          exact h4.symm
        subst hi
        exact ⟨by decide, by decide⟩)
      (by decide) rfl rfl rfl rfl).1,
   (meta__index_absent_returns_key idleNative indexWorld 0 100 "missing" rfl (by decide)
      (by decide) (fun inst h => by
        have hi : inst = sampleInst := by
          have h2 : get_script_instance indexWorld 100 = some (.lua sampleInst) := by decide
          rw [h2] at h
          injection h with h3
          injection h3 with h4
          exact h4.symm
        subst hi
        exact ⟨by decide, by decide⟩)
      (by decide) rfl rfl rfl rfl).2⟩

end LuaBinding
